import Mathlib

/-!
# RedisGraph: the graph-entity property facade

A shallow embedding of `src/graph/entities/graph_entity.c` (with
`graph_entity.h`), of `src/commands/cmd_delete.c` and of the generated kernel
`GB_unaryop__minv_uint32_uint16.c`, and theorems about them.

State is passed explicitly: a C function that mutates the graph reached
through `QueryCtx_GetGraph()` and the entity reached through its pointer takes
the graph and the entity and returns the updated pair.  A failed `assert`
aborts the process and is the fault `Fault.assertion`; a `while` loop is a
recursion on a fuel counter and running out of fuel is `Fault.outOfFuel`; an
access outside an array or an allocation is `Fault.outOfBounds`; reading
through a null pointer is `Fault.nullPointer`.  The `assert`
macro is taken as enabled (`NDEBUG` undefined): the source evaluates calls
with side effects inside `assert`.
-/

namespace RedisGraph

/-! ## Data model -/

/-- The C type `Attribute_ID` is `unsigned short`: a natural number below
`2 ^ 16`; an increment is reduced modulo `2 ^ 16` where the source increments. -/
abbrev Attribute_ID := Nat

/-- The C type `EntityID` is `GrB_Index`, an unsigned 64-bit index. -/
abbrev EntityID := Nat

/-- The largest `unsigned short`. -/
def USHRT_MAX : Nat := 65535

/-- Number of values of an `unsigned short`. -/
def USHRT_RANGE : Nat := 65536

/-- The macro `ATTRIBUTE_NOTFOUND` of `graph_entity.h`. -/
def ATTRIBUTE_NOTFOUND : Attribute_ID := USHRT_MAX

/-- Enumerator `GETYPE_UNKNOWN` of `GraphEntityType`. -/
def GETYPE_UNKNOWN : Nat := 0

/-- Enumerator `GETYPE_NODE` of `GraphEntityType`. -/
def GETYPE_NODE : Nat := 1

/-- Enumerator `GETYPE_EDGE` of `GraphEntityType`. -/
def GETYPE_EDGE : Nat := 2

/-- Modelled from the spec: the type tag of a property value (`value.h` is not
among the embedded files); only `T_NULL` is inspected by the entity code. -/
inductive SIType where
  | T_NULL
  | T_STRING
  | T_INT64
  | T_BOOL
  deriving DecidableEq, Repr

/-- Modelled from the spec: the allocation tag of a property value (`value.h`
is not among the embedded files); the entity code tests for `M_NONE` and
assigns `M_CONST`. -/
inductive SIAllocation where
  | M_NONE
  | M_SELF
  | M_VOLATILE
  | M_CONST
  deriving DecidableEq, Repr

/-- Modelled from the spec: the union carried by a property value, an integer
(`longval`) or a string (`stringval`). -/
inductive SIPayload where
  | longval (n : Int)
  | stringval (s : String)
  deriving DecidableEq, Repr

/-- Modelled from the spec: the tagged property value `SIValue` of `value.h`. -/
structure SIValue where
  payload : SIPayload
  type : SIType
  allocation : SIAllocation
  deriving DecidableEq, Repr

/-- Modelled from the spec: `SI_NullVal()`, the null sentinel; it is the
initialiser of `PROPERTY_NOTFOUND` in `graph_entity.c` (`longval = 0`,
`type = T_NULL`) with no allocation. -/
def SI_NullVal : SIValue :=
  { payload := SIPayload.longval 0, type := SIType.T_NULL, allocation := SIAllocation.M_NONE }

/-- Modelled from the spec: `SIValue_IsNull`, the test for the null type tag. -/
def SIValue_IsNull (v : SIValue) : Bool :=
  decide (v.type = SIType.T_NULL)

/-- Modelled from the spec: `SI_CloneValue`, a deep copy, "so the caller's copy
and the stored copy have independent lifetimes": type and payload are kept, a
value without allocation stays so and any other value becomes self-owned. -/
def SI_CloneValue (v : SIValue) : SIValue :=
  if v.allocation = SIAllocation.M_NONE then v
  else { v with allocation := SIAllocation.M_SELF }

/-- Two property values are equal as values when type tag and payload agree;
the allocation tag says who owns the memory, not what the value is. -/
def SIValue.sameValue (a b : SIValue) : Prop :=
  a.type = b.type ∧ a.payload = b.payload

instance (a b : SIValue) : Decidable (SIValue.sameValue a b) := by
  unfold SIValue.sameValue; exact inferInstance

/-- The struct `Entity` of `graph_entity.h`: `entity_type` is a two-bit
unsigned field, `prop_count` a C `int`.  The field is held as an integer; C
defines `prop_count++` only below `INT_MAX` and `prop_count--` only above
`INT_MIN`, and there the integer arithmetic of the embedding is the arithmetic
of the code. -/
structure Entity where
  id : EntityID
  entity_type : Nat
  prop_count : Int
  deriving DecidableEq, Repr

/-- The largest value of the C type `int` (32 bits). -/
def INT_MAX : Int := 2147483647

/-- The smallest value of the C type `int` (32 bits). -/
def INT_MIN : Int := -2147483648

/-- The struct `GraphEntity` of `graph_entity.h`: a pointer to an `Entity`;
every function of the file dereferences it, so the pointee is held directly. -/
structure GraphEntity where
  entity : Entity
  deriving DecidableEq, Repr

/-- The macro `ENTITY_GET_ID` on a graph entity whose `entity` is not null. -/
def ENTITY_GET_ID (e : GraphEntity) : EntityID := e.entity.id

/-- The macro `ENTITY_PROP_COUNT`. -/
def ENTITY_PROP_COUNT (e : GraphEntity) : Int := e.entity.prop_count

/-- The macro `ENTITY_TYPE`. -/
def ENTITY_TYPE (e : GraphEntity) : Nat := e.entity.entity_type

/-- How a call can fail to return. -/
inductive Fault where
  | assertion
  | outOfFuel
  | outOfBounds
  | nullPointer
  deriving DecidableEq, Repr

/-! ## The matrix capability -/

/-- Modelled from the spec: a sparse matrix of property values with its
PendingDeletionSet.  `entries` is the backing structure, `pending` the set of
cells whose removal is queued and not yet applied.  Dimensions are not
modelled: the spec sizes every matrix to cover all live entity ids. -/
structure GrB_Matrix where
  entries : Nat → Nat → Option SIValue
  pending : Nat → Nat → Bool

/-- Modelled from the spec: `GrB_Matrix_extractElement_UDT`; `some v` is
`GrB_SUCCESS` with `v` copied out, `none` is any other status.  "A cell present
in a PendingDeletionSet is treated as logically absent by every read
operation even though the backing structure has not yet been compacted." -/
def GrB_Matrix_extractElement_UDT (m : GrB_Matrix) (row col : Nat) : Option SIValue :=
  if m.pending row col then none else m.entries row col

/-- Modelled from the spec: `GrB_Matrix_setElement_UDT`; a Set applies
immediately and "Set after Delete on the same cell cancels the pending
deletion rather than leaving it queued". -/
def GrB_Matrix_setElement_UDT (m : GrB_Matrix) (x : SIValue) (row col : Nat) : GrB_Matrix :=
  { entries := fun i j => if i = row ∧ j = col then some x else m.entries i j
    pending := fun i j => if i = row ∧ j = col then false else m.pending i j }

/-- Modelled from the spec: `GxB_Matrix_Delete`; a Delete is never applied
immediately, the cell is enqueued into the PendingDeletionSet.  The call
reports `GrB_SUCCESS`. -/
def GxB_Matrix_Delete (m : GrB_Matrix) (row col : Nat) : GrB_Matrix :=
  { entries := m.entries
    pending := fun i j => if i = row ∧ j = col then true else m.pending i j }

/-- Modelled from the spec: Flush/Wait, "apply all queued deletions to the
backing structure, making them real structural removals". -/
def GrB_Matrix_wait (m : GrB_Matrix) : GrB_Matrix :=
  { entries := fun i j => if m.pending i j then none else m.entries i j
    pending := fun _ _ => false }

/-- The empty matrix the catalog allocates for a new attribute. -/
def GrB_Matrix.empty : GrB_Matrix :=
  { entries := fun _ _ => none, pending := fun _ _ => false }

/-! ## The graph and the attribute catalog -/

/-- Modelled from the spec: the Attribute Matrix Set of a graph, one matrix per
attribute id for nodes and one per attribute id for edges (`graph.h` is not
among the embedded files). -/
structure Graph where
  node_attributes : List GrB_Matrix
  edge_attributes : List GrB_Matrix

/-- Modelled from the spec: `Graph_GetNodeAttributeMatrix`; the matrix of an
attribute id the catalog has assigned, `none` (`GrB_NULL`) for any other id. -/
def Graph_GetNodeAttributeMatrix (g : Graph) (attr_id : Attribute_ID) : Option GrB_Matrix :=
  g.node_attributes[attr_id]?

/-- Modelled from the spec: `Graph_GetEdgeAttributeMatrix`, as for nodes. -/
def Graph_GetEdgeAttributeMatrix (g : Graph) (attr_id : Attribute_ID) : Option GrB_Matrix :=
  g.edge_attributes[attr_id]?

/-- The matrix selection every function of the file performs:
`if(entity_type == GETYPE_NODE) m = Graph_GetNodeAttributeMatrix(g, attr_id);
else m = Graph_GetEdgeAttributeMatrix(g, attr_id);`. -/
def Graph.attributeMatrix (g : Graph) (entity_type : Nat) (attr_id : Attribute_ID) :
    Option GrB_Matrix :=
  if entity_type = GETYPE_NODE then Graph_GetNodeAttributeMatrix g attr_id
  else Graph_GetEdgeAttributeMatrix g attr_id

/-- The matrices an entity of the given type tag reads and writes. -/
def Graph.attributeMatrices (g : Graph) (entity_type : Nat) : List GrB_Matrix :=
  if entity_type = GETYPE_NODE then g.node_attributes else g.edge_attributes

/-- A matrix handle is a pointer into the graph: mutating the matrix obtained
by `Graph.attributeMatrix g entity_type attr_id` updates the graph in place. -/
def Graph.storeAttributeMatrix (g : Graph) (entity_type : Nat) (attr_id : Attribute_ID)
    (m : GrB_Matrix) : Graph :=
  if entity_type = GETYPE_NODE then { g with node_attributes := g.node_attributes.set attr_id m }
  else { g with edge_attributes := g.edge_attributes.set attr_id m }

/-- Modelled from the spec: the Attribute Catalog held by the graph context,
the names of the assigned attribute ids in order of assignment
(`graphcontext.h` is not among the embedded files). -/
structure GraphContext where
  attributes : List String

/-- Modelled from the spec: `GraphContext_GetAttributeString`, `name_of` of the
catalog; `none` is the null pointer for an id that was never assigned. -/
def GraphContext_GetAttributeString (gc : GraphContext) (attr_id : Attribute_ID) :
    Option String :=
  gc.attributes[attr_id]?

/-! ## graph_entity.c -/

/-- The function `_GraphEntity_RemoveProperty` of `graph_entity.c`. -/
def _GraphEntity_RemoveProperty (g : Graph) (e : Entity) (attr_id : Attribute_ID) :
    Except Fault (Graph × Entity) :=
  if e.prop_count = 0 then Except.ok (g, e)
  else
    match g.attributeMatrix e.entity_type attr_id with
    | none => Except.error Fault.assertion
    | some m =>
      match GrB_Matrix_extractElement_UDT m e.id e.id with
      | some _ =>
        Except.ok (g.storeAttributeMatrix e.entity_type attr_id (GxB_Matrix_Delete m e.id e.id),
          { e with prop_count := e.prop_count - 1 })
      | none => Except.ok (g, e)

/-- The function `GraphEntity_AddProperty` of `graph_entity.c`. -/
def GraphEntity_AddProperty (g : Graph) (e : GraphEntity) (attr_id : Attribute_ID)
    (value : SIValue) : Except Fault (Graph × GraphEntity) :=
  let e1 : GraphEntity := { entity := { e.entity with prop_count := e.entity.prop_count + 1 } }
  match g.attributeMatrix (ENTITY_TYPE e1) attr_id with
  | none => Except.error Fault.assertion
  | some m =>
    let clone := SI_CloneValue value
    Except.ok (g.storeAttributeMatrix (ENTITY_TYPE e1) attr_id
      (GrB_Matrix_setElement_UDT m clone (ENTITY_GET_ID e1) (ENTITY_GET_ID e1)), e1)

/-- The function `GraphEntity_GetProperty` of `graph_entity.c`; the result is
the value written through `v`. -/
def GraphEntity_GetProperty (g : Graph) (e : GraphEntity) (attr_id : Attribute_ID) :
    Except Fault SIValue :=
  if attr_id = ATTRIBUTE_NOTFOUND ∨ ENTITY_PROP_COUNT e = 0 then Except.ok SI_NullVal
  else
    match g.attributeMatrix (ENTITY_TYPE e) attr_id with
    | none => Except.error Fault.assertion
    | some m =>
      match GrB_Matrix_extractElement_UDT m (ENTITY_GET_ID e) (ENTITY_GET_ID e) with
      | none => Except.ok SI_NullVal
      | some v =>
        Except.ok (if v.allocation ≠ SIAllocation.M_NONE
          then { v with allocation := SIAllocation.M_CONST } else v)

/-- The function `GraphEntity_SetProperty` of `graph_entity.c`. -/
def GraphEntity_SetProperty (g : Graph) (e : GraphEntity) (attr_id : Attribute_ID)
    (value : SIValue) : Except Fault (Graph × GraphEntity) :=
  match _GraphEntity_RemoveProperty g e.entity attr_id with
  | Except.error f => Except.error f
  | Except.ok (g1, ent1) =>
    if SIValue_IsNull value then Except.ok (g1, { entity := ent1 })
    else GraphEntity_AddProperty g1 { entity := ent1 } attr_id (SI_CloneValue value)

/-- The loop of `FreeEntity`:
`while(e->prop_count) _GraphEntity_RemoveProperty(e, attr_id++);`. -/
def FreeEntity_loop : Nat → Graph → Entity → Attribute_ID → Except Fault (Graph × Entity)
  | 0, g, e, _ => if e.prop_count = 0 then Except.ok (g, e) else Except.error Fault.outOfFuel
  | fuel + 1, g, e, attr_id =>
    if e.prop_count = 0 then Except.ok (g, e)
    else
      match _GraphEntity_RemoveProperty g e attr_id with
      | Except.error f => Except.error f
      | Except.ok (g1, e1) => FreeEntity_loop fuel g1 e1 ((attr_id + 1) % USHRT_RANGE)

/-- The function `FreeEntity` of `graph_entity.c`, with the fuel of its loop. -/
def FreeEntity (fuel : Nat) (g : Graph) (e : Entity) : Except Fault (Graph × Entity) :=
  FreeEntity_loop fuel g e 0

/-- The three output arrays of `GraphEntity_GetProperties`: `attr_ids` and
`attr_names` are optional (a null pointer is `none`), `vs` is required; the
caller supplies them with arbitrary contents.  An element of `attr_names` is a
`const char *`, `none` being the null pointer. -/
structure PropertyArrays where
  attr_ids : Option (List Attribute_ID)
  attr_names : Option (List (Option String))
  vs : List SIValue
  deriving DecidableEq, Repr

/-- The assignment `xs[i] = x` into a caller-supplied array with a C `int`
index; an index outside the array is undefined behaviour in C. -/
def writeSlot {α : Type} (xs : List α) (i : Int) (x : α) : Except Fault (List α) :=
  if 0 ≤ i ∧ i.toNat < xs.length then Except.ok (xs.set i.toNat x)
  else Except.error Fault.outOfBounds

/-- The guarded assignment `if(xs) xs[i] = x` into an optional array. -/
def writeOptionalSlot {α : Type} (xs : Option (List α)) (i : Int) (x : α) :
    Except Fault (Option (List α)) :=
  match xs with
  | none => Except.ok none
  | some l =>
    match writeSlot l i x with
    | Except.error f => Except.error f
    | Except.ok l1 => Except.ok (some l1)

/-- The loop of `GraphEntity_GetProperties`, `while(attr_count) { ... attr_id++; }`.
Next to the output arrays the state carries the list of attribute ids handed
to `GrB_Matrix_extractElement_UDT` so far, in order of the calls; the list is
an observation of the run and influences nothing. -/
def GraphEntity_GetProperties_loop (gc : GraphContext) (g : Graph) (e : GraphEntity) :
    Nat → Attribute_ID → Int → PropertyArrays → List Attribute_ID →
      Except Fault (PropertyArrays × List Attribute_ID)
  | 0, _, attr_count, out, probes =>
    if attr_count = 0 then Except.ok (out, probes) else Except.error Fault.outOfFuel
  | fuel + 1, attr_id, attr_count, out, probes =>
    if attr_count = 0 then Except.ok (out, probes)
    else
      match g.attributeMatrix (ENTITY_TYPE e) attr_id with
      | none => Except.error Fault.assertion
      | some m =>
        match GrB_Matrix_extractElement_UDT m (ENTITY_GET_ID e) (ENTITY_GET_ID e) with
        | some v =>
          match writeOptionalSlot out.attr_ids (attr_count - 1) attr_id with
          | Except.error f => Except.error f
          | Except.ok ids1 =>
            match writeOptionalSlot out.attr_names (attr_count - 1)
                (GraphContext_GetAttributeString gc attr_id) with
            | Except.error f => Except.error f
            | Except.ok names1 =>
              let v1 : SIValue :=
                if v.allocation ≠ SIAllocation.M_NONE
                then { v with allocation := SIAllocation.M_CONST } else v
              match writeSlot out.vs (attr_count - 1) v1 with
              | Except.error f => Except.error f
              | Except.ok vs1 =>
                GraphEntity_GetProperties_loop gc g e fuel ((attr_id + 1) % USHRT_RANGE)
                  (attr_count - 1) { attr_ids := ids1, attr_names := names1, vs := vs1 }
                  (probes ++ [attr_id])
        | none =>
          GraphEntity_GetProperties_loop gc g e fuel ((attr_id + 1) % USHRT_RANGE)
            attr_count out (probes ++ [attr_id])

/-- The function `GraphEntity_GetProperties` of `graph_entity.c`, with the fuel
of its loop: the arrays after the call and the attribute ids probed. -/
def GraphEntity_GetProperties (fuel : Nat) (gc : GraphContext) (g : Graph) (e : GraphEntity)
    (out : PropertyArrays) : Except Fault (PropertyArrays × List Attribute_ID) :=
  GraphEntity_GetProperties_loop gc g e fuel 0 (ENTITY_PROP_COUNT e) out []

/-! ## Specification vocabulary -/

/-- The value a read hands out for a stored value: the allocation tag of a
value that owns memory is replaced by `M_CONST`. -/
def SIValue.borrowed (v : SIValue) : SIValue :=
  if v.allocation ≠ SIAllocation.M_NONE then { v with allocation := SIAllocation.M_CONST } else v

/-- The matrix holds a (logically present) diagonal cell at the entity id. -/
def GrB_Matrix.hasCell (m : GrB_Matrix) (id : EntityID) : Bool :=
  (GrB_Matrix_extractElement_UDT m id id).isSome

/-- The logically present diagonal cell of attribute `attr_id` at an entity id,
in the matrices selected by the type tag; `none` when the cell is absent or
the attribute has no matrix. -/
def Graph.cell (g : Graph) (entity_type : Nat) (attr_id : Attribute_ID) (id : EntityID) :
    Option SIValue :=
  match g.attributeMatrix entity_type attr_id with
  | none => none
  | some m => GrB_Matrix_extractElement_UDT m id id

/-- The logically present cell `(row, col)` of attribute `attr_id` in the
matrices selected by the type tag; `none` when the cell is absent or the
attribute has no matrix. -/
def Graph.entry (g : Graph) (entity_type : Nat) (attr_id : Attribute_ID) (row col : Nat) :
    Option SIValue :=
  match g.attributeMatrix entity_type attr_id with
  | none => none
  | some m => GrB_Matrix_extractElement_UDT m row col

/-- Flush/Wait applied to the matrix of one attribute held by the graph. -/
def Graph.waitAttributeMatrix (g : Graph) (entity_type : Nat) (attr_id : Attribute_ID) : Graph :=
  match g.attributeMatrix entity_type attr_id with
  | none => g
  | some m => g.storeAttributeMatrix entity_type attr_id (GrB_Matrix_wait m)

/-- Number of attribute matrices of the kind selected by the type tag that hold
a diagonal cell at the entity id. -/
def Graph.setCount (g : Graph) (entity_type : Nat) (id : EntityID) : Nat :=
  (g.attributeMatrices entity_type).countP (fun m => m.hasCell id)

/-- The prop_count/presence invariant for one entity. -/
def PropCountInvariant (g : Graph) (e : Entity) : Prop :=
  e.prop_count = (g.setCount e.entity_type e.id : Int)

instance (g : Graph) (e : Entity) : Decidable (PropCountInvariant g e) := by
  unfold PropCountInvariant; exact inferInstance

/-- Two type tags select the same family of attribute matrices. -/
def sameKind (t1 t2 : Nat) : Prop :=
  (t1 = GETYPE_NODE ↔ t2 = GETYPE_NODE)

instance (t1 t2 : Nat) : Decidable (sameKind t1 t2) := by
  unfold sameKind; exact inferInstance

/-- The properties set on an entity id in a list of attribute matrices whose
first matrix belongs to attribute id `k`: the pairs of attribute id and stored
value, in ascending order of attribute id. -/
def storedProperties : List GrB_Matrix → EntityID → Attribute_ID → List (Attribute_ID × SIValue)
  | [], _, _ => []
  | m :: ms, id, k =>
    match GrB_Matrix_extractElement_UDT m id id with
    | some v => (k, v) :: storedProperties ms id (k + 1)
    | none => storedProperties ms id (k + 1)

/-- Number of leading matrices up to and including the last one that holds a
cell at the entity id (zero when none does). -/
def probeSpan : List GrB_Matrix → EntityID → Nat
  | [], _ => 0
  | m :: ms, id => if (m :: ms).countP (fun x => x.hasCell id) = 0 then 0 else probeSpan ms id + 1

/-! ## Concrete states -/

/-- The string value "Alice", owned by the caller. -/
def sampleAlice : SIValue :=
  { payload := SIPayload.stringval "Alice", type := SIType.T_STRING,
    allocation := SIAllocation.M_VOLATILE }

/-- The string value "Bob", owned by the caller. -/
def sampleBob : SIValue :=
  { payload := SIPayload.stringval "Bob", type := SIType.T_STRING,
    allocation := SIAllocation.M_VOLATILE }

/-- The integer value 42. -/
def sampleAge : SIValue :=
  { payload := SIPayload.longval 42, type := SIType.T_INT64, allocation := SIAllocation.M_NONE }

/-- A catalog with three attributes: 0 is "name", 1 is "age", 2 is "city". -/
def sampleCatalog : GraphContext := { attributes := ["name", "age", "city"] }

/-- A graph with three empty node attribute matrices and one empty edge
attribute matrix. -/
def sampleEmptyGraph : Graph :=
  { node_attributes := [GrB_Matrix.empty, GrB_Matrix.empty, GrB_Matrix.empty]
    edge_attributes := [GrB_Matrix.empty] }

/-- Node 0 without properties. -/
def sampleNode : GraphEntity := { entity := { id := 0, entity_type := GETYPE_NODE, prop_count := 0 } }

/-- The graph in which node 0 has `name = "Alice"` and nothing else is set. -/
def sampleAliceGraph : Graph :=
  sampleEmptyGraph.storeAttributeMatrix GETYPE_NODE 0
    (GrB_Matrix_setElement_UDT GrB_Matrix.empty (SI_CloneValue sampleAlice) 0 0)

/-- Node 0 with one property. -/
def sampleNodeOne : GraphEntity :=
  { entity := { id := 0, entity_type := GETYPE_NODE, prop_count := 1 } }

/-- The graph in which node 0 has `name = "Alice"` and `city = 42`. -/
def sampleTwoGraph : Graph :=
  sampleAliceGraph.storeAttributeMatrix GETYPE_NODE 2
    (GrB_Matrix_setElement_UDT GrB_Matrix.empty (SI_CloneValue sampleAge) 0 0)

/-- Node 0 with two properties. -/
def sampleNodeTwo : GraphEntity :=
  { entity := { id := 0, entity_type := GETYPE_NODE, prop_count := 2 } }

/-- Output arrays of length 1 with arbitrary contents. -/
def sampleArraysOne : PropertyArrays :=
  { attr_ids := some [7], attr_names := some [none], vs := [SI_NullVal] }

/-- Output arrays of length 2 with arbitrary contents. -/
def sampleArraysTwo : PropertyArrays :=
  { attr_ids := some [7, 7], attr_names := some [none, none], vs := [SI_NullVal, SI_NullVal] }

/-- The graph after `GraphEntity_AddProperty` of the null value as attribute 0
of node 0 of the empty graph: the matrix holds a null cell. -/
def sampleNullCellGraph : Graph :=
  sampleEmptyGraph.storeAttributeMatrix GETYPE_NODE 0
    (GrB_Matrix_setElement_UDT GrB_Matrix.empty (SI_CloneValue SI_NullVal) 0 0)

/-- The graph `sampleTwoGraph` after the removal of `name` of node 0 has been
queued: the cell `(0, 0)` of attribute 0 is pending deletion, `city = 42` is
still set. -/
def sampleNameRemovedGraph : Graph :=
  sampleTwoGraph.storeAttributeMatrix GETYPE_NODE 0
    (GxB_Matrix_Delete
      (GrB_Matrix_setElement_UDT GrB_Matrix.empty (SI_CloneValue sampleAlice) 0 0) 0 0)

/-! ## cmd_delete.c -/

/-- The return code `REDISMODULE_OK` of the Redis module API. -/
def REDISMODULE_OK : Int := 0

/-- The key mode `REDISMODULE_WRITE` of the Redis module API. -/
def REDISMODULE_WRITE : Nat := 2

/-- A call `MGraph_Delete` makes into the Redis module API, the query context
or the graph context, with the arguments that matter; the calls of one run
are recorded in the order in which they are made. -/
inductive ModuleCall where
  | RedisModule_WrongArity
  | QueryCtx_BeginTimer
  | GraphContext_Retrieve (graph_name : String) (shouldCreate : Bool) (incRef : Bool)
  | RedisModule_ReplyWithError (msg : String)
  | RedisModule_OpenKey (graph_name : String) (mode : Nat)
  | RedisModule_DeleteKey (graph_name : String)
  | GraphContext_Release (gc : Nat)
  | QueryCtx_GetExecutionTime
  | RedisModule_ReplyWithStringBuffer (text : String)
  | QueryCtx_Free
  | free (text : String)
  | RedisModule_ReplicateVerbatim
  deriving DecidableEq, Repr

/-- The function `MGraph_Delete` of `cmd_delete.c`.  `wrongArity` is what the
call `RedisModule_WrongArity(ctx)` of the Redis module API returns, which the
function passes on.  The keyspace is the parameter `retrieve`: what
`GraphContext_Retrieve` returns for a graph name, `none` being the null
pointer and `some gc` a graph context with its reference count increased.
`strElapsed` is the text `asprintf` produces from the execution time.  The
result is the return code and the calls made. -/
def MGraph_Delete (wrongArity : Int) (retrieve : String → Option Nat) (strElapsed : String)
    (argv : List String) (argc : Int) : Except Fault (Int × List ModuleCall) :=
  if argc ≠ 2 then Except.ok (wrongArity, [ModuleCall.RedisModule_WrongArity])
  else
    match argv[1]? with
    | none => Except.error Fault.outOfBounds
    | some graph_name =>
      let calls0 := [ModuleCall.QueryCtx_BeginTimer,
        ModuleCall.GraphContext_Retrieve graph_name false false]
      let cleanup (calls : List ModuleCall) (elapsed : Option String) :
          Except Fault (Int × List ModuleCall) :=
        let calls1 := calls ++ [ModuleCall.QueryCtx_Free]
        let calls2 := match elapsed with
          | some s => calls1 ++ [ModuleCall.free s]
          | none => calls1
        Except.ok (REDISMODULE_OK, calls2 ++ [ModuleCall.RedisModule_ReplicateVerbatim])
      match retrieve graph_name with
      | none =>
        cleanup (calls0 ++ [ModuleCall.RedisModule_ReplyWithError
          "Graph is either missing or referred key is of a different type."]) none
      | some gc =>
        cleanup (calls0 ++ [ModuleCall.RedisModule_OpenKey graph_name REDISMODULE_WRITE,
          ModuleCall.RedisModule_DeleteKey graph_name,
          ModuleCall.GraphContext_Release gc,
          ModuleCall.QueryCtx_GetExecutionTime,
          ModuleCall.RedisModule_ReplyWithStringBuffer strElapsed]) (some strElapsed)

/-! ## GB_unaryop__minv_uint32_uint16.c -/

/-- The status `GrB_SUCCESS` of `GrB_Info`. -/
def GrB_SUCCESS : Nat := 0

/-- The status `GrB_NO_VALUE` of `GrB_Info`. -/
def GrB_NO_VALUE : Nat := 1

/-- Number of values of a `uint32_t`. -/
def UINT32_RANGE : Nat := 4294967296

/-- Number of values of a `uint16_t`. -/
def UINT16_RANGE : Nat := 65536

/-- Modelled from the spec: the macro `GB_IMINV_UNSIGNED (x, bits)` of `GB.h`
(not among the embedded files), the multiplicative inverse of an unsigned
integer: the integer quotient `1 / x`, and the largest value of the type
when `x` is zero. -/
def GB_IMINV_UNSIGNED (x bits : Nat) : Nat :=
  if x = 0 then 2 ^ bits - 1 else 1 / x

/-- The macro `GB_CAST_OP (pC, pA)`: `aij = Ax [pA]`, `x = (uint32_t) aij`,
`Cx [pC] = GB_IMINV_UNSIGNED (x, 32)`; an index outside an array is undefined
behaviour in C. -/
def GB_CAST_OP (Cx Ax : List Nat) (pC pA : Nat) : Except Fault (List Nat) :=
  match Ax[pA]? with
  | none => Except.error Fault.outOfBounds
  | some aij =>
    let x := aij % UINT32_RANGE
    if pC < Cx.length then Except.ok (Cx.set pC (GB_IMINV_UNSIGNED x 32))
    else Except.error Fault.outOfBounds

/-- The iterations `GB_CAST_OP (p, p)` of the parallel loop carried out in a
given order. -/
def GB_unop_iterations : List Nat → List Nat → List Nat → Except Fault (List Nat)
  | [], Cx, _ => Except.ok Cx
  | p :: order, Cx, Ax =>
    match GB_CAST_OP Cx Ax p p with
    | Except.error f => Except.error f
    | Except.ok Cx1 => GB_unop_iterations order Cx1 Ax

/-- The function `GB_unop__minv_uint32_uint16`.  `GB_DISABLE` is the
compile-time switch `GxB_NO_MINV || GxB_NO_UINT32 || GxB_NO_UINT16`.  The loop
`for (p = 0 ; p < anz ; p++)` runs under `omp parallel for` with `nthreads`
threads, which leaves the order of the iterations to the runtime: `order` is
the order in which the runtime hands out the values of `p`, a rearrangement of
`0, ..., anz - 1`; only values with `p < anz` are iterations of the loop.
`Ax` is read only.  The result is the status and the array `Cx` after the
call. -/
def GB_unop__minv_uint32_uint16 (GB_DISABLE : Bool) (Cx Ax : List Nat) (anz : Int)
    (_nthreads : Int) (order : List Nat) : Except Fault (Nat × List Nat) :=
  if GB_DISABLE then Except.ok (GrB_NO_VALUE, Cx)
  else
    match GB_unop_iterations (order.filter (fun p => decide ((p : Int) < anz))) Cx Ax with
    | Except.error f => Except.error f
    | Except.ok Cx1 => Except.ok (GrB_SUCCESS, Cx1)

/-- The orders in which the runtime may carry out the iterations of
`for (p = 0 ; p < anz ; p++)`: the rearrangements of `0, ..., anz - 1`. -/
def iterationOrder (anz : Int) (order : List Nat) : Prop :=
  order.Perm (List.range anz.toNat)

/-- The sequential order `0, ..., anz - 1`. -/
def sequentialOrder (anz : Int) : List Nat := List.range anz.toNat

/-! ## Character buffers -/

/-- Number of values of a `size_t` (64 bits). -/
def SIZE_RANGE : Nat := 18446744073709551616

/-- The terminating character of a C string. -/
def NUL : Char := Char.ofNat 0

/-- The three variables a rendering function works on: the allocation `*buffer`
(a list of characters, its length the allocated size; a character stands for a
byte), `*bufferLen` and `*bytesWritten`. -/
structure StringBuffer where
  buffer : List Char
  bufferLen : Nat
  bytesWritten : Nat
  deriving DecidableEq, Repr

/-- The C string held by an allocation: the characters before the first `NUL`. -/
def cString (buffer : List Char) : List Char :=
  buffer.takeWhile (fun c => decide (c ≠ NUL))

/-- The `size_t` difference `a - b`. -/
def sizeSub (a b : Nat) : Nat := (a + SIZE_RANGE - b) % SIZE_RANGE

/-- The `size_t` sum `a + b`. -/
def sizeAdd (a b : Nat) : Nat := (a + b) % SIZE_RANGE

/-- The allocator call `rm_realloc(buffer, size)`: the allocation is cut or
extended to `size` characters; `fresh` gives the content of memory that has
not been written, by offset. -/
def rm_realloc (fresh : Nat → Char) (buffer : List Char) (size : Nat) : List Char :=
  buffer.take size
    ++ (List.range (size - buffer.length)).map (fun i => fresh (buffer.length + i))

/-- The C library call `snprintf(buffer + offset, size, ...)` whose formatted
text is `text`: at most `size - 1` characters of the text and a `NUL` are
written, nothing when `size` is 0; the return value is the length of the
whole text.  Writing outside the allocation is undefined behaviour in C. -/
def snprintf (buffer : List Char) (offset size : Nat) (text : List Char) :
    Except Fault (List Char × Nat) :=
  if size = 0 then Except.ok (buffer, text.length)
  else
    if offset + min text.length (size - 1) + 1 ≤ buffer.length then
      Except.ok (buffer.take offset ++ text.take (min text.length (size - 1))
        ++ NUL :: buffer.drop (offset + min text.length (size - 1) + 1), text.length)
    else Except.error Fault.outOfBounds

/-- The statement
`if(*bufferLen - *bytesWritten < need) { *bufferLen += extra; *buffer = rm_realloc(*buffer, *bufferLen); }`. -/
def growIfBelow (fresh : Nat → Char) (s : StringBuffer) (need extra : Nat) : StringBuffer :=
  if sizeSub s.bufferLen s.bytesWritten < need then
    { buffer := rm_realloc fresh s.buffer (sizeAdd s.bufferLen extra)
      bufferLen := sizeAdd s.bufferLen extra
      bytesWritten := s.bytesWritten }
  else s

/-- The statement
`*bytesWritten += snprintf(*buffer + *bytesWritten, *bufferLen, ...)` whose
formatted text is `text`. -/
def snprintfAppend (s : StringBuffer) (text : List Char) : Except Fault StringBuffer :=
  match snprintf s.buffer s.bytesWritten s.bufferLen text with
  | Except.error f => Except.error f
  | Except.ok (bytes, n) =>
    Except.ok { buffer := bytes, bufferLen := s.bufferLen,
                bytesWritten := sizeAdd s.bytesWritten n }

/-- Modelled from the spec: the text `SIValue_ToString` prints for a value
(`value.c` is not among the embedded files): a string as it is, an integer in
decimal, a boolean as `true` or `false`, the null value as `NULL`. -/
def SIValue_text (v : SIValue) : List Char :=
  match v.type, v.payload with
  | SIType.T_NULL, _ => "NULL".toList
  | SIType.T_BOOL, SIPayload.longval n => if n = 0 then "false".toList else "true".toList
  | _, SIPayload.longval n => (toString n).toList
  | _, SIPayload.stringval str => str.toList

/-- Modelled from the spec: `SIValue_ToString(v, buf, bufferLen, bytesWritten)`
(`value.c` is not among the embedded files): room is made for the text of the
value, the text is printed at `*buf + *bytesWritten` and its length is added
to `*bytesWritten`. -/
def SIValue_ToString (fresh : Nat → Char) (v : SIValue) (s : StringBuffer) :
    Except Fault StringBuffer :=
  let s1 := growIfBelow fresh s 64 64
  let s2 := growIfBelow fresh s1 ((SIValue_text v).length + 1) ((SIValue_text v).length + 1)
  snprintfAppend s2 (SIValue_text v)

/-- Enumerator `ENTITY_ID` of `GraphEntityStringFromat`. -/
def ENTITY_ID : Nat := 1

/-- Enumerator `ENTITY_LABELS_OR_RELATIONS` of `GraphEntityStringFromat`. -/
def ENTITY_LABELS_OR_RELATIONS : Nat := 2

/-- Enumerator `ENTITY_PROPERTIES` of `GraphEntityStringFromat`. -/
def ENTITY_PROPERTIES : Nat := 4

/-- The loop of `GraphEntity_PropertiesToString`, `while(propCount) { ... }`. -/
def GraphEntity_PropertiesToString_loop (fresh : Nat → Char) (gc : GraphContext) (g : Graph)
    (e : GraphEntity) : Nat → Attribute_ID → Int → StringBuffer → Except Fault StringBuffer
  | 0, _, propCount, s =>
    if propCount = 0 then Except.ok s else Except.error Fault.outOfFuel
  | fuel + 1, attr_id, propCount, s =>
    if propCount = 0 then Except.ok s
    else
      -- GraphEntity_GetProperty(e, attr_id++, &v);
      match GraphEntity_GetProperty g e attr_id with
      | Except.error f => Except.error f
      | Except.ok v =>
        let attr_id1 := (attr_id + 1) % USHRT_RANGE
        if SIValue_IsNull v then
          -- attr_id++; continue;
          GraphEntity_PropertiesToString_loop fresh gc g e fuel ((attr_id1 + 1) % USHRT_RANGE)
            propCount s
        else
          let propCount1 := propCount - 1
          -- const char *key = GraphContext_GetAttributeString(gc, attr_id);
          match GraphContext_GetAttributeString gc attr_id1 with
          | none => Except.error Fault.nullPointer
          | some key =>
            let s1 := growIfBelow fresh s key.length key.length
            match snprintfAppend s1 (key.toList ++ [':']) with
            | Except.error f => Except.error f
            | Except.ok s2 =>
              match SIValue_ToString fresh v s2 with
              | Except.error f => Except.error f
              | Except.ok s3 =>
                -- if(propCount) *bytesWritten = snprintf(*buffer + *bytesWritten, *bufferLen, ", ");
                match (if propCount1 ≠ 0 then
                    match snprintf s3.buffer s3.bytesWritten s3.bufferLen ", ".toList with
                    | Except.error f => Except.error f
                    | Except.ok (bytes, n) =>
                      Except.ok { buffer := bytes, bufferLen := s3.bufferLen,
                                  bytesWritten := n % SIZE_RANGE }
                  else Except.ok s3) with
                | Except.error f => Except.error f
                | Except.ok s4 =>
                  GraphEntity_PropertiesToString_loop fresh gc g e fuel
                    ((attr_id1 + 1) % USHRT_RANGE) propCount1 s4

/-- The function `GraphEntity_PropertiesToString` of `graph_entity.c`, with the
fuel of its loop; the return value is `bytesWritten` of the result. -/
def GraphEntity_PropertiesToString (fresh : Nat → Char) (fuel : Nat) (gc : GraphContext)
    (g : Graph) (e : GraphEntity) (s : StringBuffer) : Except Fault StringBuffer :=
  let s1 := growIfBelow fresh s 64 64
  -- *bytesWritten += snprintf(*buffer, *bufferLen, "{");
  match snprintf s1.buffer 0 s1.bufferLen "\x7b".toList with
  | Except.error f => Except.error f
  | Except.ok (bytes, n) =>
    let s2 : StringBuffer :=
      { buffer := bytes, bufferLen := s1.bufferLen, bytesWritten := sizeAdd s1.bytesWritten n }
    match GraphEntity_PropertiesToString_loop fresh gc g e fuel 0 (ENTITY_PROP_COUNT e) s2 with
    | Except.error f => Except.error f
    | Except.ok s3 => snprintfAppend (growIfBelow fresh s3 2 2) "\x7d".toList

/-- The function `GraphEntity_ToString` of `graph_entity.c`.  `label` is the
string the casts `(Node *)e` and `(Edge *)e` read: the label of a node, the
relationship type of an edge, `none` being the null pointer. -/
def GraphEntity_ToString (fresh : Nat → Char) (fuel : Nat) (gc : GraphContext) (g : Graph)
    (e : GraphEntity) (label : Option String) (s : StringBuffer) (format : Nat) :
    Except Fault StringBuffer :=
  let s0 := growIfBelow fresh s 64 64
  let openSymbole := if ENTITY_TYPE e = GETYPE_NODE then "(" else "["
  let closeSymbole := if ENTITY_TYPE e = GETYPE_NODE then ")" else "]"
  match snprintfAppend s0 openSymbole.toList with
  | Except.error f => Except.error f
  | Except.ok s1 =>
    match (if format &&& ENTITY_ID ≠ 0
        then snprintfAppend s1 (Nat.repr (ENTITY_GET_ID e)).toList else Except.ok s1) with
    | Except.error f => Except.error f
    | Except.ok s2 =>
      match (if format &&& ENTITY_LABELS_OR_RELATIONS ≠ 0 then
          if ENTITY_TYPE e = GETYPE_NODE then
            match label with
            | some l => snprintfAppend (growIfBelow fresh s2 l.length l.length) (':' :: l.toList)
            | none => Except.ok s2
          else if ENTITY_TYPE e = GETYPE_EDGE then
            match label with
            | some l => snprintfAppend (growIfBelow fresh s2 l.length l.length) (':' :: l.toList)
            | none => Except.ok s2
          else Except.error Fault.assertion
        else Except.ok s2) with
      | Except.error f => Except.error f
      | Except.ok s3 =>
        match (if format &&& ENTITY_PROPERTIES ≠ 0
            then GraphEntity_PropertiesToString fresh fuel gc g e s3 else Except.ok s3) with
        | Except.error f => Except.error f
        | Except.ok s4 => snprintfAppend (growIfBelow fresh s4 2 2) closeSymbole.toList

/-- The buffer is in a consistent state holding `text`: the allocation has the
size recorded in `bufferLen`, the first `bytesWritten` characters are `text`,
and they lie inside the allocation. -/
def StringBuffer.Holds (s : StringBuffer) (text : List Char) : Prop :=
  s.buffer.length = s.bufferLen ∧ s.bytesWritten = text.length ∧
  s.buffer.take s.bytesWritten = text ∧ s.bytesWritten ≤ s.bufferLen ∧
  s.bufferLen < SIZE_RANGE

/-- The text `GraphEntity_ToString` is to append for a format without
`ENTITY_PROPERTIES`: the opening delimiter, the decimal id if `ENTITY_ID` is
set, `:` and the label if `ENTITY_LABELS_OR_RELATIONS` is set and the label is
not null, the closing delimiter. -/
def entityText (e : GraphEntity) (label : Option String) (format : Nat) : List Char :=
  (if ENTITY_TYPE e = GETYPE_NODE then ['('] else ['['])
    ++ (if format &&& ENTITY_ID ≠ 0 then (Nat.repr (ENTITY_GET_ID e)).toList else [])
    ++ (if format &&& ENTITY_LABELS_OR_RELATIONS ≠ 0 then
          match label with
          | some l => ':' :: l.toList
          | none => []
        else [])
    ++ (if ENTITY_TYPE e = GETYPE_NODE then [')'] else [']'])

/-- Room left in the allocation when `GraphEntity_ToString` reaches the label:
the size after the first check for 64 free characters, less what is written
by then (the text so far, the opening delimiter and the id). -/
def labelRoom (s : StringBuffer) (e : GraphEntity) (format : Nat) : Nat :=
  (if s.bufferLen - s.bytesWritten < 64 then s.bufferLen + 64 else s.bufferLen)
    - (s.bytesWritten + 1
        + (if format &&& ENTITY_ID ≠ 0 then (Nat.repr (ENTITY_GET_ID e)).length else 0))

/-- Memory that has not been written reads as `#`. -/
def sampleFresh : Nat → Char := fun _ => '#'

/-- The buffer of a caller that has allocated nothing yet. -/
def sampleEmptyBuffer : StringBuffer := { buffer := [], bufferLen := 0, bytesWritten := 0 }

/-- A label of 63 characters. -/
def sampleLongLabel : String := String.mk (List.replicate 63 'a')

/-- A catalog with four attributes: 0 is "name", 1 is "age", 2 is "city", 3 is
"zip". -/
def sampleCatalogFour : GraphContext := { attributes := ["name", "age", "city", "zip"] }

/-- The graph in which node 0 has `age = 42` (attribute id 1) and nothing else
is set. -/
def sampleOddGraph : Graph :=
  sampleEmptyGraph.storeAttributeMatrix GETYPE_NODE 1
    (GrB_Matrix_setElement_UDT GrB_Matrix.empty (SI_CloneValue sampleAge) 0 0)

/-- The C string of a rendering result and the reported `bytesWritten`. -/
def renderedString (r : Except Fault StringBuffer) : Option (String × Nat) :=
  match r with
  | Except.ok s => some (String.mk (cString s.buffer), s.bytesWritten)
  | Except.error _ => none

/-! ## Matrix lemmas -/

theorem extract_set_same (m : GrB_Matrix) (x : SIValue) (r c : Nat) :
    GrB_Matrix_extractElement_UDT (GrB_Matrix_setElement_UDT m x r c) r c = some x := by
  simp [GrB_Matrix_extractElement_UDT, GrB_Matrix_setElement_UDT]

theorem extract_set_other (m : GrB_Matrix) (x : SIValue) (r c i j : Nat) (h : ¬ (i = r ∧ j = c)) :
    GrB_Matrix_extractElement_UDT (GrB_Matrix_setElement_UDT m x r c) i j
      = GrB_Matrix_extractElement_UDT m i j := by
  simp only [GrB_Matrix_extractElement_UDT, GrB_Matrix_setElement_UDT, if_neg h]

theorem extract_delete_same (m : GrB_Matrix) (r c : Nat) :
    GrB_Matrix_extractElement_UDT (GxB_Matrix_Delete m r c) r c = none := by
  simp [GrB_Matrix_extractElement_UDT, GxB_Matrix_Delete]

theorem extract_delete_other (m : GrB_Matrix) (r c i j : Nat) (h : ¬ (i = r ∧ j = c)) :
    GrB_Matrix_extractElement_UDT (GxB_Matrix_Delete m r c) i j
      = GrB_Matrix_extractElement_UDT m i j := by
  simp only [GrB_Matrix_extractElement_UDT, GxB_Matrix_Delete, if_neg h]

theorem hasCell_set (m : GrB_Matrix) (x : SIValue) (id id2 : EntityID) :
    (GrB_Matrix_setElement_UDT m x id id).hasCell id2
      = if id2 = id then true else m.hasCell id2 := by
  unfold GrB_Matrix.hasCell
  by_cases h : id2 = id
  · subst h; simp [extract_set_same]
  · rw [extract_set_other m x id id id2 id2 (by simp [h])]; simp [h]

theorem hasCell_delete (m : GrB_Matrix) (id id2 : EntityID) :
    (GxB_Matrix_Delete m id id).hasCell id2
      = if id2 = id then false else m.hasCell id2 := by
  unfold GrB_Matrix.hasCell
  by_cases h : id2 = id
  · subst h; simp [extract_delete_same]
  · rw [extract_delete_other m id id id2 id2 (by simp [h])]; simp [h]

/-! ## List lemmas -/

theorem countP_set_balance {α : Type} (p : α → Bool) :
    ∀ (l : List α) (i : Nat) (x y : α), l[i]? = some y →
      (l.set i x).countP p + (if p y then 1 else 0) = l.countP p + (if p x then 1 else 0)
  | [], i, x, y, h => by simp at h
  | a :: l, 0, x, y, h => by
    simp at h
    subst h
    simp [List.countP_cons]
    omega
  | a :: l, i + 1, x, y, h => by
    simp at h
    have ih := countP_set_balance p l i x y h
    simp [List.countP_cons]
    omega

/-! ## Graph lemmas -/

theorem attributeMatrix_eq (g : Graph) (ty : Nat) (a : Attribute_ID) :
    g.attributeMatrix ty a = (g.attributeMatrices ty)[a]? := by
  unfold Graph.attributeMatrix Graph.attributeMatrices Graph_GetNodeAttributeMatrix
    Graph_GetEdgeAttributeMatrix
  split <;> rfl

theorem attributeMatrices_store (g : Graph) (ty ty2 : Nat) (a : Attribute_ID) (m : GrB_Matrix) :
    (g.storeAttributeMatrix ty a m).attributeMatrices ty2
      = if sameKind ty2 ty then (g.attributeMatrices ty2).set a m
        else g.attributeMatrices ty2 := by
  unfold Graph.storeAttributeMatrix Graph.attributeMatrices sameKind
  by_cases h1 : ty = GETYPE_NODE <;> by_cases h2 : ty2 = GETYPE_NODE <;> simp [h1, h2]

theorem attributeMatrices_sameKind (g : Graph) (t1 t2 : Nat) (h : sameKind t1 t2) :
    g.attributeMatrices t1 = g.attributeMatrices t2 := by
  unfold Graph.attributeMatrices
  unfold sameKind at h
  by_cases h1 : t1 = GETYPE_NODE <;> by_cases h2 : t2 = GETYPE_NODE <;> simp_all

theorem attributeMatrix_store (g : Graph) (ty ty2 : Nat) (a a2 : Attribute_ID) (m m1 : GrB_Matrix)
    (h : g.attributeMatrix ty a = some m) :
    (g.storeAttributeMatrix ty a m1).attributeMatrix ty2 a2
      = if sameKind ty2 ty ∧ a2 = a then some m1 else g.attributeMatrix ty2 a2 := by
  rw [attributeMatrix_eq, attributeMatrix_eq, attributeMatrices_store]
  rw [attributeMatrix_eq] at h
  by_cases hk : sameKind ty2 ty
  · have hl := attributeMatrices_sameKind g ty2 ty hk
    rw [← hl] at h
    simp only [if_pos hk, true_and]
    by_cases ha : a2 = a
    · subst ha
      have hlt : a2 < (g.attributeMatrices ty2).length := by
        rcases List.getElem?_eq_some_iff.mp h with ⟨hlt, _⟩
        exact hlt
      simp [List.getElem?_set, hlt, hk]
    · have ha2 : a ≠ a2 := fun h => ha h.symm
      simp [List.getElem?_set, ha, ha2]
  · simp [hk]

theorem setCount_store (g : Graph) (ty ty2 : Nat) (a : Attribute_ID) (m m1 : GrB_Matrix)
    (id2 : EntityID) (h : g.attributeMatrix ty a = some m) :
    ((g.storeAttributeMatrix ty a m1).setCount ty2 id2 : Int)
      = (g.setCount ty2 id2 : Int)
        + (if sameKind ty2 ty
            then (if m1.hasCell id2 then 1 else 0) - (if m.hasCell id2 then 1 else 0) else 0) := by
  unfold Graph.setCount
  rw [attributeMatrices_store]
  by_cases hk : sameKind ty2 ty
  · simp only [if_pos hk]
    have hl := attributeMatrices_sameKind g ty2 ty hk
    rw [attributeMatrix_eq, ← hl] at h
    have hb := countP_set_balance (fun x => x.hasCell id2) _ a m1 m h
    simp only at hb
    split_ifs at hb ⊢ <;> omega
  · simp [hk]

theorem removeProperty_cases (g : Graph) (e : Entity) (a : Attribute_ID) :
    (e.prop_count = 0 ∧ _GraphEntity_RemoveProperty g e a = Except.ok (g, e)) ∨
    (e.prop_count ≠ 0 ∧ g.attributeMatrix e.entity_type a = none ∧
      _GraphEntity_RemoveProperty g e a = Except.error Fault.assertion) ∨
    (∃ m, e.prop_count ≠ 0 ∧ g.attributeMatrix e.entity_type a = some m ∧
      m.hasCell e.id = false ∧ _GraphEntity_RemoveProperty g e a = Except.ok (g, e)) ∨
    (∃ m, e.prop_count ≠ 0 ∧ g.attributeMatrix e.entity_type a = some m ∧
      m.hasCell e.id = true ∧
      _GraphEntity_RemoveProperty g e a
        = Except.ok (g.storeAttributeMatrix e.entity_type a (GxB_Matrix_Delete m e.id e.id),
            { e with prop_count := e.prop_count - 1 })) := by
  unfold _GraphEntity_RemoveProperty
  by_cases h0 : e.prop_count = 0
  · left; simp [h0]
  · right
    cases hm : g.attributeMatrix e.entity_type a with
    | none => left; simp [h0]
    | some m =>
      right
      cases hx : GrB_Matrix_extractElement_UDT m e.id e.id with
      | none => left; exact ⟨m, h0, rfl, by simp [GrB_Matrix.hasCell, hx], by simp [h0, hx]⟩
      | some v => right; exact ⟨m, h0, rfl, by simp [GrB_Matrix.hasCell, hx], by simp [h0, hx]⟩

theorem addProperty_eq (g : Graph) (e : GraphEntity) (a : Attribute_ID) (v : SIValue)
    (m : GrB_Matrix) (h : g.attributeMatrix e.entity.entity_type a = some m) :
    GraphEntity_AddProperty g e a v
      = Except.ok (g.storeAttributeMatrix e.entity.entity_type a
          (GrB_Matrix_setElement_UDT m (SI_CloneValue v) e.entity.id e.entity.id),
          { entity := { e.entity with prop_count := e.entity.prop_count + 1 } }) := by
  unfold GraphEntity_AddProperty
  simp [ENTITY_TYPE, ENTITY_GET_ID, h]

theorem cell_of_matrix (g : Graph) (ty : Nat) (a : Attribute_ID) (id : EntityID) (m : GrB_Matrix)
    (h : g.attributeMatrix ty a = some m) :
    g.cell ty a id = GrB_Matrix_extractElement_UDT m id id := by
  simp [Graph.cell, h]

theorem cell_store (g : Graph) (ty ty2 : Nat) (a a2 : Attribute_ID) (m m1 : GrB_Matrix)
    (id2 : EntityID) (h : g.attributeMatrix ty a = some m) :
    (g.storeAttributeMatrix ty a m1).cell ty2 a2 id2
      = if sameKind ty2 ty ∧ a2 = a then GrB_Matrix_extractElement_UDT m1 id2 id2
        else g.cell ty2 a2 id2 := by
  unfold Graph.cell
  rw [attributeMatrix_store g ty ty2 a a2 m m1 h]
  by_cases hc : sameKind ty2 ty ∧ a2 = a <;> simp [hc]

theorem length_store (g : Graph) (ty ty2 : Nat) (a : Attribute_ID) (m : GrB_Matrix) :
    ((g.storeAttributeMatrix ty a m).attributeMatrices ty2).length
      = (g.attributeMatrices ty2).length := by
  rw [attributeMatrices_store]
  split <;> simp

theorem hasCell_eq_cell (g : Graph) (ty : Nat) (a : Attribute_ID) (id : EntityID) (m : GrB_Matrix)
    (h : g.attributeMatrix ty a = some m) :
    m.hasCell id = (g.cell ty a id).isSome := by
  simp [Graph.cell, h, GrB_Matrix.hasCell]

theorem setCount_eq_zero_iff (g : Graph) (ty : Nat) (id : EntityID) :
    g.setCount ty id = 0 ↔ ∀ a, g.cell ty a id = none := by
  unfold Graph.setCount
  rw [List.countP_eq_zero]
  constructor
  · intro h a
    unfold Graph.cell
    cases hm : g.attributeMatrix ty a with
    | none => rfl
    | some m =>
      rw [attributeMatrix_eq] at hm
      have hmem : m ∈ g.attributeMatrices ty := List.getElem?_mem hm
      have := h m hmem
      simpa [GrB_Matrix.hasCell] using this
  · intro h m hmem
    rcases List.getElem_of_mem hmem with ⟨a, hlt, ha⟩
    have hm : g.attributeMatrix ty a = some m := by
      rw [attributeMatrix_eq, List.getElem?_eq_getElem hlt, ha]
    have := h a
    rw [cell_of_matrix g ty a id m hm] at this
    simp [GrB_Matrix.hasCell, this]

/-- What a returning `_GraphEntity_RemoveProperty` has done. -/
theorem removeProperty_effect (g : Graph) (e : Entity) (a : Attribute_ID) (g1 : Graph)
    (e1 : Entity) (h : _GraphEntity_RemoveProperty g e a = Except.ok (g1, e1)) :
    e1.id = e.id ∧ e1.entity_type = e.entity_type ∧
    (∀ ty2 id2, (g1.setCount ty2 id2 : Int) = (g.setCount ty2 id2 : Int)
        + (if sameKind ty2 e.entity_type ∧ id2 = e.id then e1.prop_count - e.prop_count else 0)) ∧
    (∀ ty2 a2 id2, ¬ (sameKind ty2 e.entity_type ∧ a2 = a ∧ id2 = e.id) →
        g1.cell ty2 a2 id2 = g.cell ty2 a2 id2) ∧
    (∀ ty2 a2, (g1.attributeMatrix ty2 a2).isSome = (g.attributeMatrix ty2 a2).isSome) ∧
    (∀ ty2, (g1.attributeMatrices ty2).length = (g.attributeMatrices ty2).length) ∧
    (e.prop_count ≠ 0 → g1.cell e.entity_type a e.id = none) ∧
    (e.prop_count = 0 → g1 = g) ∧
    e1.prop_count = e.prop_count
      - (if e.prop_count ≠ 0 ∧ (g.cell e.entity_type a e.id).isSome = true then 1 else 0) := by
  rcases removeProperty_cases g e a with ⟨h0, heq⟩ | ⟨_, _, heq⟩ | ⟨m, h0, hm, hc, heq⟩ |
    ⟨m, h0, hm, hc, heq⟩
  · rw [heq] at h
    simp only [Except.ok.injEq, Prod.mk.injEq] at h
    obtain ⟨rfl, rfl⟩ := h
    simp [h0]
  · rw [heq] at h; cases h
  · rw [heq] at h
    simp only [Except.ok.injEq, Prod.mk.injEq] at h
    obtain ⟨rfl, rfl⟩ := h
    have hcell : g.cell e.entity_type a e.id = none := by
      have := hasCell_eq_cell g e.entity_type a e.id m hm
      rw [hc] at this
      cases hx : g.cell e.entity_type a e.id with
      | none => rfl
      | some v => rw [hx] at this; simp at this
    simp [hcell]
  · rw [heq] at h
    simp only [Except.ok.injEq, Prod.mk.injEq] at h
    obtain ⟨rfl, rfl⟩ := h
    have hcell : (g.cell e.entity_type a e.id).isSome = true := by
      rw [← hasCell_eq_cell g e.entity_type a e.id m hm]; exact hc
    refine ⟨rfl, rfl, ?_, ?_, ?_, ?_, ?_, ?_, ?_⟩
    · intro ty2 id2
      rw [setCount_store g e.entity_type ty2 a m _ id2 hm, hasCell_delete]
      by_cases hk : sameKind ty2 e.entity_type
      · by_cases hi : id2 = e.id
        · subst hi; simp [hk, hc]
        · simp [hk, hi]
      · simp [hk]
    · intro ty2 a2 id2 hne
      rw [cell_store g e.entity_type ty2 a a2 m _ id2 hm]
      by_cases hka : sameKind ty2 e.entity_type ∧ a2 = a
      · have hi : id2 ≠ e.id := fun hi => hne ⟨hka.1, hka.2, hi⟩
        rw [if_pos hka, extract_delete_other m e.id e.id id2 id2 (by simp [hi])]
        obtain ⟨hk, rfl⟩ := hka
        have hm2 : g.attributeMatrix ty2 a2 = some m := by
          rw [attributeMatrix_eq, attributeMatrices_sameKind g ty2 e.entity_type hk,
            ← attributeMatrix_eq]; exact hm
        rw [cell_of_matrix g ty2 a2 id2 m hm2]
      · rw [if_neg hka]
    · intro ty2 a2
      rw [attributeMatrix_store g e.entity_type ty2 a a2 m _ hm]
      by_cases hka : sameKind ty2 e.entity_type ∧ a2 = a
      · obtain ⟨hk, rfl⟩ := hka
        have hm2 : g.attributeMatrix ty2 a2 = some m := by
          rw [attributeMatrix_eq, attributeMatrices_sameKind g ty2 e.entity_type hk,
            ← attributeMatrix_eq]; exact hm
        simp [hk, hm2]
      · rw [if_neg hka]
    · intro ty2
      exact length_store g e.entity_type ty2 a _
    · intro _
      rw [cell_store g e.entity_type e.entity_type a a m _ e.id hm]
      simp [sameKind, extract_delete_same]
    · intro h; exact absurd h h0
    · simp [h0, hcell]

/-- What a returning `GraphEntity_AddProperty` has done. -/
theorem addProperty_effect (g : Graph) (e : GraphEntity) (a : Attribute_ID) (v : SIValue)
    (g1 : Graph) (e1 : GraphEntity) (h : GraphEntity_AddProperty g e a v = Except.ok (g1, e1)) :
    e1.entity.id = e.entity.id ∧ e1.entity.entity_type = e.entity.entity_type ∧
    e1.entity.prop_count = e.entity.prop_count + 1 ∧
    g1.cell e.entity.entity_type a e.entity.id = some (SI_CloneValue v) ∧
    (∀ ty2 id2, (g1.setCount ty2 id2 : Int) = (g.setCount ty2 id2 : Int)
        + (if sameKind ty2 e.entity.entity_type ∧ id2 = e.entity.id
            then 1 - (if (g.cell e.entity.entity_type a e.entity.id).isSome = true then 1 else 0)
            else 0)) ∧
    (∀ ty2 a2 id2, ¬ (sameKind ty2 e.entity.entity_type ∧ a2 = a ∧ id2 = e.entity.id) →
        g1.cell ty2 a2 id2 = g.cell ty2 a2 id2) ∧
    (∀ ty2 a2, (g1.attributeMatrix ty2 a2).isSome = (g.attributeMatrix ty2 a2).isSome) ∧
    (∀ ty2, (g1.attributeMatrices ty2).length = (g.attributeMatrices ty2).length) := by
  cases hm : g.attributeMatrix e.entity.entity_type a with
  | none =>
    unfold GraphEntity_AddProperty at h
    simp [ENTITY_TYPE, hm] at h
  | some m =>
    rw [addProperty_eq g e a v m hm] at h
    simp only [Except.ok.injEq, Prod.mk.injEq] at h
    obtain ⟨rfl, rfl⟩ := h
    have hcell := hasCell_eq_cell g e.entity.entity_type a e.entity.id m hm
    refine ⟨rfl, rfl, rfl, ?_, ?_, ?_, ?_, ?_⟩
    · rw [cell_store g e.entity.entity_type e.entity.entity_type a a m _ e.entity.id hm]
      simp [sameKind, extract_set_same]
    · intro ty2 id2
      rw [setCount_store g e.entity.entity_type ty2 a m _ id2 hm, hasCell_set]
      by_cases hk : sameKind ty2 e.entity.entity_type
      · by_cases hi : id2 = e.entity.id
        · subst hi; simp [hk, hcell]
        · simp [hk, hi]
      · simp [hk]
    · intro ty2 a2 id2 hne
      rw [cell_store g e.entity.entity_type ty2 a a2 m _ id2 hm]
      by_cases hka : sameKind ty2 e.entity.entity_type ∧ a2 = a
      · have hi : id2 ≠ e.entity.id := fun hi => hne ⟨hka.1, hka.2, hi⟩
        rw [if_pos hka, extract_set_other m _ e.entity.id e.entity.id id2 id2 (by simp [hi])]
        obtain ⟨hk, rfl⟩ := hka
        have hm2 : g.attributeMatrix ty2 a2 = some m := by
          rw [attributeMatrix_eq, attributeMatrices_sameKind g ty2 e.entity.entity_type hk,
            ← attributeMatrix_eq]; exact hm
        rw [cell_of_matrix g ty2 a2 id2 m hm2]
      · rw [if_neg hka]
    · intro ty2 a2
      rw [attributeMatrix_store g e.entity.entity_type ty2 a a2 m _ hm]
      by_cases hka : sameKind ty2 e.entity.entity_type ∧ a2 = a
      · obtain ⟨hk, rfl⟩ := hka
        have hm2 : g.attributeMatrix ty2 a2 = some m := by
          rw [attributeMatrix_eq, attributeMatrices_sameKind g ty2 e.entity.entity_type hk,
            ← attributeMatrix_eq]; exact hm
        simp [hk, hm2]
      · rw [if_neg hka]
    · intro ty2
      exact length_store g e.entity.entity_type ty2 a _

theorem cell_none_of_length_le (g : Graph) (ty : Nat) (a : Nat) (id : EntityID)
    (h : (g.attributeMatrices ty).length ≤ a) : g.cell ty a id = none := by
  unfold Graph.cell
  rw [attributeMatrix_eq, List.getElem?_eq_none h]

theorem attributeMatrix_isSome_of_lt (g : Graph) (ty : Nat) (a : Nat)
    (h : a < (g.attributeMatrices ty).length) : ∃ m, g.attributeMatrix ty a = some m := by
  rw [attributeMatrix_eq, List.getElem?_eq_getElem h]
  exact ⟨_, rfl⟩

theorem invariant_zero_cells (g : Graph) (e : Entity) (hinv : PropCountInvariant g e)
    (h0 : e.prop_count = 0) : ∀ a, g.cell e.entity_type a e.id = none := by
  unfold PropCountInvariant at hinv
  rw [h0] at hinv
  have : g.setCount e.entity_type e.id = 0 := by omega
  exact (setCount_eq_zero_iff g e.entity_type e.id).mp this

/-- The loop of `FreeEntity` started at attribute id `k` with every cell below
`k` already absent: it returns, with the counter at zero and every cell of the
entity absent, and touches nothing else. -/
theorem freeEntity_loop_spec : ∀ (d fuel : Nat) (g : Graph) (e : Entity) (k attr_id : Nat),
    (g.attributeMatrices e.entity_type).length = k + d →
    k + d ≤ USHRT_RANGE →
    (d ≠ 0 → attr_id = k) →
    d ≤ fuel →
    PropCountInvariant g e →
    (∀ i, i < k → g.cell e.entity_type i e.id = none) →
    ∃ g1 e1, FreeEntity_loop fuel g e attr_id = Except.ok (g1, e1) ∧
      e1.prop_count = 0 ∧ e1.id = e.id ∧ e1.entity_type = e.entity_type ∧
      (∀ a, g1.cell e.entity_type a e.id = none) ∧
      (∀ ty2 a2 id2, ¬ (sameKind ty2 e.entity_type ∧ id2 = e.id) →
        g1.cell ty2 a2 id2 = g.cell ty2 a2 id2) ∧
      (∀ ty2 id2, ¬ (sameKind ty2 e.entity_type ∧ id2 = e.id) →
        g1.setCount ty2 id2 = g.setCount ty2 id2) ∧
      (∀ ty2 a2, (g1.attributeMatrix ty2 a2).isSome = (g.attributeMatrix ty2 a2).isSome)
  | 0, fuel, g, e, k, attr_id, hlen, _, _, _, hinv, hbelow => by
    have hall : ∀ a, g.cell e.entity_type a e.id = none := by
      intro (a : Nat)
      by_cases ha : a < k
      · exact hbelow a ha
      · exact cell_none_of_length_le g e.entity_type a e.id (by omega)
    have h0 : e.prop_count = 0 := by
      have := (setCount_eq_zero_iff g e.entity_type e.id).mpr hall
      unfold PropCountInvariant at hinv
      omega
    refine ⟨g, e, ?_, h0, rfl, rfl, hall, fun _ _ _ _ => rfl, fun _ _ _ => rfl, fun _ _ => rfl⟩
    cases fuel <;> simp [FreeEntity_loop, h0]
  | d + 1, 0, _, _, _, _, _, _, _, hfuel, _, _ => by omega
  | d + 1, fuel + 1, g, e, k, attr_id, hlen, hrange, hattr, hfuel, hinv, hbelow => by
    by_cases h0 : e.prop_count = 0
    · refine ⟨g, e, by simp [FreeEntity_loop, h0], h0, rfl, rfl,
        invariant_zero_cells g e hinv h0, fun _ _ _ _ => rfl, fun _ _ _ => rfl, fun _ _ => rfl⟩
    · have hk : attr_id = k := hattr (by omega)
      subst hk
      obtain ⟨m, hm⟩ := attributeMatrix_isSome_of_lt g e.entity_type attr_id (by omega)
      have hstep : ∃ g1 e1, _GraphEntity_RemoveProperty g e attr_id = Except.ok (g1, e1) := by
        rcases removeProperty_cases g e attr_id with ⟨_, heq⟩ | ⟨_, hn, _⟩ | ⟨_, _, _, _, heq⟩ |
          ⟨_, _, _, _, heq⟩
        · exact ⟨_, _, heq⟩
        · rw [hm] at hn; cases hn
        · exact ⟨_, _, heq⟩
        · exact ⟨_, _, heq⟩
      obtain ⟨g1, e1, hrem⟩ := hstep
      obtain ⟨hid, hty, hcount, hframe, hsome, hlen1, hgone, _, _⟩ :=
        removeProperty_effect g e attr_id g1 e1 hrem
      have hinv1 : PropCountInvariant g1 e1 := by
        unfold PropCountInvariant at hinv ⊢
        rw [hid, hty, hcount e.entity_type e.id]
        simp [sameKind]
        omega
      have hbelow1 : ∀ i, i < attr_id + 1 → g1.cell e1.entity_type i e1.id = none := by
        intro i hi
        rw [hid, hty]
        by_cases hia : i = attr_id
        · subst hia; exact hgone h0
        · rw [hframe e.entity_type i e.id (by simp [hia])]
          exact hbelow i (by omega)
      have hmod : d ≠ 0 → (attr_id + 1) % USHRT_RANGE = attr_id + 1 := by
        intro hd
        apply Nat.mod_eq_of_lt
        omega
      obtain ⟨g2, e2, hloop, hz, hid2, hty2, hall, hfr, hsc, hsm⟩ :=
        freeEntity_loop_spec d fuel g1 e1 (attr_id + 1) ((attr_id + 1) % USHRT_RANGE)
          (by rw [hty, hlen1]; omega) (by omega) hmod (by omega) hinv1 hbelow1
      refine ⟨g2, e2, ?_, hz, by rw [hid2, hid], by rw [hty2, hty], ?_, ?_, ?_, ?_⟩
      · simp [FreeEntity_loop, h0, hrem, hloop]
      · intro a; rw [← hid, ← hty]; exact hall a
      · intro ty2 a2 id2 hne
        rw [hfr ty2 a2 id2 (by rw [hid, hty]; exact hne)]
        exact hframe ty2 a2 id2 (fun hc => hne ⟨hc.1, hc.2.2⟩)
      · intro ty2 id2 hne
        rw [hsc ty2 id2 (by rw [hid, hty]; exact hne)]
        have := hcount ty2 id2
        rw [if_neg hne] at this
        omega
      · intro ty2 a2; rw [hsm, hsome]

theorem getProperty_of_matrix (g : Graph) (e : GraphEntity) (a : Attribute_ID) (m : GrB_Matrix)
    (hm : g.attributeMatrix e.entity.entity_type a = some m) :
    GraphEntity_GetProperty g e a
      = Except.ok (if a = ATTRIBUTE_NOTFOUND ∨ e.entity.prop_count = 0 then SI_NullVal
          else match g.cell e.entity.entity_type a e.entity.id with
            | none => SI_NullVal
            | some v => v.borrowed) := by
  unfold GraphEntity_GetProperty
  by_cases hc : a = ATTRIBUTE_NOTFOUND ∨ e.entity.prop_count = 0
  · simp only [ENTITY_PROP_COUNT, if_pos hc]
  · simp only [ENTITY_PROP_COUNT, ENTITY_TYPE, ENTITY_GET_ID, if_neg hc, hm,
      cell_of_matrix g e.entity.entity_type a e.entity.id m hm]
    cases GrB_Matrix_extractElement_UDT m e.entity.id e.entity.id <;> simp [SIValue.borrowed]

theorem setProperty_unfold (g : Graph) (e : GraphEntity) (a : Attribute_ID) (v : SIValue)
    (g1 : Graph) (ent1 : Entity)
    (hr : _GraphEntity_RemoveProperty g e.entity a = Except.ok (g1, ent1)) :
    GraphEntity_SetProperty g e a v
      = if SIValue_IsNull v then Except.ok (g1, { entity := ent1 })
        else GraphEntity_AddProperty g1 { entity := ent1 } a (SI_CloneValue v) := by
  unfold GraphEntity_SetProperty
  rw [hr]

theorem removeProperty_total (g : Graph) (e : Entity) (a : Attribute_ID)
    (hm : (g.attributeMatrix e.entity_type a).isSome = true) :
    ∃ g1 e1, _GraphEntity_RemoveProperty g e a = Except.ok (g1, e1) := by
  rcases removeProperty_cases g e a with ⟨_, heq⟩ | ⟨_, hn, _⟩ | ⟨_, _, _, _, heq⟩ |
    ⟨_, _, _, _, heq⟩
  · exact ⟨_, _, heq⟩
  · rw [hn] at hm; simp at hm
  · exact ⟨_, _, heq⟩
  · exact ⟨_, _, heq⟩

theorem addProperty_total (g : Graph) (e : GraphEntity) (a : Attribute_ID) (v : SIValue)
    (hm : (g.attributeMatrix e.entity.entity_type a).isSome = true) :
    ∃ g1 e1, GraphEntity_AddProperty g e a v = Except.ok (g1, e1) := by
  cases h : g.attributeMatrix e.entity.entity_type a with
  | none => rw [h] at hm; simp at hm
  | some m => exact ⟨_, _, addProperty_eq g e a v m h⟩

theorem setProperty_total (g : Graph) (e : GraphEntity) (a : Attribute_ID) (v : SIValue)
    (hm : (g.attributeMatrix e.entity.entity_type a).isSome = true) :
    ∃ g2 e2, GraphEntity_SetProperty g e a v = Except.ok (g2, e2) := by
  obtain ⟨g1, ent1, hr⟩ := removeProperty_total g e.entity a hm
  obtain ⟨_, hty, _, _, hsome, _, _, _, _⟩ := removeProperty_effect g e.entity a g1 ent1 hr
  rw [setProperty_unfold g e a v g1 ent1 hr]
  by_cases hn : SIValue_IsNull v = true
  · exact ⟨_, _, by rw [if_pos hn]⟩
  · rw [if_neg hn]
    apply addProperty_total
    show (g1.attributeMatrix ent1.entity_type a).isSome = true
    rw [hty, hsome]; exact hm

/-- Decomposition of a returning `GraphEntity_SetProperty` into its two steps. -/
theorem setProperty_steps (g : Graph) (e : GraphEntity) (a : Attribute_ID) (v : SIValue)
    (g2 : Graph) (e2 : GraphEntity)
    (h : GraphEntity_SetProperty g e a v = Except.ok (g2, e2)) :
    ∃ g1 ent1, _GraphEntity_RemoveProperty g e.entity a = Except.ok (g1, ent1) ∧
      (SIValue_IsNull v = true → g2 = g1 ∧ e2 = { entity := ent1 }) ∧
      (SIValue_IsNull v = false →
        GraphEntity_AddProperty g1 { entity := ent1 } a (SI_CloneValue v) = Except.ok (g2, e2)) := by
  cases hr : _GraphEntity_RemoveProperty g e.entity a with
  | error f =>
    unfold GraphEntity_SetProperty at h
    rw [hr] at h
    cases h
  | ok r =>
    obtain ⟨g1, ent1⟩ := r
    rw [setProperty_unfold g e a v g1 ent1 hr] at h
    refine ⟨g1, ent1, rfl, ?_, ?_⟩
    · intro hn
      rw [if_pos hn] at h
      simp only [Except.ok.injEq, Prod.mk.injEq] at h
      exact ⟨h.1.symm, h.2.symm⟩
    · intro hn
      rw [hn] at h
      simpa using h

/-- Under the invariant, a returning `_GraphEntity_RemoveProperty` leaves the
cell of the attribute absent. -/
theorem removeProperty_cell_absent (g : Graph) (e : Entity) (a : Attribute_ID) (g1 : Graph)
    (e1 : Entity) (h : _GraphEntity_RemoveProperty g e a = Except.ok (g1, e1))
    (hinv : PropCountInvariant g e) : g1.cell e.entity_type a e.id = none := by
  obtain ⟨_, _, _, _, _, _, hgone, hsame, _⟩ := removeProperty_effect g e a g1 e1 h
  by_cases h0 : e.prop_count = 0
  · rw [hsame h0]; exact invariant_zero_cells g e hinv h0 a
  · exact hgone h0

/-- Effect of a returning `GraphEntity_SetProperty` on the counter and on the
number of set cells of every entity. -/
theorem setProperty_counts (g : Graph) (e : GraphEntity) (a : Attribute_ID) (v : SIValue)
    (g2 : Graph) (e2 : GraphEntity)
    (h : GraphEntity_SetProperty g e a v = Except.ok (g2, e2))
    (hinv : PropCountInvariant g e.entity) :
    e2.entity.id = e.entity.id ∧ e2.entity.entity_type = e.entity.entity_type ∧
    (∀ ty2 id2, (g2.setCount ty2 id2 : Int) = (g.setCount ty2 id2 : Int)
        + (if sameKind ty2 e.entity.entity_type ∧ id2 = e.entity.id
            then e2.entity.prop_count - e.entity.prop_count else 0)) ∧
    e2.entity.prop_count = e.entity.prop_count
      - (if (g.cell e.entity.entity_type a e.entity.id).isSome = true then 1 else 0)
      + (if SIValue_IsNull v = true then 0 else 1) := by
  obtain ⟨g1, ent1, hr, hnull, hadd⟩ := setProperty_steps g e a v g2 e2 h
  have habs := removeProperty_cell_absent g e.entity a g1 ent1 hr hinv
  obtain ⟨hid, hty, hcount, _, _, _, _, hsame, hpc⟩ :=
    removeProperty_effect g e.entity a g1 ent1 hr
  have hpc1 : ent1.prop_count = e.entity.prop_count
      - (if (g.cell e.entity.entity_type a e.entity.id).isSome = true then 1 else 0) := by
    by_cases h0 : e.entity.prop_count = 0
    · have := invariant_zero_cells g e.entity hinv h0 a
      rw [hpc, this]; simp
    · rw [hpc]; simp [h0]
  by_cases hn : SIValue_IsNull v = true
  · obtain ⟨rfl, rfl⟩ := hnull hn
    refine ⟨hid, hty, hcount, ?_⟩
    simp only [hn, if_true]
    rw [hpc1]; omega
  · have hn2 : SIValue_IsNull v = false := by simpa using hn
    obtain ⟨hid2, hty2, hpc2, _, hcount2, _, _, _⟩ :=
      addProperty_effect g1 { entity := ent1 } a (SI_CloneValue v) g2 e2 (hadd hn2)
    simp only at hid2 hty2 hpc2 hcount2
    refine ⟨by rw [hid2, hid], by rw [hty2, hty], ?_, ?_⟩
    · intro ty2 id2
      rw [hcount2 ty2 id2, hcount ty2 id2, hty, hid, habs, hpc2]
      by_cases hc : sameKind ty2 e.entity.entity_type ∧ id2 = e.entity.id
      · simp [hc]; omega
      · simp [hc]
    · rw [hpc2, hpc1]; simp [hn]

theorem clone_type (v : SIValue) : (SI_CloneValue v).type = v.type := by
  unfold SI_CloneValue; split <;> rfl

theorem clone_payload (v : SIValue) : (SI_CloneValue v).payload = v.payload := by
  unfold SI_CloneValue; split <;> rfl

theorem borrowed_type (v : SIValue) : v.borrowed.type = v.type := by
  unfold SIValue.borrowed; split <;> rfl

theorem borrowed_payload (v : SIValue) : v.borrowed.payload = v.payload := by
  unfold SIValue.borrowed; split <;> rfl

/-! ## Claims -/

/-- C1: `GraphEntity_SetProperty` (any attribute id, any value, null or not) and
`FreeEntity` preserve the prop_count/presence invariant.  If the entity
operated on satisfies the invariant, then `GraphEntity_SetProperty` returns
whenever the attribute has a matrix, and whenever it returns the invariant
holds again for the entity and still holds for every other entity that
satisfied it and does not share both kind and id with it; `FreeEntity`, given
fuel for one pass over the attribute matrices, returns with the same two
guarantees. -/
theorem C1_invariant_preserved (g : Graph) (e : GraphEntity) (attr_id : Attribute_ID)
    (value : SIValue) (hinv : PropCountInvariant g e.entity) :
    ((g.attributeMatrix e.entity.entity_type attr_id).isSome = true →
      ∃ g1 e1, GraphEntity_SetProperty g e attr_id value = Except.ok (g1, e1)) ∧
    (∀ g1 e1, GraphEntity_SetProperty g e attr_id value = Except.ok (g1, e1) →
      PropCountInvariant g1 e1.entity ∧
      ∀ other : Entity, PropCountInvariant g other →
        ¬ (sameKind other.entity_type e.entity.entity_type ∧ other.id = e.entity.id) →
        PropCountInvariant g1 other) ∧
    (∀ fuel : Nat, (g.attributeMatrices e.entity.entity_type).length ≤ fuel →
      (g.attributeMatrices e.entity.entity_type).length ≤ USHRT_RANGE →
      ∃ g1 e1, FreeEntity fuel g e.entity = Except.ok (g1, e1) ∧
        PropCountInvariant g1 e1 ∧
        ∀ other : Entity, PropCountInvariant g other →
          ¬ (sameKind other.entity_type e.entity.entity_type ∧ other.id = e.entity.id) →
          PropCountInvariant g1 other) := by
  refine ⟨setProperty_total g e attr_id value, ?_, ?_⟩
  · intro g1 e1 h
    obtain ⟨hid, hty, hcount, _⟩ := setProperty_counts g e attr_id value g1 e1 h hinv
    constructor
    · unfold PropCountInvariant at hinv ⊢
      rw [hid, hty, hcount e.entity.entity_type e.entity.id]
      simp [sameKind]
      omega
    · intro other ho hne
      unfold PropCountInvariant at ho ⊢
      rw [hcount other.entity_type other.id, if_neg hne]
      omega
  · intro fuel hfuel hrange
    obtain ⟨g1, e1, hloop, hz, hid, hty, hall, _, hsc, _⟩ :=
      freeEntity_loop_spec (g.attributeMatrices e.entity.entity_type).length fuel g e.entity 0 0
        (by omega) (by omega) (fun _ => rfl) hfuel hinv (fun i hi => by omega)
    refine ⟨g1, e1, hloop, ?_, ?_⟩
    · unfold PropCountInvariant
      rw [hz, hid, hty, (setCount_eq_zero_iff g1 e.entity.entity_type e.entity.id).mpr hall]
      rfl
    · intro other ho hne
      unfold PropCountInvariant at ho ⊢
      rw [hsc other.entity_type other.id hne]
      exact ho

/-- Witness of C1 on node 0 holding `name = "Alice"`: overwriting the name with
"Bob" returns and keeps the invariant. -/
theorem C1_invariant_preserved_witness :
    PropCountInvariant sampleAliceGraph sampleNodeOne.entity ∧
    ∃ g1 e1, GraphEntity_SetProperty sampleAliceGraph sampleNodeOne 0 sampleBob
        = Except.ok (g1, e1) ∧ PropCountInvariant g1 e1.entity := by
  have h := C1_invariant_preserved sampleAliceGraph sampleNodeOne 0 sampleBob (by decide)
  obtain ⟨g1, e1, hs⟩ := h.1 (by decide)
  exact ⟨by decide, g1, e1, hs, (h.2.1 g1 e1 hs).1⟩

/-- C2: round trip.  For an entity with `prop_count >= 0`, an attribute id that
has a matrix and is not the sentinel `ATTRIBUTE_NOTFOUND`, and a non-null
value `v`, `GraphEntity_SetProperty` returns and a following
`GraphEntity_GetProperty` returns a value with the type and payload of `v`,
whether or not the attribute was set before. -/
theorem C2_set_get_roundtrip (g : Graph) (e : GraphEntity) (a : Attribute_ID) (v : SIValue)
    (hpc : 0 ≤ e.entity.prop_count)
    (hm : (g.attributeMatrix e.entity.entity_type a).isSome = true)
    (ha : a ≠ ATTRIBUTE_NOTFOUND)
    (hv : SIValue_IsNull v = false) :
    ∃ g1 e1 r, GraphEntity_SetProperty g e a v = Except.ok (g1, e1) ∧
      GraphEntity_GetProperty g1 e1 a = Except.ok r ∧ r.sameValue v := by
  obtain ⟨g2, e2, hs⟩ := setProperty_total g e a v hm
  obtain ⟨g1, ent1, hr, _, hadd⟩ := setProperty_steps g e a v g2 e2 hs
  obtain ⟨_, hty, _, _, _, _, _, _, hpc1⟩ := removeProperty_effect g e.entity a g1 ent1 hr
  obtain ⟨hid2, hty2, hpc2, hcell, _, _, hsome, _⟩ :=
    addProperty_effect g1 { entity := ent1 } a (SI_CloneValue v) g2 e2 (hadd hv)
  simp only at hid2 hty2 hpc2 hcell
  have hpos : e2.entity.prop_count ≠ 0 := by
    rw [hpc2, hpc1]
    split_ifs with hc
    · have := hc.1; omega
    · omega
  have hcell2 : g2.cell e2.entity.entity_type a e2.entity.id
      = some (SI_CloneValue (SI_CloneValue v)) := by
    rw [hty2, hid2]; exact hcell
  have hm2 : ∃ m, g2.attributeMatrix e2.entity.entity_type a = some m := by
    cases hx : g2.attributeMatrix e2.entity.entity_type a with
    | none => simp [Graph.cell, hx] at hcell2
    | some m => exact ⟨m, rfl⟩
  obtain ⟨m, hm2⟩ := hm2
  refine ⟨g2, e2, _, hs, getProperty_of_matrix g2 e2 a m hm2, ?_⟩
  have hcond : ¬ (a = ATTRIBUTE_NOTFOUND ∨ e2.entity.prop_count = 0) := by
    intro h; rcases h with h | h
    · exact ha h
    · exact hpos h
  rw [if_neg hcond, hcell2]
  show (SI_CloneValue (SI_CloneValue v)).borrowed.sameValue v
  exact ⟨by rw [borrowed_type, clone_type, clone_type],
    by rw [borrowed_payload, clone_payload, clone_payload]⟩

/-- Witness of C2: setting `name = "Alice"` on the fresh node 0 and reading it
back. -/
theorem C2_set_get_roundtrip_witness :
    ∃ g1 e1 r, GraphEntity_SetProperty sampleEmptyGraph sampleNode 0 sampleAlice
        = Except.ok (g1, e1) ∧
      GraphEntity_GetProperty g1 e1 0 = Except.ok r ∧ r.sameValue sampleAlice :=
  C2_set_get_roundtrip sampleEmptyGraph sampleNode 0 sampleAlice (by decide) (by decide)
    (by decide) (by decide)

theorem cell_sameKind (g : Graph) (t1 t2 : Nat) (a : Attribute_ID) (id : EntityID)
    (h : sameKind t1 t2) : g.cell t1 a id = g.cell t2 a id := by
  unfold Graph.cell
  rw [attributeMatrix_eq, attributeMatrix_eq, attributeMatrices_sameKind g t1 t2 h]

/-- A returning `_GraphEntity_RemoveProperty` leaves the backing structure of
every matrix as it was: the removal is queued, not applied. -/
theorem removeProperty_entries (g : Graph) (e : Entity) (a : Attribute_ID) (g1 : Graph)
    (e1 : Entity) (h : _GraphEntity_RemoveProperty g e a = Except.ok (g1, e1)) :
    ∀ ty2 a2 m1, g1.attributeMatrix ty2 a2 = some m1 →
      ∃ m, g.attributeMatrix ty2 a2 = some m ∧ m1.entries = m.entries := by
  intro ty2 a2 m1 h1
  rcases removeProperty_cases g e a with ⟨_, heq⟩ | ⟨_, _, heq⟩ | ⟨_, _, _, _, heq⟩ |
    ⟨m, _, hm, _, heq⟩
  · rw [heq] at h
    simp only [Except.ok.injEq, Prod.mk.injEq] at h
    obtain ⟨rfl, rfl⟩ := h
    exact ⟨m1, h1, rfl⟩
  · rw [heq] at h; cases h
  · rw [heq] at h
    simp only [Except.ok.injEq, Prod.mk.injEq] at h
    obtain ⟨rfl, rfl⟩ := h
    exact ⟨m1, h1, rfl⟩
  · rw [heq] at h
    simp only [Except.ok.injEq, Prod.mk.injEq] at h
    obtain ⟨rfl, rfl⟩ := h
    rw [attributeMatrix_store g e.entity_type ty2 a a2 m _ hm] at h1
    by_cases hka : sameKind ty2 e.entity_type ∧ a2 = a
    · rw [if_pos hka] at h1
      obtain ⟨hk, rfl⟩ := hka
      refine ⟨m, ?_, ?_⟩
      · rw [attributeMatrix_eq, attributeMatrices_sameKind g ty2 e.entity_type hk,
          ← attributeMatrix_eq]; exact hm
      · cases h1; rfl
    · rw [if_neg hka] at h1
      exact ⟨m1, h1, rfl⟩

/-- C3: setting a property to a null value removes it.  For an attribute that
has a matrix, `GraphEntity_SetProperty` with a null value returns, a following
`GraphEntity_GetProperty` returns the null value, the cell is absent when the
entity had a non-zero `prop_count` or satisfied the invariant, no cell is
stored anywhere (every cell is absent or as before), and the backing structure
of every matrix is untouched: the absence is reported with the deletion still
pending, before any flush. -/
theorem C3_set_null_removes (g : Graph) (e : GraphEntity) (a : Attribute_ID) (v : SIValue)
    (hv : SIValue_IsNull v = true)
    (hm : (g.attributeMatrix e.entity.entity_type a).isSome = true) :
    ∃ g1 e1, GraphEntity_SetProperty g e a v = Except.ok (g1, e1) ∧
      GraphEntity_GetProperty g1 e1 a = Except.ok SI_NullVal ∧
      ((e.entity.prop_count ≠ 0 ∨ PropCountInvariant g e.entity) →
        g1.cell e.entity.entity_type a e.entity.id = none) ∧
      (∀ ty2 a2 id2, g1.cell ty2 a2 id2 = none ∨ g1.cell ty2 a2 id2 = g.cell ty2 a2 id2) ∧
      (∀ ty2 a2 m1, g1.attributeMatrix ty2 a2 = some m1 →
        ∃ m, g.attributeMatrix ty2 a2 = some m ∧ m1.entries = m.entries) := by
  obtain ⟨g2, e2, hs⟩ := setProperty_total g e a v hm
  obtain ⟨g1, ent1, hr, hnull, _⟩ := setProperty_steps g e a v g2 e2 hs
  obtain ⟨rfl, rfl⟩ := hnull hv
  obtain ⟨hid, hty, _, hframe, hsome, _, hgone, hsame, hpc⟩ :=
    removeProperty_effect g e.entity a g2 ent1 hr
  have hm1 : ∃ m, g2.attributeMatrix ent1.entity_type a = some m := by
    have := hsome ent1.entity_type a
    rw [hty, hm] at this
    cases hx : g2.attributeMatrix ent1.entity_type a with
    | none => rw [hty] at hx; rw [hx] at this; simp at this
    | some m => exact ⟨m, rfl⟩
  obtain ⟨m1, hm1⟩ := hm1
  refine ⟨g2, { entity := ent1 }, hs, ?_, ?_, ?_, removeProperty_entries g e.entity a g2 ent1 hr⟩
  · rw [getProperty_of_matrix g2 { entity := ent1 } a m1 hm1]
    by_cases hc : a = ATTRIBUTE_NOTFOUND ∨ ent1.prop_count = 0
    · rw [if_pos hc]
    · rw [if_neg hc]
      have h0 : e.entity.prop_count ≠ 0 := by
        intro h0
        apply hc
        right
        rw [hpc, h0]; simp
      show Except.ok (match g2.cell ent1.entity_type a ent1.id with
        | none => SI_NullVal
        | some v => v.borrowed) = Except.ok SI_NullVal
      rw [hty, hid, hgone h0]
  · intro h
    rcases h with h | h
    · exact hgone h
    · exact removeProperty_cell_absent g e.entity a g2 ent1 hr h
  · intro ty2 a2 id2
    by_cases hc : sameKind ty2 e.entity.entity_type ∧ a2 = a ∧ id2 = e.entity.id
    · by_cases h0 : e.entity.prop_count = 0
      · right; rw [hsame h0]
      · left
        obtain ⟨hk, rfl, rfl⟩ := hc
        rw [cell_sameKind g2 ty2 e.entity.entity_type a2 e.entity.id hk]
        exact hgone h0
    · right; exact hframe ty2 a2 id2 hc

/-- Witness of C3: removing `name` from node 0 that holds `name = "Alice"`. -/
theorem C3_set_null_removes_witness :
    ∃ g1 e1, GraphEntity_SetProperty sampleAliceGraph sampleNodeOne 0 SI_NullVal
        = Except.ok (g1, e1) ∧
      GraphEntity_GetProperty g1 e1 0 = Except.ok SI_NullVal ∧
      g1.cell GETYPE_NODE 0 0 = none := by
  obtain ⟨g1, e1, hs, hg, hc, _, _⟩ :=
    C3_set_null_removes sampleAliceGraph sampleNodeOne 0 SI_NullVal (by decide) (by decide)
  exact ⟨g1, e1, hs, hg, hc (Or.inl (by decide))⟩

/-- C4: net effect of `GraphEntity_SetProperty` on `prop_count`.  For an entity
satisfying the invariant and an attribute that has a matrix, the call returns
and `prop_count` changes by -1 when the value is null and the attribute was
set, by 0 when the value is null and the attribute was not set, by 0 when the
value is not null and the attribute was set, and by +1 when the value is not
null and the attribute was not set. -/
theorem C4_set_prop_count_delta (g : Graph) (e : GraphEntity) (a : Attribute_ID) (v : SIValue)
    (hinv : PropCountInvariant g e.entity)
    (hm : (g.attributeMatrix e.entity.entity_type a).isSome = true) :
    ∃ g1 e1, GraphEntity_SetProperty g e a v = Except.ok (g1, e1) ∧
      e1.entity.prop_count - e.entity.prop_count
        = (if SIValue_IsNull v = true
            then (if (g.cell e.entity.entity_type a e.entity.id).isSome = true then -1 else 0)
            else (if (g.cell e.entity.entity_type a e.entity.id).isSome = true then 0 else 1)) := by
  obtain ⟨g2, e2, hs⟩ := setProperty_total g e a v hm
  obtain ⟨_, _, _, hpc⟩ := setProperty_counts g e a v g2 e2 hs hinv
  refine ⟨g2, e2, hs, ?_⟩
  rw [hpc]
  split_ifs <;> omega

/-- Witness of C4: overwriting `name = "Alice"` with "Bob" on node 0 leaves
`prop_count` at 1. -/
theorem C4_set_prop_count_delta_witness :
    ∃ g1 e1, GraphEntity_SetProperty sampleAliceGraph sampleNodeOne 0 sampleBob
        = Except.ok (g1, e1) ∧ e1.entity.prop_count - 1 = 0 := by
  obtain ⟨g1, e1, hs, hd⟩ :=
    C4_set_prop_count_delta sampleAliceGraph sampleNodeOne 0 sampleBob (by decide) (by decide)
  exact ⟨g1, e1, hs, hd⟩

/-- C5 (as amended): `GraphEntity_GetProperty` returns the null value if
`attr_id` is `ATTRIBUTE_NOTFOUND`, or `prop_count` is 0, or the attribute
matrix has no cell at `(id, id)`; in every other case it returns the value
stored at that cell, with allocation tag `M_CONST` unless the stored tag is
`M_NONE`.  The returned value is null exactly in the three cases above or when
the stored value is itself null.  In the three cases and for every attribute
that has a matrix the call returns: a missing property is not a failure. -/
theorem C5_getProperty_null_cases (g : Graph) (e : GraphEntity) (a : Attribute_ID)
    (hm : a = ATTRIBUTE_NOTFOUND ∨ ENTITY_PROP_COUNT e = 0 ∨
      (g.attributeMatrix (ENTITY_TYPE e) a).isSome = true) :
    ∃ r, GraphEntity_GetProperty g e a = Except.ok r ∧
      ((a = ATTRIBUTE_NOTFOUND ∨ ENTITY_PROP_COUNT e = 0 ∨
          g.cell (ENTITY_TYPE e) a (ENTITY_GET_ID e) = none) → r = SI_NullVal) ∧
      (¬ (a = ATTRIBUTE_NOTFOUND ∨ ENTITY_PROP_COUNT e = 0 ∨
          g.cell (ENTITY_TYPE e) a (ENTITY_GET_ID e) = none) →
        ∃ v, g.cell (ENTITY_TYPE e) a (ENTITY_GET_ID e) = some v ∧ r = v.borrowed ∧
          r.sameValue v) ∧
      (SIValue_IsNull r = true ↔
        (a = ATTRIBUTE_NOTFOUND ∨ ENTITY_PROP_COUNT e = 0 ∨
          g.cell (ENTITY_TYPE e) a (ENTITY_GET_ID e) = none ∨
          ∃ v, g.cell (ENTITY_TYPE e) a (ENTITY_GET_ID e) = some v ∧ SIValue_IsNull v = true)) := by
  simp only [ENTITY_PROP_COUNT, ENTITY_TYPE, ENTITY_GET_ID] at hm ⊢
  by_cases hc : a = ATTRIBUTE_NOTFOUND ∨ e.entity.prop_count = 0
  · refine ⟨SI_NullVal, ?_, fun _ => rfl, ?_, ?_⟩
    · unfold GraphEntity_GetProperty
      simp only [ENTITY_PROP_COUNT, if_pos hc]
    · intro hn
      exact absurd (hc.elim Or.inl (fun h => Or.inr (Or.inl h))) hn
    · constructor
      · intro _
        exact hc.elim Or.inl (fun h => Or.inr (Or.inl h))
      · intro _; rfl
  · have hm1 : (g.attributeMatrix e.entity.entity_type a).isSome = true := by
      rcases hm with h | h | h
      · exact absurd (Or.inl h) hc
      · exact absurd (Or.inr h) hc
      · exact h
    cases hx : g.attributeMatrix e.entity.entity_type a with
    | none => rw [hx] at hm1; simp at hm1
    | some m =>
      have hget := getProperty_of_matrix g e a m hx
      rw [if_neg hc] at hget
      have hna : ¬ a = ATTRIBUTE_NOTFOUND := fun h => hc (Or.inl h)
      have hnp : ¬ e.entity.prop_count = 0 := fun h => hc (Or.inr h)
      cases hcell : g.cell e.entity.entity_type a e.entity.id with
      | none =>
        rw [hcell] at hget
        refine ⟨SI_NullVal, hget, fun _ => rfl, ?_, ?_⟩
        · intro hn; exact absurd (Or.inr (Or.inr rfl)) hn
        · constructor
          · intro _; exact Or.inr (Or.inr (Or.inl rfl))
          · intro _; rfl
      | some v =>
        rw [hcell] at hget
        refine ⟨v.borrowed, hget, ?_, ?_, ?_⟩
        · intro h
          rcases h with h | h | h
          · exact absurd h hna
          · exact absurd h hnp
          · cases h
        · intro _
          exact ⟨v, rfl, rfl, borrowed_type v, borrowed_payload v⟩
        · have hnull : SIValue_IsNull v.borrowed = SIValue_IsNull v := by
            unfold SIValue_IsNull; rw [borrowed_type]
          rw [hnull]
          constructor
          · intro h; exact Or.inr (Or.inr (Or.inr ⟨v, rfl, h⟩))
          · intro h
            rcases h with h | h | h | ⟨w, hw, hwn⟩
            · exact absurd h hna
            · exact absurd h hnp
            · cases h
            · cases hw; exact hwn

/-- Witness of C5: reading `name` of node 0 that holds `name = "Alice"` returns
the stored string with tag `M_CONST`. -/
theorem C5_getProperty_null_cases_witness :
    ∃ r, GraphEntity_GetProperty sampleAliceGraph sampleNodeOne 0 = Except.ok r ∧
      SIValue_IsNull r = false ∧ r.sameValue sampleAlice := by
  obtain ⟨r, hr, _, hv, _⟩ :=
    C5_getProperty_null_cases sampleAliceGraph sampleNodeOne 0 (Or.inr (Or.inr (by decide)))
  obtain ⟨v, hcell, hrv, hsv⟩ := hv (by decide)
  have hv2 : v = SI_CloneValue sampleAlice := by
    have : sampleAliceGraph.cell (ENTITY_TYPE sampleNodeOne) 0 (ENTITY_GET_ID sampleNodeOne)
        = some (SI_CloneValue sampleAlice) := by decide
    rw [this] at hcell
    exact (Option.some.inj hcell).symm
  subst hv2
  subst hrv
  exact ⟨_, hr, by decide, by decide⟩

/-- Counterexample to C5 as stated: `GraphEntity_AddProperty` of the null value
on attribute 0 of the fresh node 0 stores a null cell; `GraphEntity_GetProperty`
then returns the null value although the attribute id is not the sentinel,
`prop_count` is 1 and the matrix holds a cell at `(0, 0)`. -/
theorem C5_getProperty_null_counterexample :
    GraphEntity_AddProperty sampleEmptyGraph sampleNode 0 SI_NullVal
      = Except.ok (sampleNullCellGraph, sampleNodeOne) ∧
    GraphEntity_GetProperty sampleNullCellGraph sampleNodeOne 0 = Except.ok SI_NullVal ∧
    ¬ ((0 : Attribute_ID) = ATTRIBUTE_NOTFOUND ∨ ENTITY_PROP_COUNT sampleNodeOne = 0 ∨
      sampleNullCellGraph.cell (ENTITY_TYPE sampleNodeOne) 0 (ENTITY_GET_ID sampleNodeOne)
        = none) :=
  ⟨rfl, rfl, by decide⟩

/-- C9: `GraphEntity_AddProperty`, for an entity whose `prop_count` is a C
`int` below `INT_MAX` (where C defines the increment) and an attribute that
has a matrix, returns with `prop_count` increased by exactly 1, again a value
of the type `int`, and the diagonal cell `(id, id)` of that attribute's matrix
(the node matrix for a node, the edge matrix otherwise) holding a clone of the
value, without checking the cell: the number of set cells grows by one on an
unset attribute and stays the same on a set one, so that from the invariant
`prop_count` then exceeds the number of set cells by one. -/
theorem C9_addProperty (g : Graph) (e : GraphEntity) (a : Attribute_ID) (v : SIValue)
    (hlo : INT_MIN ≤ ENTITY_PROP_COUNT e) (hhi : ENTITY_PROP_COUNT e < INT_MAX)
    (hm : (g.attributeMatrix (ENTITY_TYPE e) a).isSome = true) :
    ∃ g1 e1, GraphEntity_AddProperty g e a v = Except.ok (g1, e1) ∧
      ENTITY_PROP_COUNT e1 = ENTITY_PROP_COUNT e + 1 ∧
      INT_MIN ≤ ENTITY_PROP_COUNT e1 ∧ ENTITY_PROP_COUNT e1 ≤ INT_MAX ∧
      ENTITY_GET_ID e1 = ENTITY_GET_ID e ∧ ENTITY_TYPE e1 = ENTITY_TYPE e ∧
      (∃ s, g1.cell (ENTITY_TYPE e) a (ENTITY_GET_ID e) = some s ∧ s.sameValue v) ∧
      (ENTITY_TYPE e = GETYPE_NODE →
        ∃ m, Graph_GetNodeAttributeMatrix g1 a = some m ∧
          GrB_Matrix_extractElement_UDT m (ENTITY_GET_ID e) (ENTITY_GET_ID e)
            = some (SI_CloneValue v)) ∧
      (ENTITY_TYPE e ≠ GETYPE_NODE →
        ∃ m, Graph_GetEdgeAttributeMatrix g1 a = some m ∧
          GrB_Matrix_extractElement_UDT m (ENTITY_GET_ID e) (ENTITY_GET_ID e)
            = some (SI_CloneValue v)) ∧
      ((g.cell (ENTITY_TYPE e) a (ENTITY_GET_ID e)).isSome = false →
        g1.setCount (ENTITY_TYPE e) (ENTITY_GET_ID e)
          = g.setCount (ENTITY_TYPE e) (ENTITY_GET_ID e) + 1) ∧
      ((g.cell (ENTITY_TYPE e) a (ENTITY_GET_ID e)).isSome = true →
        g1.setCount (ENTITY_TYPE e) (ENTITY_GET_ID e)
          = g.setCount (ENTITY_TYPE e) (ENTITY_GET_ID e) ∧
        (PropCountInvariant g e.entity →
          ENTITY_PROP_COUNT e1
            = (g1.setCount (ENTITY_TYPE e) (ENTITY_GET_ID e) : Int) + 1)) := by
  simp only [ENTITY_PROP_COUNT, ENTITY_TYPE, ENTITY_GET_ID, INT_MIN, INT_MAX] at hm hlo hhi ⊢
  obtain ⟨g1, e1, hadd⟩ := addProperty_total g e a v hm
  obtain ⟨hid, hty, hpc, hcell, hcount, _, _, _⟩ := addProperty_effect g e a v g1 e1 hadd
  have hc := hcount e.entity.entity_type e.entity.id
  simp only [sameKind, true_and, if_true] at hc
  have hmat : ∃ m, g1.attributeMatrix e.entity.entity_type a = some m ∧
      GrB_Matrix_extractElement_UDT m e.entity.id e.entity.id = some (SI_CloneValue v) := by
    cases hx : g1.attributeMatrix e.entity.entity_type a with
    | none => simp [Graph.cell, hx] at hcell
    | some m => exact ⟨m, rfl, by simpa [Graph.cell, hx] using hcell⟩
  obtain ⟨m, hmat, hext⟩ := hmat
  refine ⟨g1, e1, hadd, hpc, by omega, by omega, hid, hty,
    ⟨_, hcell, clone_type v, clone_payload v⟩, ?_, ?_, ?_, ?_⟩
  · intro hnode
    refine ⟨m, ?_, hext⟩
    rw [← hmat]; unfold Graph.attributeMatrix; rw [if_pos hnode]
  · intro hnode
    refine ⟨m, ?_, hext⟩
    rw [← hmat]; unfold Graph.attributeMatrix; rw [if_neg hnode]
  · intro hunset
    rw [hunset] at hc
    simp at hc
    omega
  · intro hset
    rw [hset] at hc
    simp at hc
    refine ⟨by omega, ?_⟩
    intro hinv
    unfold PropCountInvariant at hinv
    rw [hpc, hinv, hc]

/-- Witness of C9: adding `name = "Bob"` to node 0 that already holds
`name = "Alice"` returns with `prop_count = 2` while one cell is set. -/
theorem C9_addProperty_witness :
    INT_MIN ≤ ENTITY_PROP_COUNT sampleNodeOne ∧ ENTITY_PROP_COUNT sampleNodeOne < INT_MAX ∧
    ∃ g1 e1, GraphEntity_AddProperty sampleAliceGraph sampleNodeOne 0 sampleBob
        = Except.ok (g1, e1) ∧
      ENTITY_PROP_COUNT e1 = 2 ∧ g1.setCount GETYPE_NODE 0 = 1 := by
  refine ⟨by decide, by decide, ?_⟩
  obtain ⟨g1, e1, hadd, hpc, _, _, _, _, _, _, _, _, hset⟩ :=
    C9_addProperty sampleAliceGraph sampleNodeOne 0 sampleBob (by decide) (by decide) (by decide)
  have h := (hset (by decide)).1
  exact ⟨g1, e1, hadd, hpc, h⟩

/-- C10: for an entity satisfying the invariant, `FreeEntity`, given fuel for
one pass over the at most 65536 attribute matrices of the entity's kind,
returns with `prop_count = 0` and with no attribute matrix of that kind
holding a cell at `(id, id)`; an entity of the same kind that reuses the id
reads the null value for every attribute, whatever its own `prop_count`. -/
theorem C10_freeEntity_clears (g : Graph) (e : Entity) (fuel : Nat)
    (hinv : PropCountInvariant g e)
    (hrange : (g.attributeMatrices e.entity_type).length ≤ USHRT_RANGE)
    (hfuel : (g.attributeMatrices e.entity_type).length ≤ fuel) :
    ∃ g1 e1, FreeEntity fuel g e = Except.ok (g1, e1) ∧
      e1.prop_count = 0 ∧ e1.id = e.id ∧ e1.entity_type = e.entity_type ∧
      (∀ a, g1.cell e.entity_type a e.id = none) ∧
      g1.setCount e.entity_type e.id = 0 ∧
      (∀ (later : GraphEntity) (a : Attribute_ID),
        ENTITY_GET_ID later = e.id → sameKind (ENTITY_TYPE later) e.entity_type →
        (g.attributeMatrix e.entity_type a).isSome = true →
        GraphEntity_GetProperty g1 later a = Except.ok SI_NullVal) := by
  obtain ⟨g1, e1, hloop, hz, hid, hty, hall, _, _, hsome⟩ :=
    freeEntity_loop_spec (g.attributeMatrices e.entity_type).length fuel g e 0 0
      (by omega) (by omega) (fun _ => rfl) hfuel hinv (fun i hi => by omega)
  refine ⟨g1, e1, hloop, hz, hid, hty, hall,
    (setCount_eq_zero_iff g1 e.entity_type e.id).mpr hall, ?_⟩
  intro later a hlid hkind hm
  simp only [ENTITY_GET_ID, ENTITY_TYPE] at hlid hkind
  have hm1 : ∃ m, g1.attributeMatrix later.entity.entity_type a = some m := by
    have h1 : (g1.attributeMatrix later.entity.entity_type a).isSome = true := by
      rw [hsome, attributeMatrix_eq, attributeMatrices_sameKind g _ _ hkind, ← attributeMatrix_eq]
      exact hm
    cases hx : g1.attributeMatrix later.entity.entity_type a with
    | none => rw [hx] at h1; simp at h1
    | some m => exact ⟨m, rfl⟩
  obtain ⟨m, hm1⟩ := hm1
  rw [getProperty_of_matrix g1 later a m hm1, hlid,
    cell_sameKind g1 later.entity.entity_type e.entity_type a e.id hkind, hall a]
  split <;> rfl

/-- Witness of C10: freeing node 0 that holds `name` and `city`. -/
theorem C10_freeEntity_clears_witness :
    ∃ g1 e1, FreeEntity 3 sampleTwoGraph sampleNodeTwo.entity = Except.ok (g1, e1) ∧
      e1.prop_count = 0 ∧ g1.setCount GETYPE_NODE 0 = 0 := by
  obtain ⟨g1, e1, hf, hz, _, _, _, hs, _⟩ :=
    C10_freeEntity_clears sampleTwoGraph sampleNodeTwo.entity 3 (by decide) (by decide)
      (by decide)
  exact ⟨g1, e1, hf, hz, hs⟩

theorem writeSlot_pred {α : Type} (l : List α) (cnt : Int) (c : Nat) (x : α)
    (hc : cnt = ((c + 1 : Nat) : Int)) (hlt : c < l.length) :
    writeSlot l (cnt - 1) x = Except.ok (l.set c x) := by
  unfold writeSlot
  have h1 : (cnt - 1).toNat = c := by omega
  have h2 : 0 ≤ cnt - 1 := by omega
  rw [h1, if_pos ⟨h2, hlt⟩]

theorem drop_set_self {α : Type} : ∀ (l : List α) (c : Nat) (x : α), c < l.length →
    (l.set c x).drop c = x :: l.drop (c + 1)
  | [], c, x, h => by simp at h
  | a :: l, 0, x, _ => by simp
  | a :: l, c + 1, x, h => by
    simp only [List.set_cons_succ, List.drop_succ_cons]
    exact drop_set_self l c x (by simpa using h)

theorem writeOptionalSlot_pred {α : Type} (xs : Option (List α)) (cnt : Int) (c : Nat) (x : α)
    (hc : cnt = ((c + 1 : Nat) : Int)) (hlt : ∀ l, xs = some l → c < l.length) :
    writeOptionalSlot xs (cnt - 1) x = Except.ok (xs.map (fun l => l.set c x)) := by
  cases xs with
  | none => rfl
  | some l =>
    unfold writeOptionalSlot
    simp only [writeSlot_pred l cnt c x hc (hlt l rfl), Option.map_some']

theorem drop_cons_decompose {α : Type} (l : List α) (k : Nat) (m : α) (rest : List α)
    (h : l.drop k = m :: rest) : l[k]? = some m ∧ l.drop (k + 1) = rest := by
  constructor
  · have h2 : (l.drop k)[0]? = l[k]? := by simp
    rw [h] at h2
    simpa using h2.symm
  · have : l.drop (k + 1) = (l.drop k).drop 1 := by
      rw [List.drop_drop]
    rw [this, h]; rfl

theorem storedProperties_nil_of_count (id : EntityID) :
    ∀ (ms : List GrB_Matrix) (k : Nat), ms.countP (fun m => m.hasCell id) = 0 →
      storedProperties ms id k = []
  | [], _, _ => rfl
  | m :: ms, k, h => by
    rw [List.countP_cons] at h
    have hm : m.hasCell id = false := by
      cases hx : m.hasCell id with
      | false => rfl
      | true => simp [hx] at h
    have hrest : ms.countP (fun m => m.hasCell id) = 0 := by omega
    unfold storedProperties
    unfold GrB_Matrix.hasCell at hm
    cases hx : GrB_Matrix_extractElement_UDT m id id with
    | none => simp only; exact storedProperties_nil_of_count id ms (k + 1) hrest
    | some v => rw [hx] at hm; simp at hm

/-- The loop of `GraphEntity_GetProperties` started at attribute id `k` with
`cnt` the number of cells of the entity in the matrices from `k` on: it
returns, the first `cnt` slots of every array hold the properties from `k` on
in reverse order of attribute id, the other slots are as before, and the ids
probed are `k, k + 1, ...` up to the last one that holds a cell. -/
theorem getProperties_loop_spec (gc : GraphContext) (g : Graph) (e : GraphEntity) :
    ∀ (suffix : List GrB_Matrix) (k attr_id fuel : Nat) (cnt : Int) (out : PropertyArrays)
      (probes : List Attribute_ID),
      (g.attributeMatrices e.entity.entity_type).drop k = suffix →
      k + suffix.length ≤ USHRT_RANGE →
      suffix.length ≤ fuel →
      cnt = ((suffix.countP (fun m => m.hasCell e.entity.id) : Nat) : Int) →
      (cnt ≠ 0 → attr_id = k) →
      suffix.countP (fun m => m.hasCell e.entity.id) ≤ out.vs.length →
      (∀ l, out.attr_ids = some l →
        suffix.countP (fun m => m.hasCell e.entity.id) ≤ l.length) →
      (∀ l, out.attr_names = some l →
        suffix.countP (fun m => m.hasCell e.entity.id) ≤ l.length) →
      GraphEntity_GetProperties_loop gc g e fuel attr_id cnt out probes
        = Except.ok
            ({ attr_ids := out.attr_ids.map (fun l =>
                  (storedProperties suffix e.entity.id k).reverse.map (fun p => p.1)
                    ++ l.drop (suffix.countP (fun m => m.hasCell e.entity.id)))
               attr_names := out.attr_names.map (fun l =>
                  (storedProperties suffix e.entity.id k).reverse.map
                      (fun p => GraphContext_GetAttributeString gc p.1)
                    ++ l.drop (suffix.countP (fun m => m.hasCell e.entity.id)))
               vs := (storedProperties suffix e.entity.id k).reverse.map (fun p => p.2.borrowed)
                    ++ out.vs.drop (suffix.countP (fun m => m.hasCell e.entity.id)) },
             probes ++ List.range' k (probeSpan suffix e.entity.id)) := by
  intro suffix
  induction suffix with
  | nil =>
    intro k attr_id fuel cnt out probes _ _ _ hcnt _ _ _ _
    have h0 : cnt = 0 := by simpa using hcnt
    obtain ⟨ids, names, vs⟩ := out
    have hres : GraphEntity_GetProperties_loop gc g e fuel attr_id cnt ⟨ids, names, vs⟩ probes
        = Except.ok (⟨ids, names, vs⟩, probes) := by
      cases fuel <;> simp [GraphEntity_GetProperties_loop, h0]
    rw [hres]
    cases ids <;> cases names <;> simp [storedProperties, probeSpan]
  | cons m rest ih =>
    intro k attr_id fuel cnt out probes hdrop hrange hfuel hcnt hattr hvs hids hnames
    obtain ⟨hmk, hdrop1⟩ := drop_cons_decompose _ k m rest hdrop
    by_cases hz : (m :: rest).countP (fun m => m.hasCell e.entity.id) = 0
    · have h0 : cnt = 0 := by rw [hcnt, hz]; rfl
      obtain ⟨ids, names, vs⟩ := out
      have hres : GraphEntity_GetProperties_loop gc g e fuel attr_id cnt ⟨ids, names, vs⟩ probes
          = Except.ok (⟨ids, names, vs⟩, probes) := by
        cases fuel <;> simp [GraphEntity_GetProperties_loop, h0]
      rw [hres, storedProperties_nil_of_count e.entity.id (m :: rest) k hz, hz]
      have hspan : probeSpan (m :: rest) e.entity.id = 0 := by
        show (if (m :: rest).countP (fun x => x.hasCell e.entity.id) = 0 then 0
          else probeSpan rest e.entity.id + 1) = _
        rw [if_pos hz]
      rw [hspan]
      cases ids <;> cases names <;> simp
    · have hne : cnt ≠ 0 := by rw [hcnt]; exact_mod_cast hz
      have hk : attr_id = k := hattr hne
      subst hk
      have hmat : g.attributeMatrix (ENTITY_TYPE e) attr_id = some m := by
        rw [attributeMatrix_eq]; exact hmk
      have hspan : probeSpan (m :: rest) e.entity.id = probeSpan rest e.entity.id + 1 := by
        show (if (m :: rest).countP (fun x => x.hasCell e.entity.id) = 0 then 0
          else probeSpan rest e.entity.id + 1) = _
        rw [if_neg hz]
      have hlen : (m :: rest).length = rest.length + 1 := rfl
      cases fuel with
      | zero => rw [hlen] at hfuel; omega
      | succ fuel =>
        have hmod : ∀ c : Int, c = ((rest.countP (fun m => m.hasCell e.entity.id) : Nat) : Int) →
            c ≠ 0 → (attr_id + 1) % USHRT_RANGE = attr_id + 1 := by
          intro c hc hc0
          have hpos : rest.countP (fun m => m.hasCell e.entity.id) ≠ 0 := by
            intro h; rw [h] at hc; exact hc0 hc
          have hle := List.countP_le_length (fun m : GrB_Matrix => m.hasCell e.entity.id) (l := rest)
          apply Nat.mod_eq_of_lt
          rw [hlen] at hrange
          omega
        cases hx : GrB_Matrix_extractElement_UDT m e.entity.id e.entity.id with
        | some v =>
          have hcell : m.hasCell e.entity.id = true := by simp [GrB_Matrix.hasCell, hx]
          have hcount : (m :: rest).countP (fun m => m.hasCell e.entity.id)
              = rest.countP (fun m => m.hasCell e.entity.id) + 1 := by
            rw [List.countP_cons]; simp [hcell]
          rw [hcount] at hcnt hvs hids hnames ⊢
          have hstored : storedProperties (m :: rest) e.entity.id attr_id
              = (attr_id, v) :: storedProperties rest e.entity.id (attr_id + 1) := by
            rw [storedProperties, hx]
          obtain ⟨ids, names, vs⟩ := out
          simp only at hvs hids hnames
          have hw1 := writeOptionalSlot_pred ids cnt _ attr_id hcnt (fun l hl => hids l hl)
          have hw2 := writeOptionalSlot_pred names cnt _
            (GraphContext_GetAttributeString gc attr_id) hcnt (fun l hl => hnames l hl)
          have hw3 := writeSlot_pred vs cnt _ v.borrowed hcnt hvs
          have hstep : GraphEntity_GetProperties_loop gc g e (fuel + 1) attr_id cnt
                ⟨ids, names, vs⟩ probes
              = GraphEntity_GetProperties_loop gc g e fuel ((attr_id + 1) % USHRT_RANGE) (cnt - 1)
                  ⟨ids.map (fun l => l.set (rest.countP (fun m => m.hasCell e.entity.id)) attr_id),
                   names.map (fun l => l.set (rest.countP (fun m => m.hasCell e.entity.id))
                      (GraphContext_GetAttributeString gc attr_id)),
                   vs.set (rest.countP (fun m => m.hasCell e.entity.id)) v.borrowed⟩
                  (probes ++ [attr_id]) := by
            rw [GraphEntity_GetProperties_loop]
            simp only [if_neg hne, hmat, ENTITY_GET_ID, hx, hw1, hw2]
            have hw3b : writeSlot vs (cnt - 1)
                (if v.allocation ≠ SIAllocation.M_NONE
                  then { v with allocation := SIAllocation.M_CONST } else v)
                = Except.ok (vs.set (rest.countP (fun m => m.hasCell e.entity.id)) v.borrowed) := hw3
            simp only [hw3b]
          rw [hstep]
          have hcnt1 : cnt - 1 = ((rest.countP (fun m => m.hasCell e.entity.id) : Nat) : Int) := by
            omega
          rw [ih (attr_id + 1) ((attr_id + 1) % USHRT_RANGE) fuel (cnt - 1) _ (probes ++ [attr_id])
            hdrop1 (by rw [hlen] at hrange; omega) (by rw [hlen] at hfuel; omega) hcnt1
            (hmod (cnt - 1) hcnt1)
            (by simp only [List.length_set]; omega)
            (by
              intro l hl
              cases ids with
              | none => simp at hl
              | some l0 =>
                simp only [Option.map_some', Option.some.injEq] at hl
                rw [← hl, List.length_set]
                have := hids l0 rfl
                omega)
            (by
              intro l hl
              cases names with
              | none => simp at hl
              | some l0 =>
                simp only [Option.map_some', Option.some.injEq] at hl
                rw [← hl, List.length_set]
                have := hnames l0 rfl
                omega)]
          rw [hstored, hspan]
          have hr : List.range' attr_id (probeSpan rest e.entity.id + 1)
              = attr_id :: List.range' (attr_id + 1) (probeSpan rest e.entity.id) := by
            rw [List.range'_succ]
          rw [hr]
          cases ids with
          | none =>
            cases names with
            | none => simp [drop_set_self vs _ v.borrowed hvs]
            | some ln =>
              simp [drop_set_self vs _ v.borrowed hvs,
                drop_set_self ln _ (GraphContext_GetAttributeString gc attr_id) (hnames ln rfl)]
          | some li =>
            cases names with
            | none =>
              simp [drop_set_self vs _ v.borrowed hvs,
                drop_set_self li _ attr_id (hids li rfl)]
            | some ln =>
              simp [drop_set_self vs _ v.borrowed hvs,
                drop_set_self li _ attr_id (hids li rfl),
                drop_set_self ln _ (GraphContext_GetAttributeString gc attr_id) (hnames ln rfl)]
        | none =>
          have hcell : m.hasCell e.entity.id = false := by simp [GrB_Matrix.hasCell, hx]
          have hcount : (m :: rest).countP (fun m => m.hasCell e.entity.id)
              = rest.countP (fun m => m.hasCell e.entity.id) := by
            rw [List.countP_cons]; simp [hcell]
          rw [hcount] at hcnt hvs hids hnames ⊢
          have hstored : storedProperties (m :: rest) e.entity.id attr_id
              = storedProperties rest e.entity.id (attr_id + 1) := by
            rw [storedProperties, hx]
          have hstep : GraphEntity_GetProperties_loop gc g e (fuel + 1) attr_id cnt out probes
              = GraphEntity_GetProperties_loop gc g e fuel ((attr_id + 1) % USHRT_RANGE) cnt
                  out (probes ++ [attr_id]) := by
            rw [GraphEntity_GetProperties_loop]
            simp only [if_neg hne, hmat, ENTITY_GET_ID, hx]
          rw [hstep, ih (attr_id + 1) ((attr_id + 1) % USHRT_RANGE) fuel cnt out
            (probes ++ [attr_id]) hdrop1 (by rw [hlen] at hrange; omega)
            (by rw [hlen] at hfuel; omega) hcnt (hmod cnt hcnt) hvs hids hnames]
          rw [hstored, hspan]
          have hr : List.range' attr_id (probeSpan rest e.entity.id + 1)
              = attr_id :: List.range' (attr_id + 1) (probeSpan rest e.entity.id) := by
            rw [List.range'_succ]
          rw [hr]
          simp

theorem storedProperties_length (id : EntityID) :
    ∀ (ms : List GrB_Matrix) (k : Nat),
      (storedProperties ms id k).length = ms.countP (fun m => m.hasCell id)
  | [], _ => rfl
  | m :: ms, k => by
    rw [storedProperties, List.countP_cons]
    cases hx : GrB_Matrix_extractElement_UDT m id id with
    | none =>
      have hcell : m.hasCell id = false := by simp [GrB_Matrix.hasCell, hx]
      simp only [hcell]
      rw [storedProperties_length id ms (k + 1)]; simp
    | some v =>
      have hcell : m.hasCell id = true := by simp [GrB_Matrix.hasCell, hx]
      simp only [hcell, List.length_cons]
      rw [storedProperties_length id ms (k + 1)]; simp

theorem storedProperties_mem (id : EntityID) :
    ∀ (ms : List GrB_Matrix) (k a : Nat) (v : SIValue),
      (a, v) ∈ storedProperties ms id k ↔
        k ≤ a ∧ ∃ m, ms[a - k]? = some m ∧ GrB_Matrix_extractElement_UDT m id id = some v
  | [], k, a, v => by simp [storedProperties]
  | m :: ms, k, a, v => by
    have ih := storedProperties_mem id ms (k + 1) a v
    have hshift : k + 1 ≤ a → (m :: ms)[a - k]? = ms[a - (k + 1)]? := by
      intro h
      have : a - k = (a - (k + 1)) + 1 := by omega
      rw [this, List.getElem?_cons_succ]
    rw [storedProperties]
    cases hx : GrB_Matrix_extractElement_UDT m id id with
    | none =>
      simp only
      rw [ih]
      constructor
      · rintro ⟨hk, m1, hm1, hv⟩
        exact ⟨by omega, m1, by rw [hshift hk]; exact hm1, hv⟩
      · rintro ⟨hk, m1, hm1, hv⟩
        by_cases hka : a = k
        · subst hka
          simp only [Nat.sub_self, List.getElem?_cons_zero, Option.some.injEq] at hm1
          subst hm1
          rw [hx] at hv; cases hv
        · have hk1 : k + 1 ≤ a := by omega
          exact ⟨hk1, m1, by rw [← hshift hk1]; exact hm1, hv⟩
    | some w =>
      simp only [List.mem_cons, Prod.mk.injEq]
      rw [ih]
      constructor
      · rintro (⟨rfl, rfl⟩ | ⟨hk, m1, hm1, hv⟩)
        · exact ⟨le_refl _, m, by simp, hx⟩
        · exact ⟨by omega, m1, by rw [hshift hk]; exact hm1, hv⟩
      · rintro ⟨hk, m1, hm1, hv⟩
        by_cases hka : a = k
        · subst hka
          simp only [Nat.sub_self, List.getElem?_cons_zero, Option.some.injEq] at hm1
          subst hm1
          rw [hx] at hv
          left
          exact ⟨rfl, (Option.some.inj hv).symm⟩
        · have hk1 : k + 1 ≤ a := by omega
          right
          exact ⟨hk1, m1, by rw [← hshift hk1]; exact hm1, hv⟩

theorem storedProperties_lower (id : EntityID) (ms : List GrB_Matrix) (k : Nat)
    (p : Attribute_ID × SIValue) (h : p ∈ storedProperties ms id k) : k ≤ p.1 := by
  obtain ⟨a, v⟩ := p
  exact ((storedProperties_mem id ms k a v).mp h).1

theorem storedProperties_sorted (id : EntityID) :
    ∀ (ms : List GrB_Matrix) (k : Nat),
      (storedProperties ms id k).Pairwise (fun p q => p.1 < q.1)
  | [], _ => by simp [storedProperties]
  | m :: ms, k => by
    rw [storedProperties]
    cases hx : GrB_Matrix_extractElement_UDT m id id with
    | none => exact storedProperties_sorted id ms (k + 1)
    | some v =>
      simp only [List.pairwise_cons]
      refine ⟨?_, storedProperties_sorted id ms (k + 1)⟩
      intro q hq
      have := storedProperties_lower id ms (k + 1) q hq
      show k < q.1
      omega

theorem storedProperties_cell (g : Graph) (ty : Nat) (id : EntityID) (a : Nat) (v : SIValue) :
    (a, v) ∈ storedProperties (g.attributeMatrices ty) id 0 ↔ g.cell ty a id = some v := by
  rw [storedProperties_mem]
  unfold Graph.cell
  rw [attributeMatrix_eq]
  simp only [Nat.zero_le, Nat.sub_zero, true_and]
  constructor
  · rintro ⟨m, hm, hv⟩
    rw [hm]; exact hv
  · intro h
    cases hm : (g.attributeMatrices ty)[a]? with
    | none => rw [hm] at h; cases h
    | some m => rw [hm] at h; exact ⟨m, rfl, h⟩

theorem probeSpan_eq_zero_iff (id : EntityID) (ms : List GrB_Matrix) :
    probeSpan ms id = 0 ↔ ms.countP (fun m => m.hasCell id) = 0 := by
  cases ms with
  | nil => simp [probeSpan]
  | cons m rest =>
    show (if (m :: rest).countP (fun x => x.hasCell id) = 0 then 0 else probeSpan rest id + 1) = 0
      ↔ _
    by_cases hz : (m :: rest).countP (fun x => x.hasCell id) = 0
    · rw [if_pos hz]; simp [hz]
    · rw [if_neg hz]; simp [hz]

theorem probeSpan_bound (id : EntityID) :
    ∀ (ms : List GrB_Matrix) (i : Nat) (m : GrB_Matrix),
      ms[i]? = some m → m.hasCell id = true → i < probeSpan ms id
  | [], i, m, h, _ => by simp at h
  | m0 :: rest, i, m, h, hc => by
    have hz : (m0 :: rest).countP (fun x => x.hasCell id) ≠ 0 := by
      intro hz
      rw [List.countP_eq_zero] at hz
      have := hz m (List.getElem?_mem h)
      simp [hc] at this
    show i < (if (m0 :: rest).countP (fun x => x.hasCell id) = 0 then 0
      else probeSpan rest id + 1)
    rw [if_neg hz]
    cases i with
    | zero => omega
    | succ i =>
      rw [List.getElem?_cons_succ] at h
      have := probeSpan_bound id rest i m h hc
      omega

theorem probeSpan_last (id : EntityID) :
    ∀ (ms : List GrB_Matrix), probeSpan ms id ≠ 0 →
      ∃ m, ms[probeSpan ms id - 1]? = some m ∧ m.hasCell id = true
  | [], h => by simp [probeSpan] at h
  | m0 :: rest, h => by
    have hz : (m0 :: rest).countP (fun x => x.hasCell id) ≠ 0 := by
      intro hz; exact h ((probeSpan_eq_zero_iff id (m0 :: rest)).mpr hz)
    have hs : probeSpan (m0 :: rest) id = probeSpan rest id + 1 := by
      show (if (m0 :: rest).countP (fun x => x.hasCell id) = 0 then 0
        else probeSpan rest id + 1) = _
      rw [if_neg hz]
    rw [hs]
    by_cases hr : probeSpan rest id = 0
    · have hrest := (probeSpan_eq_zero_iff id rest).mp hr
      rw [hr]
      refine ⟨m0, by simp, ?_⟩
      cases hc : m0.hasCell id with
      | true => rfl
      | false =>
        exfalso; apply hz
        rw [List.countP_cons, hrest]; simp [hc]
    · obtain ⟨m, hm, hc⟩ := probeSpan_last id rest hr
      refine ⟨m, ?_, hc⟩
      have : probeSpan rest id + 1 - 1 = (probeSpan rest id - 1) + 1 := by omega
      rw [this, List.getElem?_cons_succ]
      exact hm

/-- Closed form of `GraphEntity_GetProperties` under the invariant, for arrays of
length `prop_count`. -/
theorem getProperties_closed_form (fuel : Nat) (gc : GraphContext) (g : Graph)
    (e : GraphEntity) (out : PropertyArrays)
    (hinv : PropCountInvariant g e.entity)
    (hrange : (g.attributeMatrices e.entity.entity_type).length ≤ USHRT_RANGE)
    (hfuel : (g.attributeMatrices e.entity.entity_type).length ≤ fuel)
    (hvs : (out.vs.length : Int) = ENTITY_PROP_COUNT e)
    (hids : ∀ l, out.attr_ids = some l → (l.length : Int) = ENTITY_PROP_COUNT e)
    (hnames : ∀ l, out.attr_names = some l → (l.length : Int) = ENTITY_PROP_COUNT e) :
    GraphEntity_GetProperties fuel gc g e out
      = Except.ok
          ({ attr_ids := out.attr_ids.map (fun _ =>
                (storedProperties (g.attributeMatrices e.entity.entity_type)
                  e.entity.id 0).reverse.map (fun p => p.1))
             attr_names := out.attr_names.map (fun _ =>
                (storedProperties (g.attributeMatrices e.entity.entity_type)
                  e.entity.id 0).reverse.map (fun p => GraphContext_GetAttributeString gc p.1))
             vs := (storedProperties (g.attributeMatrices e.entity.entity_type)
                  e.entity.id 0).reverse.map (fun p => p.2.borrowed) },
           List.range (probeSpan (g.attributeMatrices e.entity.entity_type) e.entity.id)) := by
  unfold PropCountInvariant Graph.setCount at hinv
  simp only [ENTITY_PROP_COUNT] at hvs hids hnames
  unfold GraphEntity_GetProperties
  rw [getProperties_loop_spec gc g e (g.attributeMatrices e.entity.entity_type) 0 0 fuel
    (ENTITY_PROP_COUNT e) out [] (by simp) (by omega) hfuel hinv (fun _ => rfl)
    (by omega) (fun l hl => by have := hids l hl; omega)
    (fun l hl => by have := hnames l hl; omega)]
  obtain ⟨ids, names, vs⟩ := out
  simp only at hvs hids hnames
  have hd : ∀ {α : Type} (l : List α), (l.length : Int) = e.entity.prop_count →
      l.drop ((g.attributeMatrices e.entity.entity_type).countP
        (fun m => m.hasCell e.entity.id)) = [] := by
    intro α l hl
    apply List.drop_eq_nil_of_le
    omega
  rw [List.range_eq_range']
  cases ids with
  | none =>
    cases names with
    | none => simp [hd vs hvs]
    | some ln => simp [hd vs hvs, hd ln (hnames ln rfl)]
  | some li =>
    cases names with
    | none => simp [hd vs hvs, hd li (hids li rfl)]
    | some ln => simp [hd vs hvs, hd li (hids li rfl), hd ln (hnames ln rfl)]

/-- The list of properties `GraphEntity_GetProperties` hands out, slot by slot:
what it means in terms of the cells of the graph. -/
theorem reversedProperties_facts (g : Graph) (ty : Nat) (id : EntityID) :
    ((storedProperties (g.attributeMatrices ty) id 0).reverse.length = g.setCount ty id) ∧
    ((storedProperties (g.attributeMatrices ty) id 0).reverse.map (fun p => p.1)).Pairwise
      (fun a b => b < a) ∧
    (∀ a v, (a, v) ∈ (storedProperties (g.attributeMatrices ty) id 0).reverse ↔
      g.cell ty a id = some v) ∧
    (∀ a, a ∈ (storedProperties (g.attributeMatrices ty) id 0).reverse.map (fun p => p.1) ↔
      (g.cell ty a id).isSome = true) := by
  refine ⟨?_, ?_, ?_, ?_⟩
  · rw [List.length_reverse, storedProperties_length]; rfl
  · rw [List.map_reverse, List.pairwise_reverse, List.pairwise_map]
    exact storedProperties_sorted id (g.attributeMatrices ty) 0
  · intro a v
    rw [List.mem_reverse]
    exact storedProperties_cell g ty id a v
  · intro a
    rw [List.mem_map]
    constructor
    · rintro ⟨⟨a1, v⟩, hmem, rfl⟩
      rw [List.mem_reverse] at hmem
      rw [(storedProperties_cell g ty id a1 v).mp hmem]; rfl
    · intro h
      cases hc : g.cell ty a id with
      | none => rw [hc] at h; simp at h
      | some v =>
        exact ⟨(a, v), by rw [List.mem_reverse]; exact (storedProperties_cell g ty id a v).mpr hc,
          rfl⟩

theorem slot_facts (gc : GraphContext) (ps : List (Attribute_ID × SIValue)) (i : Nat)
    (hi : i < ps.length) :
    ∃ a v, (a, v) ∈ ps ∧ (ps.map (fun p => p.1))[i]? = some a ∧
      (ps.map (fun p => GraphContext_GetAttributeString gc p.1))[i]?
        = some (GraphContext_GetAttributeString gc a) ∧
      (ps.map (fun p => p.2.borrowed))[i]? = some v.borrowed := by
  refine ⟨(ps.get ⟨i, hi⟩).1, (ps.get ⟨i, hi⟩).2, List.get_mem ps i hi, ?_, ?_, ?_⟩ <;>
    simp [List.getElem?_map, List.getElem?_eq_getElem hi]

/-- C6: for an entity satisfying the invariant and output arrays of length
`prop_count`, `GraphEntity_GetProperties` (with fuel for one pass over the at
most 65536 attribute matrices) returns with every slot written: the ids
array holds exactly the attribute ids whose matrix holds the entity's
diagonal cell, each once; in each slot `i` the value is the stored value of
`attr_ids[i]` (handed out borrowed) and the name is the catalog name of
`attr_ids[i]`; every set attribute occupies a slot.  On node 0 whose only
property is `name = "Alice"` the result is exactly `[("name", "Alice")]`. -/
theorem C6_getProperties_exact (fuel : Nat) (gc : GraphContext) (g : Graph)
    (e : GraphEntity) (out : PropertyArrays)
    (hinv : PropCountInvariant g e.entity)
    (hrange : (g.attributeMatrices e.entity.entity_type).length ≤ USHRT_RANGE)
    (hfuel : (g.attributeMatrices e.entity.entity_type).length ≤ fuel)
    (hvs : (out.vs.length : Int) = ENTITY_PROP_COUNT e)
    (hids : ∀ l, out.attr_ids = some l → (l.length : Int) = ENTITY_PROP_COUNT e)
    (hnames : ∀ l, out.attr_names = some l → (l.length : Int) = ENTITY_PROP_COUNT e) :
    (∃ res probes, GraphEntity_GetProperties fuel gc g e out = Except.ok (res, probes) ∧
      (res.vs.length : Int) = ENTITY_PROP_COUNT e ∧
      res.attr_ids.isSome = out.attr_ids.isSome ∧
      res.attr_names.isSome = out.attr_names.isSome ∧
      (∀ ids, res.attr_ids = some ids →
        (ids.length : Int) = ENTITY_PROP_COUNT e ∧ ids.Nodup ∧
        ∀ a, a ∈ ids ↔ (g.cell (ENTITY_TYPE e) a (ENTITY_GET_ID e)).isSome = true) ∧
      (∀ names, res.attr_names = some names → (names.length : Int) = ENTITY_PROP_COUNT e) ∧
      (∀ i, i < res.vs.length →
        ∃ a v, g.cell (ENTITY_TYPE e) a (ENTITY_GET_ID e) = some v ∧
          res.vs[i]? = some v.borrowed ∧
          (∀ ids, res.attr_ids = some ids → ids[i]? = some a) ∧
          (∀ names, res.attr_names = some names →
            names[i]? = some (GraphContext_GetAttributeString gc a))) ∧
      (∀ a v, g.cell (ENTITY_TYPE e) a (ENTITY_GET_ID e) = some v →
        ∃ i, i < res.vs.length ∧ res.vs[i]? = some v.borrowed ∧
          (∀ ids, res.attr_ids = some ids → ids[i]? = some a))) ∧
    GraphEntity_GetProperties 3 sampleCatalog sampleAliceGraph sampleNodeOne sampleArraysOne
      = Except.ok
          ({ attr_ids := some [0], attr_names := some [some "name"],
             vs := [{ payload := SIPayload.stringval "Alice", type := SIType.T_STRING,
                      allocation := SIAllocation.M_CONST }] }, [0]) := by
  refine ⟨?_, rfl⟩
  obtain ⟨hlen, hsorted, hmem, hmemid⟩ :=
    reversedProperties_facts g e.entity.entity_type e.entity.id
  have hcf := getProperties_closed_form fuel gc g e out hinv hrange hfuel hvs hids hnames
  have hpc : ((storedProperties (g.attributeMatrices e.entity.entity_type)
      e.entity.id 0).reverse.length : Int) = ENTITY_PROP_COUNT e := by
    rw [hlen]; exact hinv.symm
  simp only [ENTITY_TYPE, ENTITY_GET_ID]
  refine ⟨_, _, hcf, ?_, ?_, ?_, ?_, ?_, ?_, ?_⟩
  · simp only [List.length_map]; exact hpc
  · cases out.attr_ids <;> rfl
  · cases out.attr_names <;> rfl
  · intro ids hres
    cases hx : out.attr_ids with
    | none => rw [hx] at hres; cases hres
    | some l0 =>
      rw [hx] at hres
      simp only [Option.map_some', Option.some.injEq] at hres
      subst hres
      refine ⟨by simp only [List.length_map]; exact hpc, ?_, hmemid⟩
      exact hsorted.imp (fun h => Nat.ne_of_gt h)
  · intro names hres
    cases hx : out.attr_names with
    | none => rw [hx] at hres; cases hres
    | some l0 =>
      rw [hx] at hres
      simp only [Option.map_some', Option.some.injEq] at hres
      subst hres
      simp only [List.length_map]; exact hpc
  · intro i hi
    simp only [List.length_map] at hi
    obtain ⟨a, v, hin, h1, h2, h3⟩ := slot_facts gc _ i hi
    refine ⟨a, v, (hmem a v).mp hin, h3, ?_, ?_⟩
    · intro ids hres
      cases hx : out.attr_ids with
      | none => rw [hx] at hres; cases hres
      | some l0 =>
        rw [hx] at hres
        simp only [Option.map_some', Option.some.injEq] at hres
        subst hres
        exact h1
    · intro names hres
      cases hx : out.attr_names with
      | none => rw [hx] at hres; cases hres
      | some l0 =>
        rw [hx] at hres
        simp only [Option.map_some', Option.some.injEq] at hres
        subst hres
        exact h2
  · intro a v hcell
    have hin := (hmem a v).mpr hcell
    obtain ⟨i, hi, hget⟩ := List.getElem_of_mem hin
    refine ⟨i, by simp only [List.length_map]; exact hi, ?_, ?_⟩
    · rw [List.getElem?_map, List.getElem?_eq_getElem hi, hget]; rfl
    · intro ids hres
      cases hx : out.attr_ids with
      | none => rw [hx] at hres; cases hres
      | some l0 =>
        rw [hx] at hres
        simp only [Option.map_some', Option.some.injEq] at hres
        subst hres
        rw [List.getElem?_map, List.getElem?_eq_getElem hi, hget]; rfl

/-- Witness of C6 on node 0 holding `name` and `city`: the call returns and the
values array has two slots. -/
theorem C6_getProperties_exact_witness :
    ∃ res probes, GraphEntity_GetProperties 3 sampleCatalog sampleTwoGraph sampleNodeTwo
        sampleArraysTwo = Except.ok (res, probes) ∧ (res.vs.length : Int) = 2 := by
  obtain ⟨⟨res, probes, hr, hl, _⟩, _⟩ :=
    C6_getProperties_exact 3 sampleCatalog sampleTwoGraph sampleNodeTwo sampleArraysTwo
      (by decide) (by decide) (by decide) (by decide)
      (fun l hl => by cases hl; decide) (fun l hl => by cases hl; decide)
  exact ⟨res, probes, hr, hl⟩

/-- C7 (as amended): `GraphEntity_GetProperties` returns the properties in
descending attribute-id order.  For an entity satisfying the invariant and
output arrays of length `prop_count`, for all output indices `i < j` the id
in slot `i` is greater than the id in slot `j`, and in each slot the name and
the value are those of the id in that slot. -/
theorem C7_getProperties_descending (fuel : Nat) (gc : GraphContext) (g : Graph)
    (e : GraphEntity) (out : PropertyArrays)
    (hinv : PropCountInvariant g e.entity)
    (hrange : (g.attributeMatrices e.entity.entity_type).length ≤ USHRT_RANGE)
    (hfuel : (g.attributeMatrices e.entity.entity_type).length ≤ fuel)
    (hvs : (out.vs.length : Int) = ENTITY_PROP_COUNT e)
    (hids : ∀ l, out.attr_ids = some l → (l.length : Int) = ENTITY_PROP_COUNT e)
    (hnames : ∀ l, out.attr_names = some l → (l.length : Int) = ENTITY_PROP_COUNT e) :
    ∃ res probes, GraphEntity_GetProperties fuel gc g e out = Except.ok (res, probes) ∧
      (∀ ids, res.attr_ids = some ids →
        ∀ (i j : Nat) (a b : Attribute_ID),
          i < j → ids[i]? = some a → ids[j]? = some b → b < a) ∧
      (∀ i, i < res.vs.length →
        ∃ a v, g.cell (ENTITY_TYPE e) a (ENTITY_GET_ID e) = some v ∧
          res.vs[i]? = some v.borrowed ∧
          (∀ ids, res.attr_ids = some ids → ids[i]? = some a) ∧
          (∀ names, res.attr_names = some names →
            names[i]? = some (GraphContext_GetAttributeString gc a))) := by
  obtain ⟨_, hsorted, hmem, _⟩ :=
    reversedProperties_facts g e.entity.entity_type e.entity.id
  have hcf := getProperties_closed_form fuel gc g e out hinv hrange hfuel hvs hids hnames
  simp only [ENTITY_TYPE, ENTITY_GET_ID]
  refine ⟨_, _, hcf, ?_, ?_⟩
  · intro ids hres i j a b hij hi hj
    cases hx : out.attr_ids with
    | none => rw [hx] at hres; cases hres
    | some l0 =>
      rw [hx] at hres
      simp only [Option.map_some', Option.some.injEq] at hres
      subst hres
      rw [List.pairwise_iff_getElem] at hsorted
      obtain ⟨hil, hia⟩ := List.getElem?_eq_some_iff.mp hi
      obtain ⟨hjl, hjb⟩ := List.getElem?_eq_some_iff.mp hj
      have := hsorted i j hil hjl hij
      rw [hia, hjb] at this
      exact this
  · intro i hi
    simp only [List.length_map] at hi
    obtain ⟨a, v, hin, h1, h2, h3⟩ := slot_facts gc _ i hi
    refine ⟨a, v, (hmem a v).mp hin, h3, ?_, ?_⟩
    · intro ids hres
      cases hx : out.attr_ids with
      | none => rw [hx] at hres; cases hres
      | some l0 =>
        rw [hx] at hres
        simp only [Option.map_some', Option.some.injEq] at hres
        subst hres
        exact h1
    · intro names hres
      cases hx : out.attr_names with
      | none => rw [hx] at hres; cases hres
      | some l0 =>
        rw [hx] at hres
        simp only [Option.map_some', Option.some.injEq] at hres
        subst hres
        exact h2

/-- Witness of C7 on node 0 holding `name` (id 0) and `city` (id 2). -/
theorem C7_getProperties_descending_witness :
    ∃ res probes, GraphEntity_GetProperties 3 sampleCatalog sampleTwoGraph sampleNodeTwo
        sampleArraysTwo = Except.ok (res, probes) ∧
      (∀ ids, res.attr_ids = some ids →
        ∀ (i j : Nat) (a b : Attribute_ID),
          i < j → ids[i]? = some a → ids[j]? = some b → b < a) := by
  obtain ⟨res, probes, hr, hd, _⟩ :=
    C7_getProperties_descending 3 sampleCatalog sampleTwoGraph sampleNodeTwo sampleArraysTwo
      (by decide) (by decide) (by decide) (by decide)
      (fun l hl => by cases hl; decide) (fun l hl => by cases hl; decide)
  exact ⟨res, probes, hr, hd⟩

/-- Counterexample to C7 as stated: node 0 holds `name` (attribute id 0) and
`city` (attribute id 2) and satisfies the invariant; the ids array comes back
as `[2, 0]`, so for the indices `0 < 1` the ids are not ascending. -/
theorem C7_ascending_counterexample :
    PropCountInvariant sampleTwoGraph sampleNodeTwo.entity ∧
    GraphEntity_GetProperties 3 sampleCatalog sampleTwoGraph sampleNodeTwo sampleArraysTwo
      = Except.ok
          ({ attr_ids := some [2, 0], attr_names := some [some "city", some "name"],
             vs := [{ payload := SIPayload.longval 42, type := SIType.T_INT64,
                      allocation := SIAllocation.M_NONE },
                    { payload := SIPayload.stringval "Alice", type := SIType.T_STRING,
                      allocation := SIAllocation.M_CONST }] }, [0, 1, 2]) ∧
    ¬ ((2 : Attribute_ID) < 0) :=
  ⟨by decide, rfl, by decide⟩

/-- C8: for an entity satisfying the invariant and output arrays of length
`prop_count`, `GraphEntity_GetProperties` returns (given fuel for one pass over
the at most 65536 attribute matrices) and the attribute ids it probes are
`0, 1, ..., n - 1` in this order, each once, where `n` is 0 when `prop_count`
is 0 and otherwise `n - 1` is the largest attribute id set on the entity: the
last probe is a hit, every set attribute id is probed, and the number of hits
among the probes is `prop_count`. -/
theorem C8_getProperties_probes (fuel : Nat) (gc : GraphContext) (g : Graph)
    (e : GraphEntity) (out : PropertyArrays)
    (hinv : PropCountInvariant g e.entity)
    (hrange : (g.attributeMatrices e.entity.entity_type).length ≤ USHRT_RANGE)
    (hfuel : (g.attributeMatrices e.entity.entity_type).length ≤ fuel)
    (hvs : (out.vs.length : Int) = ENTITY_PROP_COUNT e)
    (hids : ∀ l, out.attr_ids = some l → (l.length : Int) = ENTITY_PROP_COUNT e)
    (hnames : ∀ l, out.attr_names = some l → (l.length : Int) = ENTITY_PROP_COUNT e) :
    ∃ res probes n, GraphEntity_GetProperties fuel gc g e out = Except.ok (res, probes) ∧
      probes = List.range n ∧
      (ENTITY_PROP_COUNT e = 0 → n = 0) ∧
      (ENTITY_PROP_COUNT e ≠ 0 →
        0 < n ∧ (g.cell (ENTITY_TYPE e) (n - 1) (ENTITY_GET_ID e)).isSome = true) ∧
      (∀ a : Nat, (g.cell (ENTITY_TYPE e) a (ENTITY_GET_ID e)).isSome = true → a < n) ∧
      ((probes.filter
          (fun a => (g.cell (ENTITY_TYPE e) a (ENTITY_GET_ID e)).isSome)).length : Int)
        = ENTITY_PROP_COUNT e := by
  obtain ⟨hlen, hsorted, _, hmemid⟩ :=
    reversedProperties_facts g e.entity.entity_type e.entity.id
  have hcf := getProperties_closed_form fuel gc g e out hinv hrange hfuel hvs hids hnames
  simp only [ENTITY_TYPE, ENTITY_GET_ID, ENTITY_PROP_COUNT]
  have hbound : ∀ a : Nat, (g.cell e.entity.entity_type a e.entity.id).isSome = true →
      a < probeSpan (g.attributeMatrices e.entity.entity_type) e.entity.id := by
    intro a ha
    cases hm : g.attributeMatrix e.entity.entity_type a with
    | none => simp [Graph.cell, hm] at ha
    | some m =>
      have hc : m.hasCell e.entity.id = true := by
        rw [hasCell_eq_cell g e.entity.entity_type a e.entity.id m hm]; exact ha
      rw [attributeMatrix_eq] at hm
      exact probeSpan_bound e.entity.id _ a m hm hc
  refine ⟨_, _, probeSpan (g.attributeMatrices e.entity.entity_type) e.entity.id, hcf, rfl,
    ?_, ?_, hbound, ?_⟩
  · intro h0
    rw [probeSpan_eq_zero_iff]
    unfold PropCountInvariant Graph.setCount at hinv
    omega
  · intro hne
    have hspan : probeSpan (g.attributeMatrices e.entity.entity_type) e.entity.id ≠ 0 := by
      intro hs
      rw [probeSpan_eq_zero_iff] at hs
      unfold PropCountInvariant Graph.setCount at hinv
      rw [hs] at hinv
      exact hne hinv
    obtain ⟨m, hm, hc⟩ := probeSpan_last e.entity.id _ hspan
    refine ⟨by omega, ?_⟩
    rw [← attributeMatrix_eq] at hm
    rw [← hasCell_eq_cell g e.entity.entity_type _ e.entity.id m hm]
    exact hc
  · have hnd1 : ((List.range (probeSpan (g.attributeMatrices e.entity.entity_type)
        e.entity.id)).filter
          (fun a => (g.cell e.entity.entity_type a e.entity.id).isSome)).Nodup :=
      (List.nodup_range _).filter _
    have hnd2 : ((storedProperties (g.attributeMatrices e.entity.entity_type)
        e.entity.id 0).reverse.map (fun p => p.1)).Nodup :=
      hsorted.imp (fun h => Nat.ne_of_gt h)
    have hperm := (List.perm_ext_iff_of_nodup hnd1 hnd2).mpr (by
      intro a
      rw [hmemid a, List.mem_filter, List.mem_range]
      constructor
      · intro h; exact h.2
      · intro h; exact ⟨hbound a h, h⟩)
    rw [hperm.length_eq, List.length_map, hlen]
    exact hinv.symm

/-- Witness of C8 on node 0 holding `name` (id 0) and `city` (id 2): the ids
probed are 0, 1, 2. -/
theorem C8_getProperties_probes_witness :
    ∃ res probes n, GraphEntity_GetProperties 3 sampleCatalog sampleTwoGraph sampleNodeTwo
        sampleArraysTwo = Except.ok (res, probes) ∧ probes = List.range n ∧
      (sampleTwoGraph.cell GETYPE_NODE (n - 1) 0).isSome = true := by
  obtain ⟨res, probes, n, hr, hp, _, hl, _, _⟩ :=
    C8_getProperties_probes 3 sampleCatalog sampleTwoGraph sampleNodeTwo sampleArraysTwo
      (by decide) (by decide) (by decide) (by decide)
      (fun l hl => by cases hl; decide) (fun l hl => by cases hl; decide)
  exact ⟨res, probes, n, hr, hp, (hl (by decide)).2⟩

/-! ## Flush -/

theorem extract_wait (m : GrB_Matrix) (i j : Nat) :
    GrB_Matrix_extractElement_UDT (GrB_Matrix_wait m) i j = GrB_Matrix_extractElement_UDT m i j := by
  unfold GrB_Matrix_extractElement_UDT GrB_Matrix_wait
  simp

theorem pending_set_same (m : GrB_Matrix) (x : SIValue) (r c : Nat) :
    (GrB_Matrix_setElement_UDT m x r c).pending r c = false := by
  simp [GrB_Matrix_setElement_UDT]

theorem pending_delete_same (m : GrB_Matrix) (r c : Nat) :
    (GxB_Matrix_Delete m r c).pending r c = true := by
  simp [GxB_Matrix_Delete]

theorem entries_wait_set_same (m : GrB_Matrix) (x : SIValue) (r c : Nat) :
    (GrB_Matrix_wait (GrB_Matrix_setElement_UDT m x r c)).entries r c = some x := by
  simp [GrB_Matrix_wait, GrB_Matrix_setElement_UDT]

theorem getProperty_stored (g : Graph) (e : GraphEntity) (a : Attribute_ID) (m : GrB_Matrix)
    (x : SIValue) (hm : g.attributeMatrix e.entity.entity_type a = some m)
    (hx : GrB_Matrix_extractElement_UDT m e.entity.id e.entity.id = some x)
    (ha : a ≠ ATTRIBUTE_NOTFOUND) (hp : e.entity.prop_count ≠ 0) :
    GraphEntity_GetProperty g e a = Except.ok x.borrowed := by
  rw [getProperty_of_matrix g e a m hm]
  have hc : ¬ (a = ATTRIBUTE_NOTFOUND ∨ e.entity.prop_count = 0) := by
    intro h; rcases h with h | h
    · exact ha h
    · exact hp h
  rw [if_neg hc, cell_of_matrix g e.entity.entity_type a e.entity.id m hm, hx]

/-- C11: a Set after a Delete on the same cell cancels the pending deletion.
When `GraphEntity_SetProperty` overwrites an attribute that is set on an
entity with positive `prop_count`, its first step queues the deletion of the
cell, its second step writes the new value and leaves no deletion queued for
the cell; flushing the attribute matrix afterwards keeps the new value in the
backing structure and `GraphEntity_GetProperty` returns a value equal to the
new one both before and after the flush. -/
theorem C11_set_after_delete_survives_flush (g : Graph) (e : GraphEntity) (a : Attribute_ID)
    (v : SIValue)
    (hpc : 0 < e.entity.prop_count)
    (hset : (g.cell e.entity.entity_type a e.entity.id).isSome = true)
    (ha : a ≠ ATTRIBUTE_NOTFOUND)
    (hv : SIValue_IsNull v = false) :
    ∃ gmid entmid mmid g1 e1 m1 r,
      _GraphEntity_RemoveProperty g e.entity a = Except.ok (gmid, entmid) ∧
      gmid.attributeMatrix e.entity.entity_type a = some mmid ∧
      mmid.pending e.entity.id e.entity.id = true ∧
      GraphEntity_SetProperty g e a v = Except.ok (g1, e1) ∧
      g1.attributeMatrix e.entity.entity_type a = some m1 ∧
      m1.pending e.entity.id e.entity.id = false ∧
      (GrB_Matrix_wait m1).entries e.entity.id e.entity.id
        = some (SI_CloneValue (SI_CloneValue v)) ∧
      GraphEntity_GetProperty g1 e1 a = Except.ok r ∧
      GraphEntity_GetProperty (g1.waitAttributeMatrix e.entity.entity_type a) e1 a
        = Except.ok r ∧
      r.sameValue v := by
  have hne : e.entity.prop_count ≠ 0 := by omega
  rcases removeProperty_cases g e.entity a with ⟨h0, _⟩ | ⟨_, hn, _⟩ | ⟨m, _, hm, hc, _⟩ |
    ⟨m, _, hm, hc, heq⟩
  · exact absurd h0 hne
  · simp [Graph.cell, hn] at hset
  · rw [hasCell_eq_cell g e.entity.entity_type a e.entity.id m hm, hset] at hc
    cases hc
  · have hmid : (g.storeAttributeMatrix e.entity.entity_type a
          (GxB_Matrix_Delete m e.entity.id e.entity.id)).attributeMatrix e.entity.entity_type a
        = some (GxB_Matrix_Delete m e.entity.id e.entity.id) := by
      rw [attributeMatrix_store g e.entity.entity_type e.entity.entity_type a a m _ hm]
      simp [sameKind]
    have hadd := addProperty_eq
      (g.storeAttributeMatrix e.entity.entity_type a (GxB_Matrix_Delete m e.entity.id e.entity.id))
      { entity := { e.entity with prop_count := e.entity.prop_count - 1 } } a (SI_CloneValue v)
      (GxB_Matrix_Delete m e.entity.id e.entity.id) hmid
    have hs := setProperty_unfold g e a v _ _ heq
    rw [hv] at hs
    simp only [Bool.false_eq_true, if_false] at hs
    rw [hadd] at hs
    simp only at hs
    have hm1 : ((g.storeAttributeMatrix e.entity.entity_type a
          (GxB_Matrix_Delete m e.entity.id e.entity.id)).storeAttributeMatrix
            e.entity.entity_type a
          (GrB_Matrix_setElement_UDT (GxB_Matrix_Delete m e.entity.id e.entity.id)
            (SI_CloneValue (SI_CloneValue v)) e.entity.id e.entity.id)).attributeMatrix
          e.entity.entity_type a
        = some (GrB_Matrix_setElement_UDT (GxB_Matrix_Delete m e.entity.id e.entity.id)
            (SI_CloneValue (SI_CloneValue v)) e.entity.id e.entity.id) := by
      rw [attributeMatrix_store _ e.entity.entity_type e.entity.entity_type a a _ _ hmid]
      simp [sameKind]
    have hpos : e.entity.prop_count - 1 + 1 ≠ 0 := by omega
    have hval : (SI_CloneValue (SI_CloneValue v)).borrowed.sameValue v :=
      ⟨by rw [borrowed_type, clone_type, clone_type],
        by rw [borrowed_payload, clone_payload, clone_payload]⟩
    have hw : (Graph.waitAttributeMatrix
          ((g.storeAttributeMatrix e.entity.entity_type a
            (GxB_Matrix_Delete m e.entity.id e.entity.id)).storeAttributeMatrix
              e.entity.entity_type a
            (GrB_Matrix_setElement_UDT (GxB_Matrix_Delete m e.entity.id e.entity.id)
              (SI_CloneValue (SI_CloneValue v)) e.entity.id e.entity.id))
          e.entity.entity_type a).attributeMatrix e.entity.entity_type a
        = some (GrB_Matrix_wait
            (GrB_Matrix_setElement_UDT (GxB_Matrix_Delete m e.entity.id e.entity.id)
              (SI_CloneValue (SI_CloneValue v)) e.entity.id e.entity.id)) := by
      unfold Graph.waitAttributeMatrix
      rw [hm1]
      simp only
      rw [attributeMatrix_store _ e.entity.entity_type e.entity.entity_type a a _ _ hm1]
      simp [sameKind]
    refine ⟨_, _, _, _, _, _, (SI_CloneValue (SI_CloneValue v)).borrowed, heq, hmid,
      pending_delete_same m _ _, hs, hm1, pending_set_same _ _ _ _,
      entries_wait_set_same _ _ _ _, ?_, ?_, hval⟩
    · exact getProperty_stored _ _ a _ _ hm1 (extract_set_same _ _ _ _) ha hpos
    · exact getProperty_stored _ _ a _ _ hw
        (by rw [extract_wait]; exact extract_set_same _ _ _ _) ha hpos

/-- Witness of C11: overwriting `name = "Alice"` of node 0 with "Bob". -/
theorem C11_set_after_delete_survives_flush_witness :
    ∃ g1 e1 r, GraphEntity_SetProperty sampleAliceGraph sampleNodeOne 0 sampleBob
        = Except.ok (g1, e1) ∧
      GraphEntity_GetProperty (g1.waitAttributeMatrix GETYPE_NODE 0) e1 0 = Except.ok r ∧
      r.sameValue sampleBob := by
  obtain ⟨_, _, _, g1, e1, _, r, _, _, _, hs, _, _, _, _, hw, hv⟩ :=
    C11_set_after_delete_survives_flush sampleAliceGraph sampleNodeOne 0 sampleBob
      (by decide) (by decide) (by decide) (by decide)
  exact ⟨g1, e1, r, hs, hw, hv⟩

/-! ## Borrowed values -/

theorem borrowed_allocation (v : SIValue) :
    v.borrowed.allocation = SIAllocation.M_NONE ∨ v.borrowed.allocation = SIAllocation.M_CONST := by
  unfold SIValue.borrowed
  by_cases h : v.allocation = SIAllocation.M_NONE
  · left; simp [h]
  · right; simp [h]

theorem borrowed_of_owned (v : SIValue) (h : v.allocation ≠ SIAllocation.M_NONE) :
    v.borrowed = { v with allocation := SIAllocation.M_CONST } := by
  unfold SIValue.borrowed; rw [if_pos h]

theorem borrowed_of_none (v : SIValue) (h : v.allocation = SIAllocation.M_NONE) :
    v.borrowed = v := by
  unfold SIValue.borrowed; simp [h]

theorem getElem?_set_cases {α : Type} (l : List α) (idx i : Nat) (y x : α)
    (h : (l.set idx y)[i]? = some x) : x = y ∨ l[i]? = some x := by
  by_cases hi : idx = i
  · subst hi
    by_cases hlt : idx < l.length
    · rw [List.getElem?_set_self hlt] at h
      left; exact (Option.some.inj h).symm
    · have : (l.set idx y)[idx]? = none := by
        apply List.getElem?_eq_none
        simp only [List.length_set]; omega
      rw [this] at h; cases h
  · rw [List.getElem?_set_ne hi] at h
    right; exact h

theorem writeSlot_ok {α : Type} (l : List α) (i : Int) (x : α) (l1 : List α)
    (h : writeSlot l i x = Except.ok l1) : l1 = l.set i.toNat x := by
  unfold writeSlot at h
  split at h
  · exact (Except.ok.inj h).symm
  · cases h

/-- Every slot of the values array after the loop of `GraphEntity_GetProperties`
holds what it held before or the borrowed form of a cell of the entity. -/
theorem getProperties_loop_slots (gc : GraphContext) (g : Graph) (e : GraphEntity) :
    ∀ (fuel : Nat) (attr_id : Attribute_ID) (cnt : Int) (out : PropertyArrays)
      (probes : List Attribute_ID) (res : PropertyArrays) (probes1 : List Attribute_ID),
      GraphEntity_GetProperties_loop gc g e fuel attr_id cnt out probes
        = Except.ok (res, probes1) →
      ∀ (i : Nat) (x : SIValue), res.vs[i]? = some x →
        out.vs[i]? = some x ∨
        ∃ a v, g.cell e.entity.entity_type a e.entity.id = some v ∧ x = v.borrowed := by
  intro fuel
  induction fuel with
  | zero =>
    intro attr_id cnt out probes res probes1 h i x hx
    rw [GraphEntity_GetProperties_loop] at h
    split at h
    · simp only [Except.ok.injEq, Prod.mk.injEq] at h
      obtain ⟨rfl, _⟩ := h
      left; exact hx
    · cases h
  | succ fuel ih =>
    intro attr_id cnt out probes res probes1 h i x hx
    rw [GraphEntity_GetProperties_loop] at h
    split at h
    · simp only [Except.ok.injEq, Prod.mk.injEq] at h
      obtain ⟨rfl, _⟩ := h
      left; exact hx
    · split at h
      · cases h
      · rename_i m hm
        split at h
        · rename_i v hv
          have hb : (if v.allocation ≠ SIAllocation.M_NONE
              then { v with allocation := SIAllocation.M_CONST } else v) = v.borrowed := rfl
          simp only [hb] at h
          cases h1 : writeOptionalSlot out.attr_ids (cnt - 1) attr_id with
          | error f => rw [h1] at h; cases h
          | ok ids1 =>
            rw [h1] at h
            simp only at h
            cases h2 : writeOptionalSlot out.attr_names (cnt - 1)
                (GraphContext_GetAttributeString gc attr_id) with
            | error f => rw [h2] at h; cases h
            | ok names1 =>
              rw [h2] at h
              simp only at h
              cases h3 : writeSlot out.vs (cnt - 1) v.borrowed with
              | error f => rw [h3] at h; cases h
              | ok vs1 =>
                rw [h3] at h
                simp only at h
                have hvs1 := writeSlot_ok _ _ _ _ h3
                rcases ih _ _ _ _ _ _ h i x hx with h4 | h4
                · simp only at h4
                  rw [hvs1] at h4
                  rcases getElem?_set_cases _ _ _ _ _ h4 with h5 | h5
                  · right
                    refine ⟨attr_id, v, ?_, h5⟩
                    rw [cell_of_matrix g e.entity.entity_type attr_id e.entity.id m hm]
                    exact hv
                  · left; exact h5
                · right; exact h4
        · exact ih _ _ _ _ _ _ h i x hx

/-- C17: values handed out by reads are borrowed.  Whenever
`GraphEntity_GetProperty` returns, the value has allocation tag `M_NONE` or
`M_CONST` and is the null value or the stored value of the cell with the tag
`M_CONST` in place of any tag other than `M_NONE` (type and payload are those
of the stored value).  Whenever `GraphEntity_GetProperties` returns, every
slot of `vs` holds what the caller had put there or such a borrowed form of a
stored value of the entity. -/
theorem C17_reads_are_borrowed (g : Graph) (e : GraphEntity) :
    (∀ (a : Attribute_ID) (r : SIValue), GraphEntity_GetProperty g e a = Except.ok r →
      (r.allocation = SIAllocation.M_NONE ∨ r.allocation = SIAllocation.M_CONST) ∧
      (r = SI_NullVal ∨
        ∃ v, g.cell (ENTITY_TYPE e) a (ENTITY_GET_ID e) = some v ∧
          r.type = v.type ∧ r.payload = v.payload ∧
          (v.allocation ≠ SIAllocation.M_NONE → r.allocation = SIAllocation.M_CONST) ∧
          (v.allocation = SIAllocation.M_NONE → r = v))) ∧
    (∀ (fuel : Nat) (gc : GraphContext) (out res : PropertyArrays) (probes : List Attribute_ID),
      GraphEntity_GetProperties fuel gc g e out = Except.ok (res, probes) →
      ∀ (i : Nat) (x : SIValue), res.vs[i]? = some x →
        out.vs[i]? = some x ∨
        ((x.allocation = SIAllocation.M_NONE ∨ x.allocation = SIAllocation.M_CONST) ∧
          ∃ a v, g.cell (ENTITY_TYPE e) a (ENTITY_GET_ID e) = some v ∧
            x.type = v.type ∧ x.payload = v.payload ∧
            (v.allocation ≠ SIAllocation.M_NONE → x.allocation = SIAllocation.M_CONST) ∧
            (v.allocation = SIAllocation.M_NONE → x = v))) := by
  simp only [ENTITY_TYPE, ENTITY_GET_ID]
  constructor
  · intro a r h
    cases hm : g.attributeMatrix e.entity.entity_type a with
    | none =>
      unfold GraphEntity_GetProperty at h
      split at h
      · have hr : r = SI_NullVal := (Except.ok.inj h).symm
        subst hr
        exact ⟨Or.inl rfl, Or.inl rfl⟩
      · simp only [ENTITY_TYPE, hm] at h
        cases h
    | some m =>
      rw [getProperty_of_matrix g e a m hm] at h
      have hr := (Except.ok.inj h).symm
      split at hr
      · subst hr; exact ⟨Or.inl rfl, Or.inl rfl⟩
      · split at hr
        · subst hr; exact ⟨Or.inl rfl, Or.inl rfl⟩
        · rename_i v hv
          subst hr
          refine ⟨borrowed_allocation v, Or.inr ⟨v, hv, borrowed_type v, borrowed_payload v,
            ?_, borrowed_of_none v⟩⟩
          intro hne
          rw [borrowed_of_owned v hne]
  · intro fuel gc out res probes h i x hx
    unfold GraphEntity_GetProperties at h
    rcases getProperties_loop_slots gc g e fuel 0 _ out [] res probes h i x hx with h1 | h1
    · left; exact h1
    · right
      obtain ⟨a, v, hc, rfl⟩ := h1
      refine ⟨borrowed_allocation v, a, v, hc, borrowed_type v, borrowed_payload v, ?_,
        borrowed_of_none v⟩
      intro hne
      rw [borrowed_of_owned v hne]

/-- Witness of C17: the stored clone of "Alice" is self-owned and is read back
with tag `M_CONST`. -/
theorem C17_reads_are_borrowed_witness :
    (SI_CloneValue sampleAlice).allocation = SIAllocation.M_SELF ∧
    ∃ r, GraphEntity_GetProperty sampleAliceGraph sampleNodeOne 0 = Except.ok r ∧
      (r.allocation = SIAllocation.M_NONE ∨ r.allocation = SIAllocation.M_CONST) := by
  refine ⟨by decide, _, rfl, ?_⟩
  exact ((C17_reads_are_borrowed sampleAliceGraph sampleNodeOne).1 0 _ rfl).1

/-! ## Frame -/

theorem entry_store (g : Graph) (ty ty2 : Nat) (a a2 : Attribute_ID) (m m1 : GrB_Matrix)
    (i j : Nat) (h : g.attributeMatrix ty a = some m) :
    (g.storeAttributeMatrix ty a m1).entry ty2 a2 i j
      = if sameKind ty2 ty ∧ a2 = a then GrB_Matrix_extractElement_UDT m1 i j
        else g.entry ty2 a2 i j := by
  unfold Graph.entry
  rw [attributeMatrix_store g ty ty2 a a2 m m1 h]
  by_cases hc : sameKind ty2 ty ∧ a2 = a <;> simp [hc]

theorem attributeMatrix_sameKind (g : Graph) (t1 t2 : Nat) (a : Attribute_ID)
    (h : sameKind t1 t2) : g.attributeMatrix t1 a = g.attributeMatrix t2 a := by
  rw [attributeMatrix_eq, attributeMatrix_eq, attributeMatrices_sameKind g t1 t2 h]

/-- Replacing the matrix of attribute `a` by one that agrees with it outside the
cell `(id, id)` leaves every other cell of the graph as it was. -/
theorem entry_store_frame (g : Graph) (ty : Nat) (a : Attribute_ID) (id : EntityID)
    (m m1 : GrB_Matrix) (h : g.attributeMatrix ty a = some m)
    (hout : ∀ i j, ¬ (i = id ∧ j = id) →
      GrB_Matrix_extractElement_UDT m1 i j = GrB_Matrix_extractElement_UDT m i j)
    (ty2 : Nat) (a2 : Attribute_ID) (i j : Nat)
    (hne : ¬ (sameKind ty2 ty ∧ a2 = a ∧ i = id ∧ j = id)) :
    (g.storeAttributeMatrix ty a m1).entry ty2 a2 i j = g.entry ty2 a2 i j := by
  rw [entry_store g ty ty2 a a2 m m1 i j h]
  by_cases hka : sameKind ty2 ty ∧ a2 = a
  · rw [if_pos hka]
    have hij : ¬ (i = id ∧ j = id) := fun hc => hne ⟨hka.1, hka.2, hc.1, hc.2⟩
    rw [hout i j hij]
    obtain ⟨hk, rfl⟩ := hka
    unfold Graph.entry
    rw [attributeMatrix_sameKind g ty2 ty a2 hk, h]
  · rw [if_neg hka]

theorem removeProperty_entry_frame (g : Graph) (e : Entity) (a : Attribute_ID) (g1 : Graph)
    (e1 : Entity) (h : _GraphEntity_RemoveProperty g e a = Except.ok (g1, e1))
    (ty2 : Nat) (a2 : Attribute_ID) (i j : Nat)
    (hne : ¬ (sameKind ty2 e.entity_type ∧ a2 = a ∧ i = e.id ∧ j = e.id)) :
    g1.entry ty2 a2 i j = g.entry ty2 a2 i j := by
  rcases removeProperty_cases g e a with ⟨_, heq⟩ | ⟨_, _, heq⟩ | ⟨_, _, _, _, heq⟩ |
    ⟨m, _, hm, _, heq⟩
  · rw [heq] at h
    simp only [Except.ok.injEq, Prod.mk.injEq] at h
    obtain ⟨rfl, rfl⟩ := h
    rfl
  · rw [heq] at h; cases h
  · rw [heq] at h
    simp only [Except.ok.injEq, Prod.mk.injEq] at h
    obtain ⟨rfl, rfl⟩ := h
    rfl
  · rw [heq] at h
    simp only [Except.ok.injEq, Prod.mk.injEq] at h
    obtain ⟨rfl, rfl⟩ := h
    exact entry_store_frame g e.entity_type a e.id m _ hm
      (fun i j hij => extract_delete_other m e.id e.id i j hij) ty2 a2 i j hne

theorem addProperty_entry_frame (g : Graph) (e : GraphEntity) (a : Attribute_ID) (v : SIValue)
    (g1 : Graph) (e1 : GraphEntity) (h : GraphEntity_AddProperty g e a v = Except.ok (g1, e1))
    (ty2 : Nat) (a2 : Attribute_ID) (i j : Nat)
    (hne : ¬ (sameKind ty2 e.entity.entity_type ∧ a2 = a ∧ i = e.entity.id ∧ j = e.entity.id)) :
    g1.entry ty2 a2 i j = g.entry ty2 a2 i j := by
  cases hm : g.attributeMatrix e.entity.entity_type a with
  | none =>
    unfold GraphEntity_AddProperty at h
    simp [ENTITY_TYPE, hm] at h
  | some m =>
    rw [addProperty_eq g e a v m hm] at h
    simp only [Except.ok.injEq, Prod.mk.injEq] at h
    obtain ⟨rfl, rfl⟩ := h
    exact entry_store_frame g e.entity.entity_type a e.entity.id m _ hm
      (fun i j hij => extract_set_other m _ e.entity.id e.entity.id i j hij) ty2 a2 i j hne

/-- Every cell other than `(id, id)` of attribute `a` in the matrices of the
entity's kind is untouched by a returning `GraphEntity_SetProperty`, and so is
the set of attributes that have a matrix. -/
theorem setProperty_entry_frame (g : Graph) (e : GraphEntity) (a : Attribute_ID) (v : SIValue)
    (g2 : Graph) (e2 : GraphEntity) (h : GraphEntity_SetProperty g e a v = Except.ok (g2, e2)) :
    (∀ (ty2 : Nat) (a2 : Attribute_ID) (i j : Nat),
      ¬ (sameKind ty2 e.entity.entity_type ∧ a2 = a ∧ i = e.entity.id ∧ j = e.entity.id) →
      g2.entry ty2 a2 i j = g.entry ty2 a2 i j) ∧
    (∀ ty2 a2, (g2.attributeMatrix ty2 a2).isSome = (g.attributeMatrix ty2 a2).isSome) ∧
    e2.entity.id = e.entity.id ∧ e2.entity.entity_type = e.entity.entity_type := by
  obtain ⟨g1, ent1, hr, hnull, hadd⟩ := setProperty_steps g e a v g2 e2 h
  obtain ⟨hid, hty, _, _, hsome, _, _, _, _⟩ := removeProperty_effect g e.entity a g1 ent1 hr
  by_cases hn : SIValue_IsNull v = true
  · obtain ⟨rfl, rfl⟩ := hnull hn
    exact ⟨fun ty2 a2 i j hne => removeProperty_entry_frame g e.entity a g2 ent1 hr ty2 a2 i j hne,
      hsome, hid, hty⟩
  · have hn2 : SIValue_IsNull v = false := by simpa using hn
    have ha := hadd hn2
    obtain ⟨hid2, hty2, _, _, _, _, hsome2, _⟩ :=
      addProperty_effect g1 { entity := ent1 } a (SI_CloneValue v) g2 e2 ha
    simp only at hid2 hty2
    refine ⟨?_, fun ty2 a2 => by rw [hsome2, hsome], by rw [hid2, hid], by rw [hty2, hty]⟩
    intro ty2 a2 i j hne
    rw [addProperty_entry_frame g1 { entity := ent1 } a (SI_CloneValue v) g2 e2 ha ty2 a2 i j
      (by simp only [hid, hty]; exact hne)]
    exact removeProperty_entry_frame g e.entity a g1 ent1 hr ty2 a2 i j hne

theorem cell_eq_entry (g : Graph) (ty : Nat) (a : Attribute_ID) (id : EntityID) :
    g.cell ty a id = g.entry ty a id id := rfl

/-- The result of `GraphEntity_GetProperty` in one formula. -/
theorem getProperty_form (g : Graph) (e : GraphEntity) (a : Attribute_ID) :
    GraphEntity_GetProperty g e a
      = if a = ATTRIBUTE_NOTFOUND ∨ e.entity.prop_count = 0 then Except.ok SI_NullVal
        else if (g.attributeMatrix e.entity.entity_type a).isSome = true
          then Except.ok (match g.cell e.entity.entity_type a e.entity.id with
            | none => SI_NullVal
            | some v => v.borrowed)
          else Except.error Fault.assertion := by
  cases hm : g.attributeMatrix e.entity.entity_type a with
  | some m =>
    rw [getProperty_of_matrix g e a m hm]
    by_cases hc : a = ATTRIBUTE_NOTFOUND ∨ e.entity.prop_count = 0
    · simp only [if_pos hc]
    · simp only [if_neg hc, Option.isSome_some, if_true]
  | none =>
    unfold GraphEntity_GetProperty
    by_cases hc : a = ATTRIBUTE_NOTFOUND ∨ e.entity.prop_count = 0
    · simp only [ENTITY_PROP_COUNT, if_pos hc]
    · simp only [ENTITY_PROP_COUNT, ENTITY_TYPE, if_neg hc, hm, Option.isSome_none,
        Bool.false_eq_true, if_false]

theorem setCount_two_cells (g : Graph) (ty : Nat) (id : EntityID) (a a2 : Nat) (v v2 : SIValue)
    (h1 : g.cell ty a id = some v) (h2 : g.cell ty a2 id = some v2) (hne : a ≠ a2) :
    2 ≤ g.setCount ty id := by
  have hm1 := (storedProperties_cell g ty id a v).mpr h1
  have hm2 := (storedProperties_cell g ty id a2 v2).mpr h2
  have hnd : ([(a, v), (a2, v2)] : List (Attribute_ID × SIValue)).Nodup := by
    simp only [List.nodup_cons, List.mem_singleton, Prod.mk.injEq, not_and, List.not_mem_nil,
      not_false_eq_true, List.nodup_nil, and_true]
    intro h; exact absurd h hne
  have hsub : ([(a, v), (a2, v2)] : List (Attribute_ID × SIValue))
      ⊆ storedProperties (g.attributeMatrices ty) id 0 := by
    intro p hp
    simp only [List.mem_cons, List.mem_singleton, List.not_mem_nil, or_false] at hp
    rcases hp with rfl | rfl
    · exact hm1
    · exact hm2
  have hle := (List.subperm_of_subset hnd hsub).length_le
  rw [storedProperties_length] at hle
  exact hle

theorem getProperty_congr (g g1 : Graph) (e : GraphEntity) (a : Attribute_ID)
    (hsome : (g1.attributeMatrix e.entity.entity_type a).isSome
      = (g.attributeMatrix e.entity.entity_type a).isSome)
    (hcell : g1.cell e.entity.entity_type a e.entity.id = g.cell e.entity.entity_type a e.entity.id) :
    GraphEntity_GetProperty g1 e a = GraphEntity_GetProperty g e a := by
  rw [getProperty_form g1 e a, getProperty_form g e a, hsome, hcell]

/-- C18 (as amended): frame of `GraphEntity_SetProperty`.  A returning call
keeps the id and the type tag of the entity, changes no cell other than
`(id, id)` of attribute `a` in the matrices of the entity's kind (the other
attributes of the entity, the cells of every other id, the off-diagonal cells
and the matrices of the other kind are as before) and keeps the set of
attributes that have a matrix.  `GraphEntity_GetProperty` on any entity record
the call did not change and any attribute whose cell is not that one gives the
same result before and after; for the entity operated on, whose `prop_count`
may have changed, the reads of its other attributes that have a matrix are the
same provided `prop_count` was not below the number of its set cells. -/
theorem C18_setProperty_frame (g : Graph) (e : GraphEntity) (a : Attribute_ID) (v : SIValue)
    (g1 : Graph) (e1 : GraphEntity)
    (h : GraphEntity_SetProperty g e a v = Except.ok (g1, e1)) :
    ENTITY_GET_ID e1 = ENTITY_GET_ID e ∧ ENTITY_TYPE e1 = ENTITY_TYPE e ∧
    (∀ (ty2 : Nat) (a2 : Attribute_ID) (i j : Nat),
      ¬ (sameKind ty2 (ENTITY_TYPE e) ∧ a2 = a ∧ i = ENTITY_GET_ID e ∧ j = ENTITY_GET_ID e) →
      g1.entry ty2 a2 i j = g.entry ty2 a2 i j) ∧
    (∀ ty2 a2, (g1.attributeMatrix ty2 a2).isSome = (g.attributeMatrix ty2 a2).isSome) ∧
    (∀ (other : GraphEntity) (a2 : Attribute_ID),
      ¬ (sameKind (ENTITY_TYPE other) (ENTITY_TYPE e) ∧ a2 = a ∧
          ENTITY_GET_ID other = ENTITY_GET_ID e) →
      GraphEntity_GetProperty g1 other a2 = GraphEntity_GetProperty g other a2) ∧
    (∀ a2 : Attribute_ID, a2 ≠ a →
      (g.attributeMatrix (ENTITY_TYPE e) a2).isSome = true →
      (g.setCount (ENTITY_TYPE e) (ENTITY_GET_ID e) : Int) ≤ ENTITY_PROP_COUNT e →
      GraphEntity_GetProperty g1 e1 a2 = GraphEntity_GetProperty g e a2) := by
  simp only [ENTITY_GET_ID, ENTITY_TYPE, ENTITY_PROP_COUNT]
  obtain ⟨hframe, hsome, hid, hty⟩ := setProperty_entry_frame g e a v g1 e1 h
  refine ⟨hid, hty, hframe, hsome, ?_, ?_⟩
  · intro other a2 hne
    apply getProperty_congr g g1 other a2 (hsome _ _)
    rw [cell_eq_entry, cell_eq_entry]
    exact hframe _ a2 _ _ (fun hc => hne ⟨hc.1, hc.2.1, hc.2.2.1⟩)
  · intro a2 ha2 hm2 hle
    have hcell : g1.cell e.entity.entity_type a2 e.entity.id
        = g.cell e.entity.entity_type a2 e.entity.id := by
      rw [cell_eq_entry, cell_eq_entry]
      exact hframe _ a2 _ _ (fun hc => ha2 hc.2.1)
    rw [getProperty_form g1 e1 a2, getProperty_form g e a2, hid, hty, hsome, hm2, hcell]
    simp only [if_true]
    by_cases hnf : a2 = ATTRIBUTE_NOTFOUND
    · simp [hnf]
    · simp only [hnf, false_or]
      by_cases hp : e.entity.prop_count = 0
      · have hz : g.setCount e.entity.entity_type e.entity.id = 0 := by omega
        have hnone := (setCount_eq_zero_iff g e.entity.entity_type e.entity.id).mp hz a2
        rw [hnone]
        simp only [if_pos hp]
        split <;> rfl
      · by_cases hp1 : e1.entity.prop_count = 0
        · simp only [if_pos hp1, if_neg hp]
          cases hc2 : g.cell e.entity.entity_type a2 e.entity.id with
          | none => rfl
          | some v2 =>
            exfalso
            obtain ⟨g0, ent0, hr, hnull, hadd⟩ := setProperty_steps g e a v g1 e1 h
            obtain ⟨_, _, _, _, _, _, _, _, hpc⟩ := removeProperty_effect g e.entity a g0 ent0 hr
            have hadded : SIValue_IsNull v = true := by
              by_contra hn
              have hn2 : SIValue_IsNull v = false := by simpa using hn
              obtain ⟨_, _, hpc2, _⟩ :=
                addProperty_effect g0 { entity := ent0 } a (SI_CloneValue v) g1 e1 (hadd hn2)
              simp only at hpc2
              rw [hpc2, hpc] at hp1
              have hge : (0 : Int) ≤ g.setCount e.entity.entity_type e.entity.id :=
                Int.natCast_nonneg _
              split_ifs at hp1 <;> omega
            obtain ⟨_, he1⟩ := hnull hadded
            rw [he1] at hp1
            simp only at hp1
            rw [hpc] at hp1
            split_ifs at hp1 with hcnd
            · cases hc1 : g.cell e.entity.entity_type a e.entity.id with
              | none => rw [hc1] at hcnd; simp at hcnd
              | some v1 =>
                have := setCount_two_cells g e.entity.entity_type e.entity.id a a2 v1 v2 hc1 hc2
                  (fun hc => ha2 hc.symm)
                omega
            · omega
        · simp only [if_neg hp1, if_neg hp]

/-- Witness of C18: setting `city` on node 0 leaves the read of `name` as it
was, for node 0 and for an edge with the same id. -/
theorem C18_setProperty_frame_witness :
    ∃ g1 e1, GraphEntity_SetProperty sampleAliceGraph sampleNodeOne 2 sampleAge
        = Except.ok (g1, e1) ∧
      GraphEntity_GetProperty g1 e1 0 = GraphEntity_GetProperty sampleAliceGraph sampleNodeOne 0 ∧
      g1.entry GETYPE_EDGE 0 0 0 = sampleAliceGraph.entry GETYPE_EDGE 0 0 0 := by
  obtain ⟨g1, e1, hs⟩ := setProperty_total sampleAliceGraph sampleNodeOne 2 sampleAge (by decide)
  obtain ⟨_, _, hf, _, _, hself⟩ :=
    C18_setProperty_frame sampleAliceGraph sampleNodeOne 2 sampleAge g1 e1 hs
  exact ⟨g1, e1, hs, hself 0 (by decide) (by decide) (by decide),
    hf GETYPE_EDGE 0 0 0 (by decide)⟩

/-- Counterexample to C18 as stated.  Node 0 holds `name` and `city` while its
record says `prop_count = 1`.  Setting `name` to null returns with
`prop_count = 0` and leaves the cell of `city` as it was, yet
`GraphEntity_GetProperty` for `city`, another attribute of the same entity,
gives 42 before the call and null after it. -/
theorem C18_setProperty_frame_counterexample :
    sampleTwoGraph.setCount GETYPE_NODE 0 = 2 ∧ ENTITY_PROP_COUNT sampleNodeOne = 1 ∧
    GraphEntity_SetProperty sampleTwoGraph sampleNodeOne 0 SI_NullVal
      = Except.ok (sampleNameRemovedGraph, sampleNode) ∧
    sampleNameRemovedGraph.cell GETYPE_NODE 2 0 = sampleTwoGraph.cell GETYPE_NODE 2 0 ∧
    GraphEntity_GetProperty sampleTwoGraph sampleNodeOne 2 = Except.ok sampleAge ∧
    GraphEntity_GetProperty sampleNameRemovedGraph sampleNode 2 = Except.ok SI_NullVal ∧
    GraphEntity_GetProperty sampleNameRemovedGraph sampleNode 2
      ≠ GraphEntity_GetProperty sampleTwoGraph sampleNodeOne 2 := by
  refine ⟨by decide, by decide, rfl, by decide, rfl, rfl, ?_⟩
  rw [show GraphEntity_GetProperty sampleNameRemovedGraph sampleNode 2
        = Except.ok SI_NullVal from rfl,
    show GraphEntity_GetProperty sampleTwoGraph sampleNodeOne 2 = Except.ok sampleAge from rfl]
  intro h
  injection h with h
  exact absurd h (by decide)

/-! ## Last write wins -/

theorem setProperty_invariant (g : Graph) (e : GraphEntity) (a : Attribute_ID) (v : SIValue)
    (g1 : Graph) (e1 : GraphEntity) (h : GraphEntity_SetProperty g e a v = Except.ok (g1, e1))
    (hinv : PropCountInvariant g e.entity) : PropCountInvariant g1 e1.entity := by
  obtain ⟨hid, hty, hcount, _⟩ := setProperty_counts g e a v g1 e1 h hinv
  unfold PropCountInvariant at hinv ⊢
  rw [hid, hty, hcount e.entity.entity_type e.entity.id]
  simp [sameKind]
  omega

/-- Under the invariant the cell of the attribute after a returning
`GraphEntity_SetProperty` is absent for a null value and holds the stored
clone otherwise. -/
theorem setProperty_target_cell (g : Graph) (e : GraphEntity) (a : Attribute_ID) (v : SIValue)
    (g1 : Graph) (e1 : GraphEntity) (h : GraphEntity_SetProperty g e a v = Except.ok (g1, e1))
    (hinv : PropCountInvariant g e.entity) :
    g1.cell e.entity.entity_type a e.entity.id
      = if SIValue_IsNull v = true then none else some (SI_CloneValue (SI_CloneValue v)) := by
  obtain ⟨g0, ent0, hr, hnull, hadd⟩ := setProperty_steps g e a v g1 e1 h
  obtain ⟨hid, hty, _⟩ := removeProperty_effect g e.entity a g0 ent0 hr
  by_cases hn : SIValue_IsNull v = true
  · obtain ⟨rfl, _⟩ := hnull hn
    rw [if_pos hn]
    exact removeProperty_cell_absent g e.entity a g1 ent0 hr hinv
  · have hn2 : SIValue_IsNull v = false := by simpa using hn
    obtain ⟨_, _, _, hcell, _⟩ :=
      addProperty_effect g0 { entity := ent0 } a (SI_CloneValue v) g1 e1 (hadd hn2)
    simp only at hcell
    rw [if_neg hn, ← hid, ← hty]
    exact hcell

/-- C19: last write wins.  For an entity satisfying the invariant and an
attribute that has a matrix, `GraphEntity_SetProperty` with `v1` followed by
`GraphEntity_SetProperty` with `v2` (each null or not) returns and leaves the
same `prop_count`, id and type tag and the same logical content of every cell
of every attribute matrix as `GraphEntity_SetProperty` with `v2` alone; with
`v1 = v2` this is idempotence.  `GraphEntity_AddProperty` is different:
applied twice it leaves `prop_count` one higher than applied once. -/
theorem C19_last_write_wins (g : Graph) (e : GraphEntity) (a : Attribute_ID) (v1 v2 : SIValue)
    (hinv : PropCountInvariant g e.entity)
    (hm : (g.attributeMatrix e.entity.entity_type a).isSome = true) :
    (∃ gA eA gB eB gC eC,
      GraphEntity_SetProperty g e a v1 = Except.ok (gA, eA) ∧
      GraphEntity_SetProperty gA eA a v2 = Except.ok (gB, eB) ∧
      GraphEntity_SetProperty g e a v2 = Except.ok (gC, eC) ∧
      ENTITY_PROP_COUNT eB = ENTITY_PROP_COUNT eC ∧
      ENTITY_GET_ID eB = ENTITY_GET_ID eC ∧ ENTITY_TYPE eB = ENTITY_TYPE eC ∧
      (∀ (ty2 : Nat) (a2 : Attribute_ID) (i j : Nat),
        gB.entry ty2 a2 i j = gC.entry ty2 a2 i j) ∧
      (∀ ty2 a2, (gB.attributeMatrix ty2 a2).isSome = (gC.attributeMatrix ty2 a2).isSome)) ∧
    (∃ g1 e1 g2 e2,
      GraphEntity_AddProperty g e a v2 = Except.ok (g1, e1) ∧
      GraphEntity_AddProperty g1 e1 a v2 = Except.ok (g2, e2) ∧
      ENTITY_PROP_COUNT e1 = ENTITY_PROP_COUNT e + 1 ∧
      ENTITY_PROP_COUNT e2 = ENTITY_PROP_COUNT e + 2) := by
  simp only [ENTITY_PROP_COUNT, ENTITY_GET_ID, ENTITY_TYPE]
  constructor
  · obtain ⟨gA, eA, hA⟩ := setProperty_total g e a v1 hm
    obtain ⟨hfA, hsA, hidA, htyA⟩ := setProperty_entry_frame g e a v1 gA eA hA
    have hinvA := setProperty_invariant g e a v1 gA eA hA hinv
    have hmA : (gA.attributeMatrix eA.entity.entity_type a).isSome = true := by
      rw [htyA, hsA]; exact hm
    obtain ⟨gB, eB, hB⟩ := setProperty_total gA eA a v2 hmA
    obtain ⟨hfB, hsB, hidB, htyB⟩ := setProperty_entry_frame gA eA a v2 gB eB hB
    obtain ⟨gC, eC, hC⟩ := setProperty_total g e a v2 hm
    obtain ⟨hfC, hsC, hidC, htyC⟩ := setProperty_entry_frame g e a v2 gC eC hC
    obtain ⟨_, _, _, hpcA⟩ := setProperty_counts g e a v1 gA eA hA hinv
    obtain ⟨_, _, _, hpcB⟩ := setProperty_counts gA eA a v2 gB eB hB hinvA
    obtain ⟨_, _, _, hpcC⟩ := setProperty_counts g e a v2 gC eC hC hinv
    have hcA := setProperty_target_cell g e a v1 gA eA hA hinv
    have hcB := setProperty_target_cell gA eA a v2 gB eB hB hinvA
    have hcC := setProperty_target_cell g e a v2 gC eC hC hinv
    rw [hidA, htyA] at hcB hpcB
    refine ⟨gA, eA, gB, eB, gC, eC, hA, hB, hC, ?_, by rw [hidB, hidA, hidC],
      by rw [htyB, htyA, htyC], ?_, fun ty2 a2 => by rw [hsB, hsA, hsC]⟩
    · rw [hpcB, hpcC, hpcA, hcA]
      by_cases hn1 : SIValue_IsNull v1 = true
      · simp [hn1]
      · simp [hn1]
    · intro ty2 a2 i j
      by_cases hc : sameKind ty2 e.entity.entity_type ∧ a2 = a ∧ i = e.entity.id ∧ j = e.entity.id
      · obtain ⟨hk, rfl, rfl, rfl⟩ := hc
        have hB2 : gB.entry ty2 a2 e.entity.id e.entity.id
            = gB.cell e.entity.entity_type a2 e.entity.id := by
          rw [cell_sameKind gB e.entity.entity_type ty2 a2 e.entity.id
            (by unfold sameKind at hk ⊢; exact hk.symm)]
          rfl
        have hC2 : gC.entry ty2 a2 e.entity.id e.entity.id
            = gC.cell e.entity.entity_type a2 e.entity.id := by
          rw [cell_sameKind gC e.entity.entity_type ty2 a2 e.entity.id
            (by unfold sameKind at hk ⊢; exact hk.symm)]
          rfl
        rw [hB2, hC2, hcB, hcC]
      · rw [hfB ty2 a2 i j (by rw [hidA, htyA]; exact hc), hfA ty2 a2 i j hc, hfC ty2 a2 i j hc]
  · obtain ⟨g1, e1, h1⟩ := addProperty_total g e a v2 hm
    obtain ⟨_, hty1, hpc1, _, _, _, hs1, _⟩ := addProperty_effect g e a v2 g1 e1 h1
    have hm1 : (g1.attributeMatrix e1.entity.entity_type a).isSome = true := by
      rw [hty1, hs1]; exact hm
    obtain ⟨g2, e2, h2⟩ := addProperty_total g1 e1 a v2 hm1
    obtain ⟨_, _, hpc2, _⟩ := addProperty_effect g1 e1 a v2 g2 e2 h2
    exact ⟨g1, e1, g2, e2, h1, h2, hpc1, by rw [hpc2, hpc1]; omega⟩

/-- Witness of C19 on node 0 holding `name = "Alice"`: setting "Bob" and then
"Alice" again gives `prop_count` and cells of a single set of "Alice". -/
theorem C19_last_write_wins_witness :
    ∃ gA eA gB eB gC eC,
      GraphEntity_SetProperty sampleAliceGraph sampleNodeOne 0 sampleBob = Except.ok (gA, eA) ∧
      GraphEntity_SetProperty gA eA 0 sampleAlice = Except.ok (gB, eB) ∧
      GraphEntity_SetProperty sampleAliceGraph sampleNodeOne 0 sampleAlice
        = Except.ok (gC, eC) ∧
      ENTITY_PROP_COUNT eB = ENTITY_PROP_COUNT eC ∧
      gB.entry GETYPE_NODE 0 0 0 = gC.entry GETYPE_NODE 0 0 0 := by
  obtain ⟨⟨gA, eA, gB, eB, gC, eC, hA, hB, hC, hp, _, _, hf, _⟩, _⟩ :=
    C19_last_write_wins sampleAliceGraph sampleNodeOne 0 sampleBob sampleAlice
      (by decide) (by decide)
  exact ⟨gA, eA, gB, eB, gC, eC, hA, hB, hC, hp, hf GETYPE_NODE 0 0 0⟩

/-! ## MGraph_Delete -/

/-- C16: `MGraph_Delete` with `argc = 2`.  When the graph cannot be retrieved
the calls made are exactly: start the timer, retrieve, reply with the error
"Graph is either missing or referred key is of a different type.", free the
query context, replicate verbatim; the key is neither opened nor deleted, no
graph context is released, and the return code is `REDISMODULE_OK`.  When the
graph is retrieved the key is opened for writing and deleted, the context
obtained from the retrieve is released exactly once, the command is
replicated verbatim and the return code is `REDISMODULE_OK`. -/
theorem C16_mgraph_delete (wrongArity : Int) (retrieve : String → Option Nat)
    (strElapsed : String) (argv : List String) (graph_name : String) (hname : argv[1]? = some graph_name) :
    (retrieve graph_name = none →
      MGraph_Delete wrongArity retrieve strElapsed argv 2
        = Except.ok (REDISMODULE_OK,
            [ModuleCall.QueryCtx_BeginTimer,
             ModuleCall.GraphContext_Retrieve graph_name false false,
             ModuleCall.RedisModule_ReplyWithError
               "Graph is either missing or referred key is of a different type.",
             ModuleCall.QueryCtx_Free,
             ModuleCall.RedisModule_ReplicateVerbatim])) ∧
    (∀ gc, retrieve graph_name = some gc →
      ∃ calls, MGraph_Delete wrongArity retrieve strElapsed argv 2 = Except.ok (REDISMODULE_OK, calls) ∧
        ModuleCall.RedisModule_OpenKey graph_name REDISMODULE_WRITE ∈ calls ∧
        ModuleCall.RedisModule_DeleteKey graph_name ∈ calls ∧
        calls.count (ModuleCall.GraphContext_Release gc) = 1 ∧
        (∀ gc2, ModuleCall.GraphContext_Release gc2 ∈ calls → gc2 = gc) ∧
        calls.getLast? = some ModuleCall.RedisModule_ReplicateVerbatim ∧
        (∀ msg, ModuleCall.RedisModule_ReplyWithError msg ∉ calls)) ∧
    (∀ calls code, MGraph_Delete wrongArity retrieve strElapsed argv 2 = Except.ok (code, calls) →
      retrieve graph_name = none →
      (∀ name mode, ModuleCall.RedisModule_OpenKey name mode ∉ calls) ∧
      (∀ name, ModuleCall.RedisModule_DeleteKey name ∉ calls) ∧
      (∀ gc, ModuleCall.GraphContext_Release gc ∉ calls) ∧
      ModuleCall.RedisModule_ReplicateVerbatim ∈ calls ∧ code = REDISMODULE_OK) := by
  have hnone : retrieve graph_name = none →
      MGraph_Delete wrongArity retrieve strElapsed argv 2
        = Except.ok (REDISMODULE_OK,
            [ModuleCall.QueryCtx_BeginTimer,
             ModuleCall.GraphContext_Retrieve graph_name false false,
             ModuleCall.RedisModule_ReplyWithError
               "Graph is either missing or referred key is of a different type.",
             ModuleCall.QueryCtx_Free,
             ModuleCall.RedisModule_ReplicateVerbatim]) := by
    intro hr
    unfold MGraph_Delete
    simp [hname, hr]
  refine ⟨hnone, ?_, ?_⟩
  · intro gc hr
    refine ⟨[ModuleCall.QueryCtx_BeginTimer,
        ModuleCall.GraphContext_Retrieve graph_name false false,
        ModuleCall.RedisModule_OpenKey graph_name REDISMODULE_WRITE,
        ModuleCall.RedisModule_DeleteKey graph_name,
        ModuleCall.GraphContext_Release gc,
        ModuleCall.QueryCtx_GetExecutionTime,
        ModuleCall.RedisModule_ReplyWithStringBuffer strElapsed,
        ModuleCall.QueryCtx_Free,
        ModuleCall.free strElapsed,
        ModuleCall.RedisModule_ReplicateVerbatim], ?_, ?_, ?_, ?_, ?_, ?_, ?_⟩
    · unfold MGraph_Delete
      simp [hname, hr]
    · simp
    · simp
    · simp [List.count_cons]
    · intro gc2 h
      simp at h
      exact h
    · simp
    · intro msg h
      simp at h
  · intro calls code h hr
    rw [hnone hr] at h
    simp only [Except.ok.injEq, Prod.mk.injEq] at h
    obtain ⟨rfl, rfl⟩ := h
    refine ⟨?_, ?_, ?_, ?_, rfl⟩
    · intro name mode h; simp at h
    · intro name h; simp at h
    · intro gc h; simp at h
    · simp

/-- Witness of C16: deleting the graph "g" when the keyspace holds no graph. -/
theorem C16_mgraph_delete_witness :
    MGraph_Delete 0 (fun _ => none) "" ["GRAPH.DELETE", "g"] 2
      = Except.ok (REDISMODULE_OK,
          [ModuleCall.QueryCtx_BeginTimer,
           ModuleCall.GraphContext_Retrieve "g" false false,
           ModuleCall.RedisModule_ReplyWithError
             "Graph is either missing or referred key is of a different type.",
           ModuleCall.QueryCtx_Free,
           ModuleCall.RedisModule_ReplicateVerbatim]) :=
  (C16_mgraph_delete 0 (fun _ => none) "" ["GRAPH.DELETE", "g"] "g" rfl).1 rfl

/-! ## The minv kernel -/

theorem GB_IMINV_UNSIGNED_values (x : Nat) :
    GB_IMINV_UNSIGNED x 32 = if x = 0 then 4294967295 else if x = 1 then 1 else 0 := by
  unfold GB_IMINV_UNSIGNED
  by_cases h0 : x = 0
  · simp [h0]
  · by_cases h1 : x = 1
    · simp [h1]
    · have hx : 1 < x := by omega
      simp only [if_neg h0, if_neg h1]
      exact Nat.div_eq_of_lt hx

theorem GB_CAST_OP_ok (Cx Ax : List Nat) (p : Nat) (a : Nat) (ha : Ax[p]? = some a)
    (hp : p < Cx.length) :
    GB_CAST_OP Cx Ax p p = Except.ok (Cx.set p (GB_IMINV_UNSIGNED (a % UINT32_RANGE) 32)) := by
  unfold GB_CAST_OP
  simp [ha, hp]

/-- The iterations carried out in any order write, for every index of the
order, the inverse of the entry of `Ax` at that index, and nothing else. -/
theorem GB_unop_iterations_spec (Ax : List Nat) :
    ∀ (order Cx : List Nat), (∀ p ∈ order, p < Cx.length ∧ p < Ax.length) →
      ∃ Cx1, GB_unop_iterations order Cx Ax = Except.ok Cx1 ∧ Cx1.length = Cx.length ∧
        ∀ q : Nat, Cx1[q]? = if q ∈ order
          then (Ax[q]?).map (fun a => GB_IMINV_UNSIGNED (a % UINT32_RANGE) 32) else Cx[q]? := by
  intro order
  induction order with
  | nil =>
    intro Cx _
    exact ⟨Cx, rfl, rfl, fun q => by simp⟩
  | cons p order ih =>
    intro Cx hb
    obtain ⟨hpC, hpA⟩ := hb p (List.mem_cons_self _ _)
    have ha : Ax[p]? = some (Ax.get ⟨p, hpA⟩) := List.getElem?_eq_getElem hpA
    have hstep := GB_CAST_OP_ok Cx Ax p _ ha hpC
    obtain ⟨Cx1, hrun, hlen, hval⟩ := ih (Cx.set p (GB_IMINV_UNSIGNED (Ax.get ⟨p, hpA⟩ % UINT32_RANGE) 32))
      (fun q hq => by
        obtain ⟨h1, h2⟩ := hb q (List.mem_cons_of_mem _ hq)
        exact ⟨by simp only [List.length_set]; exact h1, h2⟩)
    refine ⟨Cx1, ?_, by rw [hlen, List.length_set], ?_⟩
    · rw [GB_unop_iterations, hstep]
      exact hrun
    · intro q
      rw [hval q]
      by_cases hq : q ∈ order
      · simp [hq]
      · rw [if_neg hq]
        by_cases hqp : q = p
        · subst hqp
          rw [List.getElem?_set_self hpC, ha]
          simp
        · rw [List.getElem?_set_ne (fun h => hqp h.symm)]
          simp [hq, hqp]

/-- C20: when the operator is enabled, `GB_unop__minv_uint32_uint16` on arrays
holding at least `anz` entries returns `GrB_SUCCESS` and sets `Cx[p]`, for every
`0 <= p < anz`, to the inverse of `Ax[p]` zero-extended to 32 bits: the
maximum `uint32` value for 0, 1 for 1 and 0 for every larger entry; the other
entries of `Cx` are unchanged and the result is the same for every number of
threads and every order of the iterations.  When the operator is disabled
the function returns `GrB_NO_VALUE` and `Cx` is as before. -/
theorem C20_minv_uint32_uint16 (Cx Ax : List Nat) (anz nthreads : Int) (order : List Nat)
    (horder : iterationOrder anz order)
    (hAx : anz.toNat ≤ Ax.length) (hCx : anz.toNat ≤ Cx.length)
    (h16 : ∀ a ∈ Ax, a < UINT16_RANGE) :
    (∃ Cx1, GB_unop__minv_uint32_uint16 false Cx Ax anz nthreads order
          = Except.ok (GrB_SUCCESS, Cx1) ∧
        Cx1.length = Cx.length ∧
        (∀ p : Nat, (p : Int) < anz →
          ∃ a, Ax[p]? = some a ∧
            Cx1[p]? = some (if a = 0 then 4294967295 else if a = 1 then 1 else 0)) ∧
        (∀ p : Nat, ¬ ((p : Int) < anz) → Cx1[p]? = Cx[p]?) ∧
        (∀ (nthreads2 : Int) (order2 : List Nat), iterationOrder anz order2 →
          GB_unop__minv_uint32_uint16 false Cx Ax anz nthreads2 order2
            = Except.ok (GrB_SUCCESS, Cx1))) ∧
    GB_unop__minv_uint32_uint16 true Cx Ax anz nthreads order = Except.ok (GrB_NO_VALUE, Cx) := by
  refine ⟨?_, by simp [GB_unop__minv_uint32_uint16]⟩
  have hmem : ∀ (ord : List Nat), iterationOrder anz ord → ∀ q : Nat,
      q ∈ ord.filter (fun p : Nat => decide ((p : Int) < anz)) ↔ (q : Int) < anz := by
    intro ord hord q
    unfold iterationOrder at hord
    rw [List.mem_filter, hord.mem_iff, List.mem_range]
    simp only [decide_eq_true_eq]
    constructor
    · intro h; exact h.2
    · intro h; exact ⟨by omega, h⟩
  have hrun : ∀ (ord : List Nat), iterationOrder anz ord →
      ∃ Cx1, GB_unop_iterations (ord.filter (fun p : Nat => decide ((p : Int) < anz))) Cx Ax
          = Except.ok Cx1 ∧ Cx1.length = Cx.length ∧
        ∀ q : Nat, Cx1[q]? = if (q : Int) < anz
          then (Ax[q]?).map (fun a => GB_IMINV_UNSIGNED (a % UINT32_RANGE) 32) else Cx[q]? := by
    intro ord hord
    obtain ⟨Cx1, h1, h2, h3⟩ := GB_unop_iterations_spec Ax
      (ord.filter (fun p : Nat => decide ((p : Int) < anz))) Cx
      (fun p hp => by
        have := (hmem ord hord p).mp hp
        constructor <;> omega)
    refine ⟨Cx1, h1, h2, ?_⟩
    intro q
    rw [h3 q]
    by_cases hq : (q : Int) < anz
    · rw [if_pos ((hmem ord hord q).mpr hq), if_pos hq]
    · rw [if_neg (fun h => hq ((hmem ord hord q).mp h)), if_neg hq]
  obtain ⟨Cx1, h1, h2, h3⟩ := hrun order horder
  refine ⟨Cx1, by simp [GB_unop__minv_uint32_uint16, h1], h2, ?_, ?_, ?_⟩
  · intro p hp
    have hpA : p < Ax.length := by omega
    refine ⟨Ax.get ⟨p, hpA⟩, List.getElem?_eq_getElem hpA, ?_⟩
    rw [h3 p, if_pos hp, List.getElem?_eq_getElem hpA]
    have hlt : Ax.get ⟨p, hpA⟩ < UINT16_RANGE := h16 _ (List.get_mem Ax p hpA)
    have hmod : Ax.get ⟨p, hpA⟩ % UINT32_RANGE = Ax.get ⟨p, hpA⟩ := by
      apply Nat.mod_eq_of_lt
      unfold UINT16_RANGE at hlt
      unfold UINT32_RANGE
      omega
    simp only [Option.map_some', List.get_eq_getElem] at hmod ⊢
    rw [hmod, GB_IMINV_UNSIGNED_values]
  · intro p hp
    rw [h3 p, if_neg hp]
  · intro nthreads2 order2 horder2
    obtain ⟨Cx2, k1, k2, k3⟩ := hrun order2 horder2
    have heq : Cx2 = Cx1 := by
      apply List.ext_getElem?
      intro q
      rw [k3 q, h3 q]
    subst heq
    simp [GB_unop__minv_uint32_uint16, k1]

/-- Witness of C20 on `Ax = [0, 1, 7]` with the iterations in the order 2, 0, 1. -/
theorem C20_minv_uint32_uint16_witness :
    GB_unop__minv_uint32_uint16 false [9, 9, 9, 9] [0, 1, 7] 3 2 [2, 0, 1]
      = Except.ok (GrB_SUCCESS, [4294967295, 1, 0, 9]) ∧
    ∃ Cx1, GB_unop__minv_uint32_uint16 false [9, 9, 9, 9] [0, 1, 7] 3 2 [2, 0, 1]
        = Except.ok (GrB_SUCCESS, Cx1) ∧ Cx1.length = 4 := by
  refine ⟨rfl, ?_⟩
  obtain ⟨⟨Cx1, h1, h2, _⟩, _⟩ :=
    C20_minv_uint32_uint16 [9, 9, 9, 9] [0, 1, 7] 3 2 [2, 0, 1]
      (by unfold iterationOrder; decide) (by decide) (by decide) (by decide)
  exact ⟨Cx1, h1, h2⟩

/-! ## Buffer lemmas -/

theorem sizeSub_eq (a b : Nat) (hb : b ≤ a) (ha : a < SIZE_RANGE) : sizeSub a b = a - b := by
  unfold sizeSub
  have h1 : a + SIZE_RANGE - b = (a - b) + SIZE_RANGE := by omega
  rw [h1, Nat.add_mod_right]
  exact Nat.mod_eq_of_lt (by omega)

theorem sizeAdd_eq (a b : Nat) (h : a + b < SIZE_RANGE) : sizeAdd a b = a + b := by
  unfold sizeAdd
  exact Nat.mod_eq_of_lt h

theorem rm_realloc_grow (fresh : Nat → Char) (buffer : List Char) (size : Nat)
    (h : buffer.length ≤ size) :
    (rm_realloc fresh buffer size).length = size ∧
    ∀ n, n ≤ buffer.length → (rm_realloc fresh buffer size).take n = buffer.take n := by
  unfold rm_realloc
  rw [List.take_of_length_le h]
  constructor
  · simp only [List.length_append, List.length_map, List.length_range]
    omega
  · intro n hn
    rw [List.take_append_of_le_length hn]

/-- The space check keeps a consistent buffer consistent and gives it the size
the check computes. -/
theorem growIfBelow_holds (fresh : Nat → Char) (s : StringBuffer) (text : List Char)
    (need extra : Nat) (h : s.Holds text) (hsize : s.bufferLen + extra < SIZE_RANGE) :
    (growIfBelow fresh s need extra).Holds text ∧
    (growIfBelow fresh s need extra).bufferLen
      = (if s.bufferLen - s.bytesWritten < need then s.bufferLen + extra else s.bufferLen) := by
  obtain ⟨hlen, hbw, htake, hle, hlt⟩ := h
  unfold growIfBelow
  rw [sizeSub_eq _ _ hle hlt]
  by_cases hc : s.bufferLen - s.bytesWritten < need
  · simp only [if_pos hc]
    rw [sizeAdd_eq _ _ hsize]
    obtain ⟨h1, h2⟩ := rm_realloc_grow fresh s.buffer (s.bufferLen + extra) (by omega)
    refine ⟨⟨h1, hbw, ?_, ?_, hsize⟩, rfl⟩
    · show (rm_realloc fresh s.buffer (s.bufferLen + extra)).take s.bytesWritten = text
      rw [h2 s.bytesWritten (by omega)]
      exact htake
    · show s.bytesWritten ≤ s.bufferLen + extra
      omega
  · simp only [if_neg hc]
    exact ⟨⟨hlen, hbw, htake, hle, hlt⟩, trivial⟩

/-- Printing a text that fits, with its terminator, behind the text held so
far appends it. -/
theorem snprintfAppend_holds (s : StringBuffer) (text t : List Char) (h : s.Holds text)
    (hfit : s.bytesWritten + t.length + 1 ≤ s.bufferLen) :
    ∃ s1, snprintfAppend s t = Except.ok s1 ∧ s1.Holds (text ++ t) ∧
      s1.bufferLen = s.bufferLen ∧ s1.buffer[s1.bytesWritten]? = some NUL := by
  obtain ⟨hlen, hbw, htake, hle, hlt⟩ := h
  have hsz : s.bufferLen ≠ 0 := by omega
  have hmin : min t.length (s.bufferLen - 1) = t.length := by
    apply Nat.min_eq_left; omega
  have hin : s.bytesWritten + t.length + 1 ≤ s.buffer.length := by omega
  have hrun : snprintf s.buffer s.bytesWritten s.bufferLen t
      = Except.ok (s.buffer.take s.bytesWritten ++ t
          ++ NUL :: s.buffer.drop (s.bytesWritten + t.length + 1), t.length) := by
    unfold snprintf
    rw [if_neg hsz, hmin, if_pos hin, List.take_of_length_le (le_refl _)]
  have hadd : sizeAdd s.bytesWritten t.length = s.bytesWritten + t.length :=
    sizeAdd_eq _ _ (by omega)
  have hpre : (s.buffer.take s.bytesWritten ++ t).length = s.bytesWritten + t.length := by
    rw [List.length_append, List.length_take]
    omega
  refine ⟨{ buffer := s.buffer.take s.bytesWritten ++ t
              ++ NUL :: s.buffer.drop (s.bytesWritten + t.length + 1),
            bufferLen := s.bufferLen, bytesWritten := sizeAdd s.bytesWritten t.length },
    ?_, ⟨?_, ?_, ?_, ?_, hlt⟩, rfl, ?_⟩
  · unfold snprintfAppend
    rw [hrun]
  · simp only [List.length_append, List.length_cons, List.length_drop, List.length_take]
    omega
  · show sizeAdd s.bytesWritten t.length = (text ++ t).length
    rw [hadd, List.length_append, hbw]
  · show (s.buffer.take s.bytesWritten ++ t
        ++ NUL :: s.buffer.drop (s.bytesWritten + t.length + 1)).take
          (sizeAdd s.bytesWritten t.length) = text ++ t
    rw [hadd, ← hpre, List.take_left, htake]
  · show sizeAdd s.bytesWritten t.length ≤ s.bufferLen
    rw [hadd]; omega
  · show (s.buffer.take s.bytesWritten ++ t
        ++ NUL :: s.buffer.drop (s.bytesWritten + t.length + 1))[
          sizeAdd s.bytesWritten t.length]? = some NUL
    rw [hadd, ← hpre, List.getElem?_append_right (le_refl _)]
    simp

/-- The C string of an allocation whose first characters are a text free of
`NUL` and whose next character is `NUL` is that text. -/
theorem cString_of_take (buffer text : List Char) (n : Nat) (htake : buffer.take n = text)
    (hnul : buffer[n]? = some NUL) (hfree : ∀ c ∈ text, c ≠ NUL) :
    cString buffer = text := by
  have hsplit : buffer = text ++ NUL :: buffer.drop (n + 1) := by
    have h1 : buffer = buffer.take n ++ buffer.drop n := (List.take_append_drop n buffer).symm
    have h2 : buffer.drop n = NUL :: buffer.drop (n + 1) := by
      obtain ⟨hlt, hget⟩ := List.getElem?_eq_some_iff.mp hnul
      rw [← hget]
      exact List.drop_eq_getElem_cons hlt
    rw [h2, htake] at h1
    exact h1
  unfold cString
  rw [hsplit, List.takeWhile_append_of_pos (by
    intro c hc
    simpa using hfree c hc)]
  simp

theorem toList_length (str : String) : str.toList.length = str.length := rfl

theorem repr_digits_le (n : Nat) (h : n < SIZE_RANGE) : (Nat.repr n).length ≤ 20 := by
  apply Nat.repr_length n 20 (by decide)
  unfold SIZE_RANGE at h
  omega

/-- The block that prints `:` and the label: the space check for the length of
the label followed by the print.  It appends when the free space is at least
two more than the length of the label, or less than the length of the label
(the allocation then grows by that length) and at least two. -/
theorem labelStage_holds (fresh : Nat → Char) (s : StringBuffer) (text : List Char) (l : String)
    (h : s.Holds text) (hsize : s.bufferLen + l.length < SIZE_RANGE)
    (hroom : l.length + 2 ≤ s.bufferLen - s.bytesWritten ∨
      (s.bufferLen - s.bytesWritten < l.length ∧ 2 ≤ s.bufferLen - s.bytesWritten)) :
    ∃ s1, snprintfAppend (growIfBelow fresh s l.length l.length) (':' :: l.toList)
        = Except.ok s1 ∧ s1.Holds (text ++ ':' :: l.toList) ∧
      s1.bufferLen ≤ s.bufferLen + l.length ∧ s1.buffer[s1.bytesWritten]? = some NUL := by
  obtain ⟨hg, hgl⟩ := growIfBelow_holds fresh s text l.length l.length h hsize
  have hbw : (growIfBelow fresh s l.length l.length).bytesWritten = s.bytesWritten := by
    rw [hg.2.1, h.2.1]
  have hle := h.2.2.2.1
  have hfit : (growIfBelow fresh s l.length l.length).bytesWritten + (':' :: l.toList).length + 1
      ≤ (growIfBelow fresh s l.length l.length).bufferLen := by
    rw [hbw, hgl, List.length_cons, toList_length]
    split_ifs with hc <;> omega
  obtain ⟨s1, h1, h2, h3, h4⟩ := snprintfAppend_holds _ text (':' :: l.toList) hg hfit
  refine ⟨s1, h1, h2, ?_, h4⟩
  rw [h3, hgl]
  split_ifs <;> omega

/-- The block that prints the closing delimiter: the space check for two
characters followed by the print of one character. -/
theorem closeStage_holds (fresh : Nat → Char) (s : StringBuffer) (text : List Char) (c : Char)
    (h : s.Holds text) (hsize : s.bufferLen + 2 < SIZE_RANGE) :
    ∃ s1, snprintfAppend (growIfBelow fresh s 2 2) [c] = Except.ok s1 ∧
      s1.Holds (text ++ [c]) ∧ s1.buffer[s1.bytesWritten]? = some NUL := by
  obtain ⟨hg, hgl⟩ := growIfBelow_holds fresh s text 2 2 h hsize
  have hbw : (growIfBelow fresh s 2 2).bytesWritten = s.bytesWritten := by
    rw [hg.2.1, h.2.1]
  have hle := h.2.2.2.1
  have hfit : (growIfBelow fresh s 2 2).bytesWritten + [c].length + 1
      ≤ (growIfBelow fresh s 2 2).bufferLen := by
    rw [hbw, hgl, List.length_singleton]
    split_ifs with hc <;> omega
  obtain ⟨s1, h1, h2, _, h4⟩ := snprintfAppend_holds _ text [c] hg hfit
  exact ⟨s1, h1, h2, h4⟩

/-- The first two prints of `GraphEntity_ToString`: the opening delimiter and,
if asked for, the id. -/
theorem headerStage_holds (fresh : Nat → Char) (s : StringBuffer) (text : List Char)
    (e : GraphEntity) (format : Nat) (h : s.Holds text) (hid : ENTITY_GET_ID e < SIZE_RANGE)
    (hsize : s.bufferLen + 64 < SIZE_RANGE) :
    ∃ s1 s2,
      snprintfAppend (growIfBelow fresh s 64 64)
          (if ENTITY_TYPE e = GETYPE_NODE then "(" else "[").toList = Except.ok s1 ∧
      (if format &&& ENTITY_ID ≠ 0 then snprintfAppend s1 (Nat.repr (ENTITY_GET_ID e)).toList
        else Except.ok s1) = Except.ok s2 ∧
      s2.Holds (text ++ (if ENTITY_TYPE e = GETYPE_NODE then ['('] else ['['])
        ++ (if format &&& ENTITY_ID ≠ 0 then (Nat.repr (ENTITY_GET_ID e)).toList else [])) ∧
      s2.bufferLen - s2.bytesWritten = labelRoom s e format ∧
      43 ≤ s2.bufferLen - s2.bytesWritten ∧
      s2.bufferLen ≤ s.bufferLen + 64 := by
  obtain ⟨hg, hgl⟩ := growIfBelow_holds fresh s text 64 64 h hsize
  have hle := h.2.2.2.1
  have hbw0 : (growIfBelow fresh s 64 64).bytesWritten = s.bytesWritten := by
    rw [hg.2.1, h.2.1]
  have hopen : (if ENTITY_TYPE e = GETYPE_NODE then "(" else "[").toList
      = (if ENTITY_TYPE e = GETYPE_NODE then ['('] else ['[']) := by
    split <;> rfl
  have hopenLen : (if ENTITY_TYPE e = GETYPE_NODE then ['('] else ['[']).length = 1 := by
    split <;> rfl
  have hfit1 : (growIfBelow fresh s 64 64).bytesWritten
      + (if ENTITY_TYPE e = GETYPE_NODE then ['('] else ['[']).length + 1
      ≤ (growIfBelow fresh s 64 64).bufferLen := by
    rw [hbw0, hgl, hopenLen]
    split_ifs <;> omega
  obtain ⟨s1, h1, h1h, h1l, _⟩ := snprintfAppend_holds _ text _ hg hfit1
  have hbw1 : s1.bytesWritten = s.bytesWritten + 1 := by
    rw [h1h.2.1, List.length_append, hopenLen, h.2.1]
  have hdig := repr_digits_le (ENTITY_GET_ID e) hid
  by_cases hf : format &&& ENTITY_ID ≠ 0
  · have hfit2 : s1.bytesWritten + (Nat.repr (ENTITY_GET_ID e)).toList.length + 1
        ≤ s1.bufferLen := by
      rw [hbw1, h1l, hgl, toList_length]
      split_ifs <;> omega
    obtain ⟨s2, h2, h2h, h2l, _⟩ := snprintfAppend_holds s1 _ _ h1h hfit2
    have hbw2 : s2.bytesWritten = s.bytesWritten + 1 + (Nat.repr (ENTITY_GET_ID e)).length := by
      rw [h2h.2.1, List.length_append, List.length_append, hopenLen, toList_length, h.2.1]
    refine ⟨s1, s2, by rw [hopen]; exact h1, by rw [if_pos hf]; exact h2,
      by rw [if_pos hf]; exact h2h, ?_, ?_, ?_⟩
    · unfold labelRoom
      rw [if_pos hf, h2l, h1l, hgl, hbw2]
    · rw [h2l, h1l, hgl, hbw2]
      split_ifs <;> omega
    · rw [h2l, h1l, hgl]
      split_ifs <;> omega
  · refine ⟨s1, s1, by rw [hopen]; exact h1, by rw [if_neg hf],
      by rw [if_neg hf, List.append_nil]; exact h1h, ?_, ?_, ?_⟩
    · unfold labelRoom
      rw [if_neg hf, h1l, hgl, hbw1]
    · rw [h1l, hgl, hbw1]
      split_ifs <;> omega
    · rw [h1l, hgl]
      split_ifs <;> omega

/-- Rendering without properties where the space check of the label is
enough.  For a node or an edge (type tag `GETYPE_NODE` or `GETYPE_EDGE`; any
other entity when `ENTITY_LABELS_OR_RELATIONS` is not set) and a format
without `ENTITY_PROPERTIES`, on a consistent buffer whose free space at the
label is not exactly the length of the label or one more,
`GraphEntity_ToString` returns and has appended exactly: the opening
delimiter (`(` for a node, `[` otherwise), the decimal id if and
only if `ENTITY_ID` is set, `:` and the label or relationship type if and only
if `ENTITY_LABELS_OR_RELATIONS` is set and that string is not null, and the
closing delimiter (`)` or `]`), followed by the terminator; `bytesWritten`
has grown by exactly the length of the appended text, and the C string in the
buffer is the old text followed by the appended one when neither holds a
`NUL`. -/
theorem toString_without_properties (fresh : Nat → Char) (fuel : Nat) (gc : GraphContext)
    (g : Graph) (e : GraphEntity) (label : Option String) (s : StringBuffer) (format : Nat)
    (text : List Char)
    (hfmt : format &&& ENTITY_PROPERTIES = 0)
    (hty : ENTITY_TYPE e = GETYPE_NODE ∨ ENTITY_TYPE e = GETYPE_EDGE ∨
      format &&& ENTITY_LABELS_OR_RELATIONS = 0)
    (hid : ENTITY_GET_ID e < SIZE_RANGE)
    (hs : s.Holds text)
    (hsize : s.bufferLen + 66 + (label.map String.length).getD 0 < SIZE_RANGE)
    (hroom : ∀ l, label = some l → format &&& ENTITY_LABELS_OR_RELATIONS ≠ 0 →
      l.length + 2 ≤ labelRoom s e format ∨ labelRoom s e format < l.length) :
    ∃ s1, GraphEntity_ToString fresh fuel gc g e label s format = Except.ok s1 ∧
      s1.Holds (text ++ entityText e label format) ∧
      s1.bytesWritten = s.bytesWritten + (entityText e label format).length ∧
      s1.buffer[s1.bytesWritten]? = some NUL ∧
      ((∀ c ∈ text ++ entityText e label format, c ≠ NUL) →
        cString s1.buffer = text ++ entityText e label format) := by
  have hlab0 : 0 ≤ (label.map String.length).getD 0 := Nat.zero_le _
  obtain ⟨s1, s2, h1, h2, h2h, hroom2, h43, h2l⟩ :=
    headerStage_holds fresh s text e format hs hid (by omega)
  -- the label block
  have h3 : ∃ s3,
      (if format &&& ENTITY_LABELS_OR_RELATIONS ≠ 0 then
          if ENTITY_TYPE e = GETYPE_NODE then
            (match label with
              | some l => snprintfAppend (growIfBelow fresh s2 l.length l.length) (':' :: l.toList)
              | none => Except.ok s2)
          else if ENTITY_TYPE e = GETYPE_EDGE then
            (match label with
              | some l => snprintfAppend (growIfBelow fresh s2 l.length l.length) (':' :: l.toList)
              | none => Except.ok s2)
          else Except.error Fault.assertion
        else Except.ok s2) = Except.ok s3 ∧
      s3.Holds (text ++ (if ENTITY_TYPE e = GETYPE_NODE then ['('] else ['['])
        ++ (if format &&& ENTITY_ID ≠ 0 then (Nat.repr (ENTITY_GET_ID e)).toList else [])
        ++ (if format &&& ENTITY_LABELS_OR_RELATIONS ≠ 0 then
              match label with
              | some l => ':' :: l.toList
              | none => []
            else [])) ∧
      s3.bufferLen + 2 < SIZE_RANGE := by
    by_cases hf : format &&& ENTITY_LABELS_OR_RELATIONS ≠ 0
    · cases label with
      | none =>
        simp only [Option.map_none', Option.getD_none] at hsize
        refine ⟨s2, ?_, by simp only [if_pos hf, List.append_nil]; exact h2h, by omega⟩
        rcases hty with ht | ht | ht
        · simp only [if_pos hf, if_pos ht]
        · have hn : ¬ ENTITY_TYPE e = GETYPE_NODE := by rw [ht]; decide
          simp only [if_pos hf, if_neg hn, if_pos ht]
        · exact absurd ht hf
      | some l =>
        simp only [Option.map_some', Option.getD_some] at hsize
        have hr := hroom l rfl hf
        rw [← hroom2] at hr
        obtain ⟨s3, h3a, h3h, h3l, _⟩ := labelStage_holds fresh s2 _ l h2h (by omega)
          (hr.elim Or.inl (fun hlt => Or.inr ⟨hlt, by omega⟩))
        refine ⟨s3, ?_, by simp only [if_pos hf]; exact h3h, by omega⟩
        rcases hty with ht | ht | ht
        · simp only [if_pos hf, if_pos ht]; exact h3a
        · have hn : ¬ ENTITY_TYPE e = GETYPE_NODE := by rw [ht]; decide
          simp only [if_pos hf, if_neg hn, if_pos ht]; exact h3a
        · exact absurd ht hf
    · refine ⟨s2, by simp only [if_neg hf],
        by simp only [if_neg hf, List.append_nil]; exact h2h, by omega⟩
  obtain ⟨s3, h3, h3h, h3l⟩ := h3
  have hclose : (if ENTITY_TYPE e = GETYPE_NODE then ")" else "]").toList
      = [if ENTITY_TYPE e = GETYPE_NODE then ')' else ']'] := by
    split <;> rfl
  obtain ⟨s4, h4, h4h, h4n⟩ := closeStage_holds fresh s3 _
    (if ENTITY_TYPE e = GETYPE_NODE then ')' else ']') h3h h3l
  have htext : text ++ (if ENTITY_TYPE e = GETYPE_NODE then ['('] else ['['])
        ++ (if format &&& ENTITY_ID ≠ 0 then (Nat.repr (ENTITY_GET_ID e)).toList else [])
        ++ (if format &&& ENTITY_LABELS_OR_RELATIONS ≠ 0 then
              match label with
              | some l => ':' :: l.toList
              | none => []
            else [])
        ++ [if ENTITY_TYPE e = GETYPE_NODE then ')' else ']']
      = text ++ entityText e label format := by
    unfold entityText
    simp only [List.append_assoc]
    congr 4
    split <;> rfl
  rw [htext] at h4h
  have hprops : format &&& ENTITY_PROPERTIES ≠ 0 ↔ False := by
    rw [hfmt]; simp
  refine ⟨s4, ?_, h4h, ?_, h4n, ?_⟩
  · unfold GraphEntity_ToString
    simp only [h1, h2, h3, hprops, if_false, hclose, h4]
  · rw [h4h.2.1, List.length_append, hs.2.1]
  · intro hfree
    exact cString_of_take s4.buffer _ s4.bytesWritten h4h.2.2.1 h4n hfree

/-! ## Rendering claims -/

set_option maxRecDepth 100000 in
/-- Node 0 with label "Person" rendered with id and label into an empty buffer
gives the C string `(0:Person)`. -/
theorem toString_without_properties_witness :
    ∃ s1, GraphEntity_ToString sampleFresh 0 sampleCatalog sampleAliceGraph sampleNodeOne
        (some "Person") sampleEmptyBuffer 3 = Except.ok s1 ∧
      cString s1.buffer = "(0:Person)".toList ∧ s1.bytesWritten = 10 := by
  obtain ⟨s1, h1, _, h3, _, h5⟩ :=
    toString_without_properties sampleFresh 0 sampleCatalog sampleAliceGraph sampleNodeOne
      (some "Person") sampleEmptyBuffer 3 [] (by decide) (Or.inl (by decide)) (by decide)
      (by unfold StringBuffer.Holds; decide) (by decide)
      (fun l hl _ => by cases hl; left; decide)
  have htext : ([] : List Char) ++ entityText sampleNodeOne (some "Person") 3
      = "(0:Person)".toList := by decide
  rw [htext] at h5
  refine ⟨s1, h1, h5 (by decide), ?_⟩
  rw [h3]
  decide

set_option maxRecDepth 100000 in
/-- C12, the code at the failing input: node 0 with a label of 63 characters,
the format `ENTITY_LABELS_OR_RELATIONS` (no `ENTITY_PROPERTIES`), no buffer
allocated and `bytesWritten = 0`.  After `(` the allocation has 64 characters
and 1 is written; the space check `64 - 1 < 63` of the label does not hold, so
nothing is reallocated, and the print of `:`, the label and the terminator
from offset 1 runs past the end of the allocation: the call does not return
with the text appended.  A label of 62 characters does the same.  With 61
characters (there is room) and with 64 (the check holds and the buffer is
reallocated) the text `(:label)` is appended and its length reported. -/
theorem C12_toString_label_overrun :
    ENTITY_LABELS_OR_RELATIONS &&& ENTITY_PROPERTIES = 0 ∧
    ENTITY_TYPE sampleNode = GETYPE_NODE ∧ sampleLongLabel.length = 63 ∧
    GraphEntity_ToString sampleFresh 0 sampleCatalog sampleEmptyGraph sampleNode
        (some sampleLongLabel) sampleEmptyBuffer ENTITY_LABELS_OR_RELATIONS
      = Except.error Fault.outOfBounds ∧
    GraphEntity_ToString sampleFresh 0 sampleCatalog sampleEmptyGraph sampleNode
        (some (String.mk (List.replicate 62 'a'))) sampleEmptyBuffer ENTITY_LABELS_OR_RELATIONS
      = Except.error Fault.outOfBounds ∧
    renderedString (GraphEntity_ToString sampleFresh 0 sampleCatalog sampleEmptyGraph sampleNode
        (some (String.mk (List.replicate 61 'a'))) sampleEmptyBuffer ENTITY_LABELS_OR_RELATIONS)
      = some (String.mk ('(' :: ':' :: (List.replicate 61 'a' ++ [')'])), 64) ∧
    renderedString (GraphEntity_ToString sampleFresh 0 sampleCatalog sampleEmptyGraph sampleNode
        (some (String.mk (List.replicate 64 'a'))) sampleEmptyBuffer ENTITY_LABELS_OR_RELATIONS)
      = some (String.mk ('(' :: ':' :: (List.replicate 64 'a' ++ [')'])), 67) :=
  ⟨by decide, by decide, by decide, rfl, rfl, by decide, by decide⟩

set_option maxRecDepth 100000 in
/-- C13, the code at the failing input: node 0 holds the single property
`name = "Alice"` (attribute id 0, catalog name "name"; attribute id 1 is
"age" and is not set).  `GraphEntity_GetProperties` reports the pair as
`("name", "Alice")`, `GraphEntity_PropertiesToString` renders it under the
key of attribute id 1: `{age:Alice}`. -/
theorem C13_propertiesToString_key_mismatch :
    renderedString (GraphEntity_PropertiesToString sampleFresh 1 sampleCatalog sampleAliceGraph
        sampleNodeOne sampleEmptyBuffer) = some ("\x7bage:Alice\x7d", 11) ∧
    GraphContext_GetAttributeString sampleCatalog 0 = some "name" ∧
    GraphContext_GetAttributeString sampleCatalog 1 = some "age" ∧
    (sampleAliceGraph.cell GETYPE_NODE 0 0).isSome = true ∧
    sampleAliceGraph.cell GETYPE_NODE 1 0 = none ∧
    GraphEntity_GetProperties 1 sampleCatalog sampleAliceGraph sampleNodeOne sampleArraysOne
      = Except.ok
          ({ attr_ids := some [0], attr_names := some [some "name"],
             vs := [{ payload := SIPayload.stringval "Alice", type := SIType.T_STRING,
                      allocation := SIAllocation.M_CONST }] }, [0]) :=
  ⟨by decide, by decide, by decide, by decide, by decide, rfl⟩

set_option maxRecDepth 100000 in
/-- C14, the code at the failing input: node 0 holds the single property
`age = 42` under attribute id 1 and satisfies the invariant.
`GraphEntity_GetProperties` probes the ids 0 and 1 and returns the property;
`GraphEntity_PropertiesToString` probes the ids 0, 2, 4, ..., never id 1: with
whatever fuel it does not return (it runs out of fuel or out of attribute
matrices), and no pair is rendered. -/
theorem C14_propertiesToString_skips_odd :
    PropCountInvariant sampleOddGraph sampleNodeOne.entity ∧
    GraphEntity_GetProperties 2 sampleCatalog sampleOddGraph sampleNodeOne sampleArraysOne
      = Except.ok
          ({ attr_ids := some [1], attr_names := some [some "age"],
             vs := [{ payload := SIPayload.longval 42, type := SIType.T_INT64,
                      allocation := SIAllocation.M_NONE }] }, [0, 1]) ∧
    (∀ fuel : Nat, ∃ f, GraphEntity_PropertiesToString sampleFresh fuel sampleCatalog
        sampleOddGraph sampleNodeOne sampleEmptyBuffer = Except.error f) ∧
    GraphEntity_PropertiesToString sampleFresh 3 sampleCatalog sampleOddGraph sampleNodeOne
      sampleEmptyBuffer = Except.error Fault.assertion := by
  refine ⟨by decide, rfl, ?_, rfl⟩
  intro fuel
  match fuel with
  | 0 => exact ⟨_, rfl⟩
  | 1 => exact ⟨_, rfl⟩
  | 2 => exact ⟨_, rfl⟩
  | n + 3 => exact ⟨Fault.assertion, rfl⟩

set_option maxRecDepth 100000 in
/-- C15, the code at the failing inputs, each with an empty buffer and
`bytesWritten = 0`.  Node 0 with `name = "Alice"`, format id and properties:
the C string left in the buffer is `{` (the opening delimiter and the id are
overwritten, the rest lies behind a terminator) while `bytesWritten` is 14.
The same node without any property: C string `{`, 5 reported.  Node 0 with
two properties: C string `{`, 10 reported; and
`GraphEntity_PropertiesToString` alone on it leaves `{azip:42}`, the count
having been set back to 2 by the print of the separator. -/
theorem C15_reported_length_mismatch :
    renderedString (GraphEntity_ToString sampleFresh 1 sampleCatalog sampleAliceGraph
        sampleNodeOne none sampleEmptyBuffer (ENTITY_ID + ENTITY_PROPERTIES))
      = some ("\x7b", 14) ∧
    renderedString (GraphEntity_ToString sampleFresh 1 sampleCatalog sampleEmptyGraph
        sampleNode none sampleEmptyBuffer (ENTITY_ID + ENTITY_PROPERTIES))
      = some ("\x7b", 5) ∧
    renderedString (GraphEntity_ToString sampleFresh 2 sampleCatalogFour sampleTwoGraph
        sampleNodeTwo none sampleEmptyBuffer (ENTITY_ID + ENTITY_PROPERTIES))
      = some ("\x7b", 10) ∧
    renderedString (GraphEntity_PropertiesToString sampleFresh 2 sampleCatalogFour
        sampleTwoGraph sampleNodeTwo sampleEmptyBuffer)
      = some ("\x7bazip:42\x7d", 9) :=
  ⟨by decide, by decide, by decide, by decide⟩

/-! ## The double increment -/

/-- The loop of `GraphEntity_PropertiesToString` started at an even attribute id
passes only even attribute ids to `GraphEntity_GetProperty`: when no even
attribute is set on the entity it finds no property and, with properties
still to be printed, does not return, whatever the fuel. -/
theorem propertiesToString_loop_even_only (fresh : Nat → Char) (gc : GraphContext) (g : Graph)
    (e : GraphEntity)
    (heven : ∀ a : Nat, a % 2 = 0 → g.cell e.entity.entity_type a e.entity.id = none) :
    ∀ (fuel attr_id : Nat) (propCount : Int) (s : StringBuffer),
      attr_id % 2 = 0 → propCount ≠ 0 →
      ∃ f, GraphEntity_PropertiesToString_loop fresh gc g e fuel attr_id propCount s
        = Except.error f := by
  intro fuel
  induction fuel with
  | zero =>
    intro attr_id propCount s _ hp
    exact ⟨Fault.outOfFuel, by rw [GraphEntity_PropertiesToString_loop, if_neg hp]⟩
  | succ fuel ih =>
    intro attr_id propCount s ha hp
    rw [GraphEntity_PropertiesToString_loop, if_neg hp]
    cases hget : GraphEntity_GetProperty g e attr_id with
    | error f => exact ⟨f, rfl⟩
    | ok v =>
      have hv : v = SI_NullVal := by
        rw [getProperty_form g e attr_id, heven attr_id ha] at hget
        split at hget
        · exact (Except.ok.inj hget).symm
        · split at hget
          · exact (Except.ok.inj hget).symm
          · cases hget
      subst hv
      have hnext : ((attr_id + 1) % USHRT_RANGE + 1) % USHRT_RANGE % 2 = 0 := by
        unfold USHRT_RANGE
        omega
      obtain ⟨f, hf⟩ := ih (((attr_id + 1) % USHRT_RANGE + 1) % USHRT_RANGE) propCount s hnext hp
      refine ⟨f, ?_⟩
      simp only [SIValue_IsNull, SI_NullVal, decide_True, if_true]
      exact hf

/-- An entity with properties none of which sits at an even attribute id is
never rendered: `GraphEntity_PropertiesToString` does not return. -/
theorem propertiesToString_odd_never_returns (fresh : Nat → Char) (fuel : Nat)
    (gc : GraphContext) (g : Graph) (e : GraphEntity) (s : StringBuffer)
    (heven : ∀ a : Nat, a % 2 = 0 → g.cell e.entity.entity_type a e.entity.id = none)
    (hp : ENTITY_PROP_COUNT e ≠ 0) :
    ∃ f, GraphEntity_PropertiesToString fresh fuel gc g e s = Except.error f := by
  unfold GraphEntity_PropertiesToString
  simp only
  cases h1 : snprintf (growIfBelow fresh s 64 64).buffer 0 (growIfBelow fresh s 64 64).bufferLen
      "\x7b".toList with
  | error f => exact ⟨f, rfl⟩
  | ok r =>
    obtain ⟨bytes, n⟩ := r
    simp only
    obtain ⟨f, hf⟩ := propertiesToString_loop_even_only fresh gc g e heven fuel 0
      (ENTITY_PROP_COUNT e)
      { buffer := bytes, bufferLen := (growIfBelow fresh s 64 64).bufferLen,
        bytesWritten := sizeAdd (growIfBelow fresh s 64 64).bytesWritten n } rfl hp
    exact ⟨f, by rw [hf]⟩

end RedisGraph
